import Mathlib

/-!
# Driver tool dispatch (`tools/driver-tool/support2.hpp`)

A shallow embedding of the launcher's support header: the argument-vector
builder, identity detection, the validation of the common options and the
per-accession, multi-source execution loop, followed by the properties proved
about them.

Conventions of the embedding.

* `std::string` and `ncbi::String` are `String`; a C `int` is an `Int`.
* The collaborators that live in other headers (`proc.hpp`, `run-source.hpp`,
  `service.hpp`, ...) are parameters: the operating system is a record of
  state-passing functions over an arbitrary state type, the virtual
  `populate_argv_builder` is a function argument.
* Every function that has effects returns the list of `Event`s it performed,
  in program order, next to its value.
-/

namespace sratools2

/-! ## Data model -/

/-- The value of `EX_TEMPFAIL` from `sysexits.h`. -/
def EX_TEMPFAIL : Int := 75

/-- The value of `EX_USAGE` from `sysexits.h`. -/
def EX_USAGE : Int := 64

/-- An environment overlay: variable names with their values. -/
abbrev Environment := List (String × String)

/-- Modelled from the spec: `sratools::data_source` (declared in
`run-source.hpp`) is one candidate location for one accession, a service label
and the environment overlay of `get_environment()`. -/
structure data_source where
  service : String
  environment : Environment
deriving DecidableEq, Repr

/-- The accessor `data_source::get_environment`. -/
def data_source.get_environment (src : data_source) : Environment :=
  src.environment

/-- The result of `data_sources::preload`, seen through `sourcesFor`. -/
abbrev SourceSet := String → List data_source

/-- Modelled from the spec: the result of `run_child_and_wait` (declared in
`proc.hpp`) is a tagged variant, a normal exit with its code or a termination
by a signal with its number and, when it resolves, its name. The third
alternative stands for a status for which neither `exited()` nor `signaled()`
holds, which `exec_wait` answers with `abort()`. -/
inductive ProcResult where
  | exited (exit_code : Int)
  | signaled (termsig : Int) (termsigname : Option String)
  | other
deriving DecidableEq, Repr

/-- A materialised argument vector: the `char *` cells in order, a null
pointer being `none` and any other pointer `some` of the C string it points
to. -/
abbrev Argv := List (Option String)

/-- The ambient pointers `sratools::location`, `sratools::perm` and
`sratools::ngc`; `none` is `nullptr`. -/
structure Globals where
  location : Option String
  perm : Option String
  ngc : Option String
deriving DecidableEq, Repr

/-- How a call of `run` ends. -/
inductive Ending where
  /-- The function returns the value to its caller. -/
  | returned (code : Int)
  /-- The process ends in `exit(code)`. -/
  | exited (code : Int)
  /-- The process ends in `abort()`. -/
  | aborted
  /-- The process image was replaced by `run_child`. -/
  | replaced
  /-- A `std::system_error` with this `errno` and message leaves the function. -/
  | thrown (errno : Int) (what : String)
deriving DecidableEq, Repr

/-- One call of `run_child_and_wait` together with what it returned. `pos` is
the input position of the accession the loop is at and `src` the source the
loop is at; the other fields are the arguments of the call. -/
structure Spawn where
  pos : Nat
  src : data_source
  toolpath : String
  toolname : String
  argv : Argv
  env : Environment
  result : ProcResult
deriving DecidableEq, Repr

/-- The observable steps of the dispatch, in program order. -/
inductive Event where
  | set_ambient (g : Globals)
  | preload (accessions : List String) (ambient : Globals)
  | set_ce_token_env_var
  | populate_argv_builder (acc_index : Int) (accessions : List String)
  | generate_argv (argv : Argv)
  | run_child_and_wait (call : Spawn)
  | run_child (toolpath toolname : String) (argv : Argv)
  | free_argv (argv : Argv)
  | log (level : Nat) (text : String)
  | cerr (text : String)
deriving DecidableEq, Repr

/-- The collaborators of the dispatch over a state `σ` of the outside world:
the gateway, spawn-and-wait, and replace-the-process, which yields `none` when
the image was replaced and the value of `errno` when the call came back. -/
structure OS (σ : Type) where
  preload : σ → List String → Globals → SourceSet × σ
  run_child_and_wait : σ → String → String → Argv → Environment → ProcResult × σ
  run_child : σ → String → String → Argv → Option Int

/-! ## ArgvBuilder -/

/-- The C string that `strncpy( dst, src . c_str(), l )` with `l = src.length()`
followed by `dst[ l ] = 0` leaves at `dst`: `strncpy` copies up to the first
NUL character of the source and fills the rest of the `l` bytes with NUL, so the
string at `dst` is the source up to its first NUL character, the whole source
when it has none. -/
def strncpy_string (src : String) : String :=
  String.mk (src.data.takeWhile (fun c => c != Char.ofNat 0))

/-- Whether a string has no NUL character. -/
def nul_free (s : String) : Bool :=
  s.data.all (fun c => c != Char.ofNat 0)

/-- The struct `ArgvBuilder`: the accumulated options. -/
structure ArgvBuilder where
  options : List String := []
deriving DecidableEq, Repr

namespace ArgvBuilder

/-- The one-argument `add_option`. -/
def add_option (b : ArgvBuilder) (o : String) : ArgvBuilder :=
  { options := b.options ++ [o] }

/-- The two-argument `add_option`; `v` is the text the stream insertion of the
value produces. -/
def add_option_value (b : ArgvBuilder) (o v : String) : ArgvBuilder :=
  { options := b.options ++ [o] ++ [v] }

/-- The loop of `add_option_list`. -/
def add_option_list (b : ArgvBuilder) (o : String) : List String → ArgvBuilder
  | [] => b
  | value :: rest =>
    add_option_list { options := b.options ++ [o] ++ [value] } o rest

/-- The function `ArgvBuilder::add_string`, the allocation succeeding: a
pointer to a fresh buffer of `src.length() + 1` bytes filled by
`strncpy( dst, src . c_str(), l ); dst[ l ] = 0`, that is to the C string
`strncpy_string src`. -/
def add_string (src : String) : Option String :=
  some (strncpy_string src)

/-- The overload `generate_argv(int &argc, const std::string &argv0)`, every
allocation succeeding: the new `argc` and the cells. -/
def generate_argv0 (b : ArgvBuilder) (argv0 : String) : Int × Argv :=
  (((1 : Nat) + b.options.length : Nat),
    [add_string argv0] ++ b.options.map add_string ++ [none])

/-- The overload `generate_argv(std::vector<ncbi::String> const &args)`, every
allocation succeeding. -/
def generate_argv (b : ArgvBuilder) (args : List String) : Argv :=
  b.options.map add_string ++ args.map add_string ++ [none]

end ArgvBuilder

/-- One cell of the array `generate_argv` allocates: as `malloc` left it, or
holding a pointer, `none` being `nullptr`. -/
inductive Cell where
  | indeterminate
  | pointer (p : Option String)
deriving DecidableEq, Repr

/-- The statement `res[ argc++ ] = add_string( value )`. -/
def store_string (st : Nat × List Cell) (value : String) : Nat × List Cell :=
  (st.1 + 1, st.2.set st.1 (Cell.pointer (ArgvBuilder.add_string value)))

/-- A loop `for ( auto const &value : values ) res[ argc++ ] = add_string( value )`. -/
def store_strings : Nat × List Cell → List String → Nat × List Cell
  | st, [] => st
  | st, value :: rest => store_strings (store_string st value) rest

/-- What a call of `generate_argv` leaves: the builder, the final value of
`argc`, and the cells of the array it returns. -/
structure Generated where
  builder : ArgvBuilder
  argc : Nat
  cells : List Cell
deriving DecidableEq, Repr

/-- The overload `generate_argv(int &argc, const std::string &argv0)` cell by
cell, every allocation succeeding. -/
def ArgvBuilder.generate_argv0_cells (b : ArgvBuilder) (argv0 : String) : Generated :=
  let cnt := b.options.length + 2
  let res := List.replicate cnt Cell.indeterminate
  let st1 := store_string (0, res) argv0
  let st2 := store_strings st1 b.options
  { builder := b, argc := st2.1, cells := st2.2.set st2.1 (Cell.pointer none) }

/-- The overload `generate_argv(std::vector<ncbi::String> const &args)` cell by
cell, every allocation succeeding. -/
def ArgvBuilder.generate_argv_cells (b : ArgvBuilder) (args : List String) : Generated :=
  let cnt := b.options.length + args.length + 1
  let res := List.replicate cnt Cell.indeterminate
  let st1 := store_strings (0, res) b.options
  let st2 := store_strings st1 args
  { builder := b, argc := st2.1, cells := st2.2.set st2.1 (Cell.pointer none) }

/-! ## WhatImposter -/

/-- The enumeration `Imposter`. -/
inductive Imposter where
  | SRAPATH
  | PREFETCH
  | FASTQ_DUMP
  | FASTERQ_DUMP
  | SRA_PILEUP
  | SAM_DUMP
  | VDB_DUMP
  | INVALID
deriving DecidableEq, Repr

/-- Modelled from the spec: `sratools::ToolPath` (declared in `tool-path.hpp`)
as far as `WhatImposter` reads it, the basename and full path of the
invocation, the version the invoking binary declares and the version of the
toolkit. -/
structure ToolPath where
  basename : String
  fullpath : String
  version : String
  toolkit_version : String
deriving DecidableEq, Repr

/-- The helper `ends_with(ext, source)`: whether `source` ends in `ext`. -/
def ends_with (ext source : String) : Bool :=
  source.endsWith ext

/-- The function `WhatImposter::detect_imposter`; `windows` is the value of the
build flag `WINDOWS`. -/
def detect_imposter (windows : Bool) (source : String) : Imposter :=
  let ext := ".exe"
  let src :=
    if windows then
      (if ends_with ext source then (source.toList.take (source.length - ext.length)).asString
        else source)
    else source
  if src = "srapath" then Imposter.SRAPATH
  else if src = "prefetch" then Imposter.PREFETCH
  else if src = "fastq-dump" then Imposter.FASTQ_DUMP
  else if src = "fasterq-dump" then Imposter.FASTERQ_DUMP
  else if src = "sra-pileup" then Imposter.SRA_PILEUP
  else if src = "sam-dump" then Imposter.SAM_DUMP
  else if src = "vdb-dump" then Imposter.VDB_DUMP
  else Imposter.INVALID

/-- The function `WhatImposter::is_version_ok`. -/
def is_version_ok (toolpath : ToolPath) : Bool :=
  toolpath.version == toolpath.toolkit_version

/-- The struct `WhatImposter`. -/
structure WhatImposter where
  toolpath : ToolPath
  _imposter : Imposter
  _version_ok : Bool
deriving DecidableEq, Repr

/-- The two exceptions the constructor of `WhatImposter` throws. -/
inductive ConstructionError where
  | InvalidVersionException
  | InvalidToolException
deriving DecidableEq, Repr

/-- The constructor of `WhatImposter`: the member initialisers, then the two
checks of its body in their order. -/
def WhatImposter.construct (windows : Bool) (toolpath : ToolPath) :
    Except ConstructionError WhatImposter :=
  let _imposter := detect_imposter windows toolpath.basename
  let _version_ok := is_version_ok toolpath
  if !_version_ok then Except.error ConstructionError.InvalidVersionException
  else if _imposter = Imposter.INVALID then Except.error ConstructionError.InvalidToolException
  else Except.ok { toolpath := toolpath, _imposter := _imposter, _version_ok := _version_ok }

/-- The identity table: the basenames `detect_imposter` compares with. -/
def identity_table : List String :=
  ["srapath", "prefetch", "fastq-dump", "fasterq-dump", "sra-pileup", "sam-dump", "vdb-dump"]

/-! ## CmnOptAndAccessions -/

/-- The struct `CmnOptAndAccessions`; `verbosity` is an unsigned 32-bit count. -/
structure CmnOptAndAccessions where
  what : WhatImposter
  accessions : List String := []
  ngc_file : String := ""
  perm_file : String := ""
  location : String := ""
  cart_file : String := ""
  disable_multithreading : Bool := false
  version : Bool := false
  quiet : Bool := false
  no_disable_mt : Bool := false
  debugFlags : List String := []
  log_level : String := ""
  option_file : String := ""
  verbosity : Nat := 0
deriving DecidableEq, Repr

/-- The constructor of `CmnOptAndAccessions`. -/
def CmnOptAndAccessions.init (what : WhatImposter) : CmnOptAndAccessions :=
  { what := what,
    no_disable_mt :=
      match what._imposter with
      | Imposter.FASTERQ_DUMP => true
      | Imposter.PREFETCH => true
      | Imposter.SRAPATH => true
      | _ => false }

/-- The loop of `OptionBase::is_one_of` over the variadic arguments: `res` and
`i` are its two variables, `items` the arguments not yet read. -/
def is_one_of_loop (value : String) (count : Int) : Bool → Int → List String → Bool
  | res, _, [] => res
  | res, i, s_item :: rest =>
    if !res && decide (i < count) then is_one_of_loop value count (value == s_item) (i + 1) rest
    else res

/-- The function `OptionBase::is_one_of`. -/
def is_one_of (value : String) (count : Int) (items : List String) : Bool :=
  is_one_of_loop value count false 0 items

/-- Modelled from the spec: the answer of the accession classifier
`sratools::accessionType` (declared in `sratools.hpp`), unknown, a run, or a
container of runs. -/
inductive AccessionType where
  | unknown
  | run
  | container
deriving DecidableEq, Repr

/-- What `check` asks of the outside: the file system, the cloud and
configuration queries, the accession classifier and the dry-run flag. -/
structure CheckEnv where
  pathExists : String → Bool
  haveCloudProvider : Bool
  canSendCEToken : Bool
  accessionType : String → AccessionType
  is_dry_run : Bool

/-- The local state of `check` while it counts: `problems` and the lines
written to `std::cerr` so far. -/
structure Counted where
  problems : Nat
  cerr : List String
deriving DecidableEq, Repr

/-- One counted problem with its message. -/
def Counted.problem (c : Counted) (message : String) : Counted :=
  { problems := c.problems + 1, cerr := c.cerr ++ [message] }

/-- The loop of `check` over the accessions; the natural number is
`containers`. -/
def check_accessions (env : CheckEnv) : Counted × Nat → List String → Counted × Nat
  | st, [] => st
  | st, acc :: rest =>
    if env.pathExists acc then check_accessions env st rest
    else
      match env.accessionType acc with
      | AccessionType.unknown => check_accessions env st rest
      | AccessionType.run => check_accessions env st rest
      | AccessionType.container =>
        check_accessions env
          (st.1.problem (acc ++ " is not a run accession. For more information, see https://www.ncbi.nlm.nih.gov/sra/?term=" ++ acc ++ "\n"),
            st.2 + 1) rest

/-- What a call of `check` leaves: the value it returns, the final value of
its counter `problems`, and the lines it wrote to `std::cerr`. -/
structure Checked where
  result : Bool
  problems : Nat
  cerr : List String
deriving DecidableEq, Repr

/-- The block of `check` on `log_level`. -/
def check_log_level (o : CmnOptAndAccessions) (c : Counted) : Counted :=
  if !o.log_level.isEmpty then
    (if !is_one_of o.log_level 14
        ["fatal", "sys", "int", "err", "warn", "info", "debug",
          "0", "1", "2", "3", "4", "5", "6"] then
      c.problem ("invalid log-level: " ++ o.log_level ++ "\n")
    else c)
  else c

/-- The block of `check` on `perm_file`. -/
def check_perm (o : CmnOptAndAccessions) (env : CheckEnv) (c : Counted) : Counted :=
  if !o.perm_file.isEmpty then
    let a :=
      if !o.ngc_file.isEmpty then
        c.problem "--perm and --ngc are mutually exclusive. Please use only one.\n"
      else c
    let b :=
      if !env.pathExists o.perm_file then
        a.problem ("--perm " ++ o.perm_file ++ "\nFile not found.\n")
      else a
    if !env.haveCloudProvider then
      b.problem "Currently, --perm can only be used from inside a cloud computing environment.\nPlease run inside of a supported cloud computing environment, or get an ngc file from dbGaP and reissue the command with --ngc <ngc file> instead of --perm <perm file>.\n"
    else if !env.canSendCEToken then
      b.problem "--perm requires a cloud instance identity, please run vdb-config --interactive and enable the option to report cloud instance identity.\n"
    else b
  else c

/-- The block of `check` on `ngc_file`. -/
def check_ngc (o : CmnOptAndAccessions) (env : CheckEnv) (c : Counted) : Counted :=
  if !o.ngc_file.isEmpty then
    (if !env.pathExists o.ngc_file then
      c.problem ("--ngc " ++ o.ngc_file ++ "\nFile not found.\n")
    else c)
  else c

/-- The block of `check` on `cart_file`. -/
def check_cart (o : CmnOptAndAccessions) (env : CheckEnv) (c : Counted) : Counted :=
  if !o.cart_file.isEmpty then
    (if !env.pathExists o.cart_file then
      c.problem ("--cart " ++ o.cart_file ++ "\nFile not found.\n")
    else c)
  else c

/-- The block of `check` after the accession loop: the one explanatory line
when `containers` is positive. -/
def check_containers (st : Counted × Nat) : Counted :=
  if st.2 > 0 then
    { problems := st.1.problems,
      cerr := st.1.cerr ++ ["Automatic expansion of container accessions is not currently available. See the above link(s) for information about the accessions.\n"] }
  else st.1

/-- The counting part of `check`, its blocks in the order of the source, from
`problems = 0`. -/
def check_count (o : CmnOptAndAccessions) (env : CheckEnv) : Counted :=
  check_containers
    (check_accessions env
      (check_cart o env (check_ngc o env (check_perm o env
        (check_log_level o { problems := 0, cerr := [] }))), 0)
      o.accessions)

/-- The function `CmnOptAndAccessions::check`. The counter is a natural
number; the command line admits at most 256 accessions, so the `int` of the
source is far from its bounds. -/
def CmnOptAndAccessions.check (o : CmnOptAndAccessions) (env : CheckEnv) : Checked :=
  let c := check_count o env
  if c.problems = 0 then { result := true, problems := c.problems, cerr := c.cerr }
  else if env.is_dry_run then
    { result := true, problems := c.problems,
      cerr := c.cerr ++ ["Problems allowed for testing purposes!\n"] }
  else { result := false, problems := c.problems, cerr := c.cerr }

/-- The enumeration `VerbosityStyle`. -/
inductive VerbosityStyle where
  | standard
  | fastq_dump
deriving DecidableEq, Repr

/-- The loop `for (ncbi::U32 i = 0; i < verbosity; ++i) builder.add_option("-v")`,
`n` being the turns still to go. -/
def add_repeated (b : ArgvBuilder) (o : String) : Nat → ArgvBuilder
  | 0 => b
  | n + 1 => add_repeated (b.add_option o) o n

/-- The function `CmnOptAndAccessions::populate_common_argv_builder`. -/
def CmnOptAndAccessions.populate_common_argv_builder (o : CmnOptAndAccessions)
    (builder : ArgvBuilder) (_acc_index : Int) (_accessions : List String)
    (verbosityStyle : VerbosityStyle) : ArgvBuilder :=
  let b1 := builder.add_option_list "-+" o.debugFlags
  let b2 := if o.disable_multithreading then b1.add_option "--disable-multithreading" else b1
  let b3 := if !o.log_level.isEmpty then b2.add_option_value "-L" o.log_level else b2
  let b4 := if !o.option_file.isEmpty then b3.add_option_value "--option-file" o.option_file
    else b3
  let b5 := if !o.ngc_file.isEmpty then b4.add_option_value "--ngc" o.ngc_file else b4
  if o.verbosity ≠ 0 then
    match verbosityStyle with
    | VerbosityStyle.fastq_dump => add_repeated b5 "-v" o.verbosity
    | VerbosityStyle.standard =>
      b5.add_option ("-" ++ String.mk (List.replicate o.verbosity 'v'))
  else b5

/-- The tokens of the common options other than the verbosity, as a function of
the five fields they are made of, in the order `populate_common_argv_builder`
adds them. -/
def option_tokens (debugFlags : List String) (disable_multithreading : Bool)
    (log_level option_file ngc_file : String) : List String :=
  debugFlags.flatMap (fun value => ["-+", value])
    ++ (if disable_multithreading then ["--disable-multithreading"] else [])
    ++ (if log_level.isEmpty then [] else ["-L", log_level])
    ++ (if option_file.isEmpty then [] else ["--option-file", option_file])
    ++ (if ngc_file.isEmpty then [] else ["--ngc", ngc_file])

/-- The tokens of a verbosity in a style. -/
def verbosity_tokens (verbosityStyle : VerbosityStyle) (verbosity : Nat) : List String :=
  if verbosity = 0 then []
  else
    match verbosityStyle with
    | VerbosityStyle.fastq_dump => List.replicate verbosity "-v"
    | VerbosityStyle.standard => ["-" ++ String.mk (List.replicate verbosity 'v')]

/-- The number of letters `v` in a list of tokens. -/
def count_v (tokens : List String) : Nat :=
  (tokens.map (fun token => token.data.count 'v')).sum

/-! ## Impersonator -/

/-- An exception in flight, by the handler of `Impersonator::run` that takes
it: an `ncbi::Exception`, a `std::exception`, or anything else. -/
inductive Raised where
  | parser (what : String)
  | standard (what : String)
  | other
deriving DecidableEq, Repr

/-- How a call made by `Impersonator::run` comes back: with a value, with an
exception, or not at all because the process ended in it. -/
inductive Called (α : Type) where
  | value (a : α)
  | raised (e : Raised)
  | no_return (ending : Ending)
deriving DecidableEq, Repr

/-- The calls `Impersonator::run` makes, in the order of the source: the
constructor of `Cmdline`, `tool_options.add`, the two parses, `check`,
`cmdline.version` and the tool's `run`; the two parses and the virtual
functions see the option state. -/
structure ImpersonatorCalls where
  construct : Called Unit
  add : CmnOptAndAccessions → Called Unit
  preparse : CmnOptAndAccessions → Called CmnOptAndAccessions
  parse : CmnOptAndAccessions → Called CmnOptAndAccessions
  check : CmnOptAndAccessions → Called Bool
  version : Called Unit
  run : CmnOptAndAccessions → Called Int

/-- The steps of `Impersonator::run`, in program order. -/
inductive ImpersonatorStep where
  | construct
  | add
  | preparse
  | parse
  | check
  | version
  | run
  | cerr (text : String)
deriving DecidableEq, Repr

/-- How `Impersonator::run` ends: it returns a code, an exception leaves it
(`copy` tells that `throw e` threw a copy made as `std::exception`, as opposed
to `throw;`), or the process ended in one of its calls. -/
inductive ImpersonatorEnding where
  | returned (code : Int)
  | propagated (e : Raised) (copy : Bool)
  | ended (ending : Ending)
deriving DecidableEq, Repr

/-- What `Impersonator::run` produces. -/
structure ImpersonatorOutcome where
  ending : ImpersonatorEnding
  trace : List ImpersonatorStep
deriving DecidableEq, Repr

/-- The three handlers at the end of `Impersonator::run`. -/
def Impersonator.handlers (trace : List ImpersonatorStep) : Raised → ImpersonatorOutcome
  | Raised.parser what =>
    { ending := ImpersonatorEnding.returned EX_USAGE,
      trace := trace ++ [ImpersonatorStep.cerr (what ++ "\n")] }
  | Raised.standard what =>
    { ending := ImpersonatorEnding.propagated (Raised.standard what) true, trace := trace }
  | Raised.other =>
    { ending := ImpersonatorEnding.propagated Raised.other false, trace := trace }

/-- One call inside the `try` block: on a value the block goes on, on an
exception the handlers take over, and when the process ended there is nothing
more. `trace` holds the steps up to and with this call. -/
def Called.on_value {α : Type} (c : Called α) (trace : List ImpersonatorStep)
    (k : α → ImpersonatorOutcome) : ImpersonatorOutcome :=
  match c with
  | Called.value a => k a
  | Called.raised e => Impersonator.handlers trace e
  | Called.no_return ending => { ending := ImpersonatorEnding.ended ending, trace := trace }

/-- The function `Impersonator::run`. -/
def Impersonator.run (calls : ImpersonatorCalls) (tool_options : CmnOptAndAccessions) :
    ImpersonatorOutcome :=
  calls.construct.on_value [ImpersonatorStep.construct] fun _ =>
  (calls.add tool_options).on_value [ImpersonatorStep.construct, ImpersonatorStep.add] fun _ =>
  (calls.preparse tool_options).on_value
    [ImpersonatorStep.construct, ImpersonatorStep.add, ImpersonatorStep.preparse] fun o1 =>
  (calls.parse o1).on_value
    [ImpersonatorStep.construct, ImpersonatorStep.add, ImpersonatorStep.preparse,
      ImpersonatorStep.parse] fun o2 =>
  (calls.check o2).on_value
    [ImpersonatorStep.construct, ImpersonatorStep.add, ImpersonatorStep.preparse,
      ImpersonatorStep.parse, ImpersonatorStep.check] fun ok =>
  if !ok then
    { ending := ImpersonatorEnding.returned EX_USAGE,
      trace := [ImpersonatorStep.construct, ImpersonatorStep.add, ImpersonatorStep.preparse,
        ImpersonatorStep.parse, ImpersonatorStep.check] }
  else if o2.version then
    calls.version.on_value
      [ImpersonatorStep.construct, ImpersonatorStep.add, ImpersonatorStep.preparse,
        ImpersonatorStep.parse, ImpersonatorStep.check, ImpersonatorStep.version] fun _ =>
      { ending := ImpersonatorEnding.returned 0,
        trace := [ImpersonatorStep.construct, ImpersonatorStep.add, ImpersonatorStep.preparse,
          ImpersonatorStep.parse, ImpersonatorStep.check, ImpersonatorStep.version] }
  else
    (calls.run o2).on_value
      [ImpersonatorStep.construct, ImpersonatorStep.add, ImpersonatorStep.preparse,
        ImpersonatorStep.parse, ImpersonatorStep.check, ImpersonatorStep.run] fun code =>
      { ending := ImpersonatorEnding.returned code,
        trace := [ImpersonatorStep.construct, ImpersonatorStep.add, ImpersonatorStep.preparse,
          ImpersonatorStep.parse, ImpersonatorStep.check, ImpersonatorStep.run] }

/-- One call after another: the second is made only when the first comes back
with a value. -/
def Called.bind {α β : Type} (c : Called α) (k : α → Called β) : Called β :=
  match c with
  | Called.value a => k a
  | Called.raised e => Called.raised e
  | Called.no_return ending => Called.no_return ending

/-- The parsing of `Impersonator::run` as a whole: the constructor of `Cmdline`,
`tool_options.add`, `preparse` and `parse`, each made when the ones before came
back; the value is the option state after `parse`. -/
def parsing (calls : ImpersonatorCalls) (tool_options : CmnOptAndAccessions) :
    Called CmnOptAndAccessions :=
  calls.construct.bind fun _ =>
  (calls.add tool_options).bind fun _ =>
  (calls.preparse tool_options).bind fun o1 => calls.parse o1

/-- The steps of a run in which the four calls of the parsing came back. -/
def parsed_steps : List ImpersonatorStep :=
  [ImpersonatorStep.construct, ImpersonatorStep.add, ImpersonatorStep.preparse,
    ImpersonatorStep.parse]

/-- Whether `throw e` or `throw;` lets the exception leave `Impersonator::run`:
`true` for the copy thrown by `throw e`. -/
def Raised.copied : Raised → Bool
  | Raised.standard _ => true
  | _ => false

/-- Whether the exception is an `ncbi::Exception`. -/
def Raised.is_ncbi : Raised → Bool
  | Raised.parser _ => true
  | _ => false

/-- Calls of a parser that leaves `parsed`, of a `check` that is the one of
`CmnOptAndAccessions` in the outside `env`, and of a tool whose `run` comes
back as `run`. -/
def calls_of (parsed : Called CmnOptAndAccessions) (env : CheckEnv) (run : Called Int) :
    ImpersonatorCalls :=
  { construct := Called.value (), add := fun _ => Called.value (),
    preparse := fun o => Called.value o, parse := fun _ => parsed,
    check := fun o => Called.value (o.check env).result, version := Called.value (),
    run := fun _ => run }

/-- The state of `check` before it has counted anything. -/
def zero_count : Counted := { problems := 0, cerr := [] }

/-- The fourteen tokens `check` passes to `is_one_of` for `log_level`. -/
def log_level_tokens : List String :=
  ["fatal", "sys", "int", "err", "warn", "info", "debug", "0", "1", "2", "3", "4", "5", "6"]

/-- The line `check` writes for a `log_level` it rejects. -/
def log_level_line (o : CmnOptAndAccessions) : String :=
  "invalid log-level: " ++ o.log_level ++ "\n"

/-- The line `check` writes when both `--perm` and `--ngc` are given. -/
def exclusive_line : String :=
  "--perm and --ngc are mutually exclusive. Please use only one.\n"

/-- The line `check` writes when the permission file does not exist. -/
def perm_not_found_line (o : CmnOptAndAccessions) : String :=
  "--perm " ++ o.perm_file ++ "\nFile not found.\n"

/-- The line `check` writes when there is no cloud provider. -/
def no_cloud_line : String :=
  "Currently, --perm can only be used from inside a cloud computing environment.\nPlease run inside of a supported cloud computing environment, or get an ngc file from dbGaP and reissue the command with --ngc <ngc file> instead of --perm <perm file>.\n"

/-- The line `check` writes when the configuration does not let the cloud
instance identity be sent. -/
def no_token_line : String :=
  "--perm requires a cloud instance identity, please run vdb-config --interactive and enable the option to report cloud instance identity.\n"

/-- The line `check` writes when the ngc file does not exist. -/
def ngc_not_found_line (o : CmnOptAndAccessions) : String :=
  "--ngc " ++ o.ngc_file ++ "\nFile not found.\n"

/-- The line `check` writes when the cart file does not exist. -/
def cart_not_found_line (o : CmnOptAndAccessions) : String :=
  "--cart " ++ o.cart_file ++ "\nFile not found.\n"

/-- The line `check` writes for an accession it counts. -/
def container_line (acc : String) : String :=
  acc ++ " is not a run accession. For more information, see https://www.ncbi.nlm.nih.gov/sra/?term=" ++ acc ++ "\n"

/-- The explanatory line `check` writes after the accession loop. -/
def containers_note : String :=
  "Automatic expansion of container accessions is not currently available. See the above link(s) for information about the accessions.\n"

/-- Whether a token is one that is not an existing path and that the
classifier reports as neither unknown nor a run; the classifier is asked only
when the path does not exist. -/
def is_counted (env : CheckEnv) (acc : String) : Bool :=
  !env.pathExists acc &&
    decide (env.accessionType acc ≠ AccessionType.unknown ∧
      env.accessionType acc ≠ AccessionType.run)

/-- An outside described by its answers: which paths exist, the cloud, the
token permission, the accessions that are containers, the dry-run flag. -/
def env_of (existing : List String) (haveCloudProvider canSendCEToken : Bool)
    (containers : List String) (is_dry_run : Bool) : CheckEnv :=
  { pathExists := fun p => decide (p ∈ existing), haveCloudProvider := haveCloudProvider,
    canSendCEToken := canSendCEToken,
    accessionType := fun a =>
      if a ∈ containers then AccessionType.container else AccessionType.run,
    is_dry_run := is_dry_run }

/-- The state of `check` when it reaches the accession loop: the blocks on
`log_level`, `perm_file`, `ngc_file` and `cart_file` in the order of the
source. -/
def check_options (o : CmnOptAndAccessions) (env : CheckEnv) : Counted :=
  check_cart o env (check_ngc o env (check_perm o env (check_log_level o zero_count)))

/-- The line `check` writes when it lets problems pass in a dry run. -/
def dry_run_line : String := "Problems allowed for testing purposes!\n"

/-- The option state without its `log_level`. -/
def without_log_level (o : CmnOptAndAccessions) : CmnOptAndAccessions :=
  { o with log_level := "" }

/-- A tool path used in concrete option states. -/
def demo_toolpath : ToolPath :=
  { basename := "fastq-dump", fullpath := "/opt/sratoolkit/bin/fastq-dump",
    version := "3.0.0", toolkit_version := "3.0.0" }

/-- The identity resolved from `demo_toolpath`. -/
def demo_what : WhatImposter :=
  { toolpath := demo_toolpath, _imposter := Imposter.FASTQ_DUMP, _version_ok := true }

/-- Options with a permission file and nothing else. -/
def perm_options : CmnOptAndAccessions :=
  { what := demo_what, perm_file := "access.jwt" }

/-- Options with a given `log_level` and nothing else. -/
def log_level_options (log_level : String) : CmnOptAndAccessions :=
  { what := demo_what, log_level := log_level }

/-- Options with a `log_level` that is not a token, an ngc file and a cart
file. -/
def three_problem_options : CmnOptAndAccessions :=
  { what := demo_what, log_level := "loud", ngc_file := "prj_1234.ngc",
    cart_file := "cart.krt" }

/-- Options with four accessions, `SRP000001` twice. -/
def accession_options : CmnOptAndAccessions :=
  { what := demo_what, accessions := ["SRP000001", "SRR000001", "SRP000001", "SRX000002"] }

/-- Options with the version flag and nothing else. -/
def version_options : CmnOptAndAccessions :=
  { what := demo_what, version := true }

/-- Options with the version flag and a `log_level` that is not a token. -/
def bad_version_options : CmnOptAndAccessions :=
  { what := demo_what, version := true, log_level := "loud" }

/-- Options with `log_level` `warn` and verbosity 2. -/
def warn_vv_options : CmnOptAndAccessions :=
  { what := demo_what, log_level := "warn", verbosity := 2 }

/-- Options with two debug flags, a log level, an ngc file and verbosity 3, and
with a permission file, a location, a cart file and the version flag. -/
def full_options : CmnOptAndAccessions :=
  { what := demo_what, debugFlags := ["KFG", "VFS-5"], disable_multithreading := true,
    log_level := "info", option_file := "more.opts", ngc_file := "prj_1234.ngc",
    verbosity := 3, perm_file := "access.jwt", location := "s3.us-east-1",
    cart_file := "cart.krt", version := true, accessions := ["SRR000001"] }

/-- The options of `full_options` that the common tokens are made of, the
other fields unset. -/
def forwarded_options : CmnOptAndAccessions :=
  { what := demo_what, debugFlags := ["KFG", "VFS-5"], disable_multithreading := true,
    log_level := "info", option_file := "more.opts", ngc_file := "prj_1234.ngc",
    verbosity := 3 }

/-- A tool path whose basename is not in the table and whose version differs
from the toolkit version. -/
def wrong_toolpath : ToolPath :=
  { basename := "fastq-dumb", fullpath := "/opt/sratoolkit/bin/fastq-dumb",
    version := "3.0.0", toolkit_version := "3.0.1" }

/-- An outside in which every path exists, the cloud is recognised and
the token may be sent, and every accession is a run. -/
def friendly_env (is_dry_run : Bool) : CheckEnv :=
  { pathExists := fun _ => true, haveCloudProvider := true, canSendCEToken := true,
    accessionType := fun _ => AccessionType.run, is_dry_run := is_dry_run }

/-! ## ToolExec -/

/-- The virtual `OptionBase::populate_argv_builder`, implemented by each tool:
from the builder, the accession index and the accession list to the builder
with the tool's options added. -/
abbrev Populate := ArgvBuilder → Int → List String → ArgvBuilder

/-- What `ToolExecNoSDL::run` and `ToolExec::run` produce. -/
structure Outcome (σ : Type) where
  ending : Ending
  trace : List Event
  state : σ

/-- The text of the diagnostic for a child that was killed. -/
def killed_message (toolname : String) (termsig : Int) (signame : Option String) : String :=
  toolname ++ " was killed (signal " ++ toString termsig ++
    (match signame with
     | some n => " " ++ n
     | none => "") ++ ")\n"

/-- The function `ToolExec::exec_wait`: `Except.ok success` when it returns,
`Except.error` with the ending when it ends the process. -/
def exec_wait {σ : Type} (os : OS σ) (s : σ) (pos : Nat) (toolpath toolname : String)
    (argv : Argv) (src : data_source) : Except Ending Bool × List Event × σ :=
  let r := os.run_child_and_wait s toolpath toolname argv src.get_environment
  let call : Event := Event.run_child_and_wait
    { pos := pos, src := src, toolpath := toolpath, toolname := toolname,
      argv := argv, env := src.get_environment, result := r.1 }
  match r.1 with
  | ProcResult.exited exit_code =>
    if exit_code = 0 then (Except.ok true, [call], r.2)
    else if exit_code = EX_TEMPFAIL then (Except.ok false, [call], r.2)
    else (Except.error (Ending.exited exit_code),
      [call, Event.cerr (toolname ++ " quit with error code " ++ toString exit_code ++ "\n")],
      r.2)
  | ProcResult.signaled termsig signame =>
    (Except.error (Ending.exited 3),
      [call, Event.cerr (killed_message toolname termsig signame)], r.2)
  | ProcResult.other => (Except.error Ending.aborted, [call], r.2)

/-- The loop `for (auto &src : sources)` of `ToolExec::run`; the Boolean is the
final value of `success`. -/
def try_sources {σ : Type} (os : OS σ) (pos : Nat) (toolpath toolname acc : String)
    (argv : Argv) : σ → List data_source → Except Ending Bool × List Event × σ
  | s, [] => (Except.ok false, [], s)
  | s, src :: rest =>
    match exec_wait os s pos toolpath toolname argv src with
    | (Except.error e, ev, s1) => (Except.error e, ev, s1)
    | (Except.ok true, ev, s1) =>
      (Except.ok true,
        ev ++ [Event.log 2 ("Processed " ++ acc ++ " with data from " ++ src.service ++ "\n")],
        s1)
    | (Except.ok false, ev, s1) =>
      let r := try_sources os pos toolpath toolname acc argv s1 rest
      (r.1,
        ev ++ [Event.log 1 ("Failed to get data for " ++ acc ++ " from " ++ src.service ++ "\n")]
          ++ r.2.1,
        r.2.2)

/-- The report written when no source of an accession succeeded. -/
def tried_report (acc : String) (sources : List data_source) : List Event :=
  [Event.cerr ("Could not get any data for " ++ acc ++ ", tried to get data from:\n")]
    ++ sources.map (fun i => Event.cerr ("\t" ++ i.service ++ "\n"))
    ++ [Event.cerr "This may be temporary, you should retry later.\n"]

/-- The loop `for (auto const &acc : accessions)` of `ToolExec::run` from the
accession at input position `pos` on, `i` being the current value of the
counter and `accessions` the whole list. -/
def run_loop {σ : Type} (os : OS σ) (populate : Populate) (all_sources : SourceSet)
    (toolname toolpath theirpath : String) (accessions : List String) :
    Int → Nat → σ → List String → Outcome σ
  | _, _, s, [] => { ending := Ending.returned 0, trace := [], state := s }
  | i, pos, s, acc :: rest =>
    let sources := all_sources acc
    if sources.isEmpty then
      run_loop os populate all_sources toolname toolpath theirpath accessions i (pos + 1) s rest
    else
      let builder := populate (ArgvBuilder.add_option {} theirpath) i accessions
      let argv := builder.generate_argv [acc]
      let built := [Event.populate_argv_builder i accessions, Event.generate_argv argv]
      match try_sources os pos toolpath toolname acc argv s sources with
      | (Except.error e, ev, s1) => { ending := e, trace := built ++ ev, state := s1 }
      | (Except.ok true, ev, s1) =>
        let r := run_loop os populate all_sources toolname toolpath theirpath accessions
          (i + 1) (pos + 1) s1 rest
        { ending := r.ending, trace := built ++ ev ++ [Event.free_argv argv] ++ r.trace,
          state := r.state }
      | (Except.ok false, ev, s1) =>
        { ending := Ending.returned EX_TEMPFAIL,
          trace := built ++ ev ++ [Event.free_argv argv] ++ tried_report acc sources,
          state := s1 }

/-- The function `ToolExecNoSDL::run`. -/
def ToolExecNoSDL.run {σ : Type} (os : OS σ) (populate : Populate) (s : σ)
    (toolname toolpath theirpath : String) (accessions : List String) : Outcome σ :=
  let builder := populate (ArgvBuilder.add_option {} theirpath) (accessions.length : Nat) accessions
  let argv := builder.generate_argv accessions
  let before := [Event.populate_argv_builder (accessions.length : Nat) accessions,
    Event.generate_argv argv, Event.run_child toolpath toolname argv]
  match os.run_child s toolpath toolname argv with
  | none => { ending := Ending.replaced, trace := before, state := s }
  | some error =>
    { ending := Ending.thrown error ("Failed to exec " ++ toolname),
      trace := before ++ [Event.free_argv argv], state := s }

/-- The conversion `s.empty() ? nullptr : &s` of `ToolExec::run`. -/
def ambient_of (s : String) : Option String :=
  if s.isEmpty then none else some s

/-- The three ambient pointers as `ToolExec::run` sets them before the gateway
call. -/
def ambient (location perm_file ngc_file : String) : Globals :=
  { location := ambient_of location, perm := ambient_of perm_file, ngc := ambient_of ngc_file }

/-- The three ambient pointers reset to `nullptr`. -/
def no_ambient : Globals := { location := none, perm := none, ngc := none }

/-- The function `ToolExec::run`; `location`, `perm_file` and `ngc_file` are the
fields of `tool_options` it reads. -/
def ToolExec.run {σ : Type} (os : OS σ) (populate : Populate) (s : σ)
    (toolname toolpath theirpath : String) (location perm_file ngc_file : String)
    (accessions : List String) : Outcome σ :=
  if accessions.isEmpty then
    ToolExecNoSDL.run os populate s toolname toolpath theirpath accessions
  else
    let g := ambient location perm_file ngc_file
    let p := os.preload s accessions g
    let r := run_loop os populate p.1 toolname toolpath theirpath accessions 0 0 p.2 accessions
    { ending := r.ending,
      trace := [Event.set_ambient g, Event.preload accessions g, Event.set_ambient no_ambient,
        Event.set_ce_token_env_var] ++ r.trace,
      state := r.state }

/-- The calls of `run_child_and_wait` of a trace, in order. -/
def spawns : List Event → List Spawn
  | [] => []
  | Event.run_child_and_wait c :: rest => c :: spawns rest
  | _ :: rest => spawns rest

/-- Whether an event starts a child: a call of `run_child_and_wait` or of
`run_child`. -/
def is_spawn : Event → Bool
  | Event.run_child_and_wait _ => true
  | Event.run_child _ _ _ => true
  | _ => false

/-- Whether an event is a call of `run_child`. -/
def is_exec : Event → Bool
  | Event.run_child _ _ _ => true
  | _ => false

/-- Whether an event is a call of the gateway. -/
def is_preload : Event → Bool
  | Event.preload _ _ => true
  | _ => false

/-- Whether an event is an assignment to the ambient pointers. -/
def is_set_ambient : Event → Bool
  | Event.set_ambient _ => true
  | _ => false

/-- The value of the ambient pointers after the events, `g` being their value
before. -/
def globals_after (g : Globals) : List Event → Globals
  | [] => g
  | Event.set_ambient g1 :: rest => globals_after g1 rest
  | _ :: rest => globals_after g rest

/-- The events with which `ToolExec::run` starts on a non-empty list: the
ambient pointers set from the options, the gateway call, the pointers reset,
the token variable set. -/
def gateway_events (location perm_file ngc_file : String) (accessions : List String) :
    List Event :=
  [Event.set_ambient (ambient location perm_file ngc_file),
    Event.preload accessions (ambient location perm_file ngc_file),
    Event.set_ambient no_ambient, Event.set_ce_token_env_var]

/-- The ambient pointers for the location `s3.us-east-1`, no permission file
and the ngc file `prj_1234.ngc`. -/
def located_ambient : Globals :=
  { location := some "s3.us-east-1", perm := none, ngc := some "prj_1234.ngc" }

/-- Whether an event is a call of `generate_argv`. -/
def is_generate : Event → Bool
  | Event.generate_argv _ => true
  | _ => false

/-- Whether an event is a call of `free_argv`. -/
def is_free : Event → Bool
  | Event.free_argv _ => true
  | _ => false

/-- The life of the argument vectors along a list of events, from the vector
`live` that is built and not yet freed (`none` when there is none): the vector
that is live after the events, or `none` when the events break the
discipline, that is when a vector is built while another is live, when
`free_argv` is called on anything but the live vector, or when a child is
started with anything but the live vector. -/
def live_after : Option Argv → List Event → Option (Option Argv)
  | live, [] => some live
  | live, Event.generate_argv argv :: rest =>
    if live = none then live_after (some argv) rest else none
  | live, Event.free_argv argv :: rest =>
    if live = some argv then live_after none rest else none
  | live, Event.run_child_and_wait call :: rest =>
    if live = some call.argv then live_after live rest else none
  | live, Event.run_child _ _ argv :: rest =>
    if live = some argv then live_after live rest else none
  | live, _ :: rest => live_after live rest

/-- Whether the function is left with the process still running: it returned
or threw, as opposed to `exit`, `abort` and the replacement of the process. -/
def Ending.comes_back : Ending → Bool
  | Ending.returned _ => true
  | Ending.thrown _ _ => true
  | _ => false

/-- The arguments of the calls of `populate_argv_builder`, in order. -/
def populated : List Event → List (Int × List String)
  | [] => []
  | Event.populate_argv_builder acc_index accessions :: rest =>
    (acc_index, accessions) :: populated rest
  | _ :: rest => populated rest

/-- The vectors built by `generate_argv`, in order. -/
def generated : List Event → List Argv
  | [] => []
  | Event.generate_argv argv :: rest => argv :: generated rest
  | _ :: rest => generated rest

/-- The vectors released by `free_argv`, in order. -/
def freed : List Event → List Argv
  | [] => []
  | Event.free_argv argv :: rest => argv :: freed rest
  | _ :: rest => freed rest

/-- For every call of `run_child_and_wait`, in order, the index that
`populate_argv_builder` was last called with before it and the input position
the loop is at; `cur` is the index of the last call before the events, if
any. -/
def index_at_spawns : Option Int → List Event → List (Option Int × Nat)
  | _, [] => []
  | _, Event.populate_argv_builder acc_index _ :: rest =>
    index_at_spawns (some acc_index) rest
  | cur, Event.run_child_and_wait call :: rest =>
    (cur, call.pos) :: index_at_spawns cur rest
  | cur, _ :: rest => index_at_spawns cur rest

/-- Whether the gateway gave sources for the accession. -/
def has_sources (all_sources : SourceSet) (acc : String) : Bool :=
  !(all_sources acc).isEmpty

/-- The record of the call `exec_wait` makes from the state `s`. -/
def call_of {σ : Type} (os : OS σ) (s : σ) (pos : Nat) (toolpath toolname : String)
    (argv : Argv) (src : data_source) : Spawn :=
  { pos := pos, src := src, toolpath := toolpath, toolname := toolname, argv := argv,
    env := src.get_environment,
    result := (os.run_child_and_wait s toolpath toolname argv src.get_environment).1 }

/-- What `exec_wait` makes of a result: return `true`, return `false`, or end
the process. -/
def verdict : ProcResult → Except Ending Bool
  | ProcResult.exited c =>
    if c = 0 then Except.ok true
    else if c = EX_TEMPFAIL then Except.ok false
    else Except.error (Ending.exited c)
  | ProcResult.signaled _ _ => Except.error (Ending.exited 3)
  | ProcResult.other => Except.error Ending.aborted

/-- The calls the source loop makes when it attempts every source of the list
in order, each from the state the previous one left. -/
def calls {σ : Type} (os : OS σ) (pos : Nat) (toolpath toolname : String) (argv : Argv) :
    σ → List data_source → List Spawn
  | _, [] => []
  | s, src :: rest =>
    call_of os s pos toolpath toolname argv src ::
      calls os pos toolpath toolname argv
        (os.run_child_and_wait s toolpath toolname argv src.get_environment).2 rest

/-- The state of the world after the calls of `calls`. -/
def state_after {σ : Type} (os : OS σ) (toolpath toolname : String) (argv : Argv) :
    σ → List data_source → σ
  | s, [] => s
  | s, src :: rest =>
    state_after os toolpath toolname argv
      (os.run_child_and_wait s toolpath toolname argv src.get_environment).2 rest

/-- The argument vector `ToolExec::run` builds for `acc` when the counter is `i`. -/
def argv_for (populate : Populate) (theirpath : String) (accessions : List String) (i : Int)
    (acc : String) : Argv :=
  (populate (ArgvBuilder.add_option {} theirpath) i accessions).generate_argv [acc]

/-- The events of one attempt that `exec_wait` answered with `false`: the call
and the level-1 log line of the source loop. -/
def failed_attempt (acc : String) (c : Spawn) : List Event :=
  [Event.run_child_and_wait c,
    Event.log 1 ("Failed to get data for " ++ acc ++ " from " ++ c.src.service ++ "\n")]

/-- The events of one attempt that `exec_wait` answered with `true`: the call
and the level-2 log line of the source loop. -/
def successful_attempt (acc : String) (c : Spawn) : List Event :=
  [Event.run_child_and_wait c,
    Event.log 2 ("Processed " ++ acc ++ " with data from " ++ c.src.service ++ "\n")]

/-- The texts written to `std::cerr`, in order. -/
def cerrs : List Event → List String
  | [] => []
  | Event.cerr text :: rest => text :: cerrs rest
  | _ :: rest => cerrs rest

/-- An event without the position annotation of its call record. -/
def forget_pos : Event → Event
  | Event.run_child_and_wait c => Event.run_child_and_wait { c with pos := 0 }
  | e => e

/-- An outcome without the position annotations of its call records. -/
def Outcome.forget {σ : Type} (o : Outcome σ) : Outcome σ :=
  { o with trace := o.trace.map forget_pos }

/-- A tool that passes the number of accessions of the invocation to the
child. -/
def counting_options : Populate := fun b _ accessions =>
  b.add_option_value "--total" (toString accessions.length)

/-! ## A scripted world for concrete runs -/

/-- A world whose gateway answers `sources` and whose children end as the
script says, one entry per spawn; `run_child` comes back with `errno` 2. -/
def scripted (sources : SourceSet) : OS (List ProcResult) where
  preload := fun s _ _ => (sources, s)
  run_child_and_wait := fun s _ _ _ _ =>
    match s with
    | [] => (ProcResult.other, [])
    | r :: rest => (r, rest)
  run_child := fun _ _ _ _ => some 2

/-- A tool without options of its own. -/
def no_options : Populate := fun b _ _ => b

/-- Three sources used in the concrete runs. -/
def src_s3 : data_source := { service := "s3", environment := [("CE_TOKEN", "aws")] }

/-- Second example source. -/
def src_gs : data_source := { service := "gs", environment := [("CE_TOKEN", "gcp")] }

/-- Third example source. -/
def src_ncbi : data_source := { service := "ncbi", environment := [] }

/-- A source set: two sources for `SRR000001`, one for `SRR000002`, none for
anything else. -/
def demo_sources : SourceSet := fun acc =>
  if acc = "SRR000001" then [src_s3, src_gs]
  else if acc = "SRR000002" then [src_ncbi]
  else []

/-- A run of `ToolExec::run` for the tool `fastq-dump` in the scripted world
over `demo_sources`, with no option set. -/
def demo_run (script : List ProcResult) (accessions : List String) :
    Outcome (List ProcResult) :=
  ToolExec.run (scripted demo_sources) no_options script "fastq-dump"
    "/opt/sratoolkit/bin/fastq-dump-orig" "fastq-dump-orig" "" "" "" accessions

/-- The argument vector of the demo runs for an accession without NUL
character. -/
def demo_argv (acc : String) : Argv := [some "fastq-dump-orig", some acc, none]

/-- The call record of the demo runs for the accession at `pos` and a source. -/
def demo_call (pos : Nat) (acc : String) (src : data_source) (result : ProcResult) : Spawn :=
  { pos := pos, src := src, toolpath := "/opt/sratoolkit/bin/fastq-dump-orig",
    toolname := "fastq-dump", argv := demo_argv acc, env := src.environment, result := result }

/-- The events with which every demo run on a non-empty list starts. -/
def demo_head (accessions : List String) : List Event :=
  [Event.set_ambient no_ambient, Event.preload accessions no_ambient,
    Event.set_ambient no_ambient, Event.set_ce_token_env_var]

/-! ## Properties of the source loop -/

theorem EX_TEMPFAIL_ne_zero : ¬ (EX_TEMPFAIL = 0) := by decide

theorem spawns_append (a b : List Event) : spawns (a ++ b) = spawns a ++ spawns b := by
  induction a with
  | nil => rfl
  | cons e rest ih => cases e <;> simp [spawns, ih]

theorem spawns_built (i : Int) (accessions : List String) (argv : Argv) :
    spawns [Event.populate_argv_builder i accessions, Event.generate_argv argv] = [] := rfl

theorem spawns_free (argv : Argv) : spawns [Event.free_argv argv] = [] := rfl

theorem spawns_map_cerr (l : List String) : spawns (l.map Event.cerr) = [] := by
  induction l with
  | nil => rfl
  | cons e rest ih => simpa [spawns] using ih

theorem spawns_tried_report (acc : String) (sources : List data_source) :
    spawns (tried_report acc sources) = [] := by
  have h : sources.map (fun i => Event.cerr ("\t" ++ i.service ++ "\n"))
      = (sources.map (fun i => "\t" ++ i.service ++ "\n")).map Event.cerr := by
    simp [List.map_map, Function.comp_def]
  simp only [tried_report, spawns_append, h, spawns_map_cerr]
  rfl

section exec_wait_facts

variable {σ : Type} (os : OS σ) (s : σ) (pos : Nat) (toolpath toolname : String)
  (argv : Argv) (src : data_source)

theorem exec_wait_fst :
    (exec_wait os s pos toolpath toolname argv src).1
      = verdict (call_of os s pos toolpath toolname argv src).result := by
  simp only [exec_wait, call_of]
  rcases os.run_child_and_wait s toolpath toolname argv src.get_environment with ⟨r, s1⟩
  cases r with
  | exited c => by_cases h0 : c = 0 <;> by_cases h1 : c = EX_TEMPFAIL <;> simp [verdict, h0, h1, EX_TEMPFAIL_ne_zero]
  | signaled n name => simp [verdict]
  | other => simp [verdict]

theorem exec_wait_spawns :
    spawns (exec_wait os s pos toolpath toolname argv src).2.1
      = [call_of os s pos toolpath toolname argv src] := by
  simp only [exec_wait, call_of]
  rcases os.run_child_and_wait s toolpath toolname argv src.get_environment with ⟨r, s1⟩
  cases r with
  | exited c => by_cases h0 : c = 0 <;> by_cases h1 : c = EX_TEMPFAIL <;> simp [h0, h1, spawns, EX_TEMPFAIL_ne_zero]
  | signaled n name => simp [spawns]
  | other => simp [spawns]

theorem exec_wait_state :
    (exec_wait os s pos toolpath toolname argv src).2.2
      = (os.run_child_and_wait s toolpath toolname argv src.get_environment).2 := by
  simp only [exec_wait]
  rcases os.run_child_and_wait s toolpath toolname argv src.get_environment with ⟨r, s1⟩
  cases r with
  | exited c => by_cases h0 : c = 0 <;> by_cases h1 : c = EX_TEMPFAIL <;> simp [h0, h1, EX_TEMPFAIL_ne_zero]
  | signaled n name => simp
  | other => simp

end exec_wait_facts

section try_sources_facts

variable {σ : Type} (os : OS σ) (pos : Nat) (toolpath toolname acc : String) (argv : Argv)

/-- One turn of the source loop, by the verdict on its call. -/
theorem try_sources_cons (s : σ) (src : data_source) (rest : List data_source) :
    (verdict (call_of os s pos toolpath toolname argv src).result = Except.ok true ∧
      (try_sources os pos toolpath toolname acc argv s (src :: rest)).1 = Except.ok true ∧
      spawns (try_sources os pos toolpath toolname acc argv s (src :: rest)).2.1
        = [call_of os s pos toolpath toolname argv src] ∧
      (try_sources os pos toolpath toolname acc argv s (src :: rest)).2.2
        = (os.run_child_and_wait s toolpath toolname argv src.get_environment).2) ∨
    (verdict (call_of os s pos toolpath toolname argv src).result = Except.ok false ∧
      (try_sources os pos toolpath toolname acc argv s (src :: rest)).1
        = (try_sources os pos toolpath toolname acc argv
            (os.run_child_and_wait s toolpath toolname argv src.get_environment).2 rest).1 ∧
      spawns (try_sources os pos toolpath toolname acc argv s (src :: rest)).2.1
        = call_of os s pos toolpath toolname argv src ::
          spawns (try_sources os pos toolpath toolname acc argv
            (os.run_child_and_wait s toolpath toolname argv src.get_environment).2 rest).2.1 ∧
      (try_sources os pos toolpath toolname acc argv s (src :: rest)).2.2
        = (try_sources os pos toolpath toolname acc argv
            (os.run_child_and_wait s toolpath toolname argv src.get_environment).2 rest).2.2) ∨
    (∃ e, verdict (call_of os s pos toolpath toolname argv src).result = Except.error e ∧
      (try_sources os pos toolpath toolname acc argv s (src :: rest)).1 = Except.error e ∧
      spawns (try_sources os pos toolpath toolname acc argv s (src :: rest)).2.1
        = [call_of os s pos toolpath toolname argv src] ∧
      (try_sources os pos toolpath toolname acc argv s (src :: rest)).2.2
        = (os.run_child_and_wait s toolpath toolname argv src.get_environment).2) := by
  have h1 := exec_wait_fst os s pos toolpath toolname argv src
  have h2 := exec_wait_spawns os s pos toolpath toolname argv src
  have h3 := exec_wait_state os s pos toolpath toolname argv src
  rcases hx : exec_wait os s pos toolpath toolname argv src with ⟨v, ev, s1⟩
  rw [hx] at h1 h2 h3
  simp only at h1 h2 h3
  subst h3
  rw [← h1]
  cases v with
  | error e =>
    right; right
    refine ⟨e, rfl, ?_, ?_, ?_⟩ <;> simp [try_sources, hx, h2]
  | ok b =>
    cases b with
    | true =>
      left
      refine ⟨rfl, ?_, ?_, ?_⟩ <;> simp [try_sources, hx, h2, spawns_append, spawns]
    | false =>
      right; left
      refine ⟨rfl, ?_, ?_, ?_⟩ <;> simp [try_sources, hx, h2, spawns_append, spawns]

end try_sources_facts

section try_sources_fatal

variable {σ : Type} (os : OS σ) (pos : Nat) (toolpath toolname acc : String) (argv : Argv)

/-- A call of the source loop whose result ends the process is the last call
of the loop, and the loop ends the process the way `exec_wait` decided. -/
theorem try_sources_fatal (srcs : List data_source) :
    ∀ (s : σ) (pre : List Spawn) (c : Spawn) (post : List Spawn) (e : Ending),
      spawns (try_sources os pos toolpath toolname acc argv s srcs).2.1 = pre ++ c :: post →
      verdict c.result = Except.error e →
      (try_sources os pos toolpath toolname acc argv s srcs).1 = Except.error e ∧ post = [] := by
  induction srcs with
  | nil =>
    intro s pre c post e h _
    simp [try_sources, spawns] at h
  | cons src rest ih =>
    intro s pre c post e h hv
    rcases try_sources_cons os pos toolpath toolname acc argv s src rest with
      ⟨hc, _, hs, _⟩ | ⟨hc, hr, hs, _⟩ | ⟨e1, hc, hr, hs, _⟩
    · rw [hs] at h
      cases pre with
      | nil =>
        simp only [List.nil_append, List.cons.injEq] at h
        rw [← h.1, hc] at hv
        cases hv
      | cons x pre1 => simp at h
    · rw [hs] at h
      cases pre with
      | nil =>
        simp only [List.nil_append, List.cons.injEq] at h
        rw [← h.1, hc] at hv
        cases hv
      | cons x pre1 =>
        simp only [List.cons_append, List.cons.injEq] at h
        rw [hr]
        exact ih _ pre1 c post e h.2 hv
    · rw [hs] at h
      cases pre with
      | nil =>
        simp only [List.nil_append, List.cons.injEq] at h
        rw [← h.1, hc] at hv
        cases hv
        exact ⟨hr, h.2.symm⟩
      | cons x pre1 => simp at h

end try_sources_fatal

section run_loop_facts

variable {σ : Type} (os : OS σ) (populate : Populate) (all_sources : SourceSet)
  (toolname toolpath theirpath : String) (accessions : List String)

/-- An accession without sources is passed over. -/
theorem run_loop_skip (i : Int) (pos : Nat) (s : σ) (acc : String) (rest : List String)
    (h : all_sources acc = []) :
    run_loop os populate all_sources toolname toolpath theirpath accessions i pos s (acc :: rest)
      = run_loop os populate all_sources toolname toolpath theirpath accessions i (pos + 1) s
          rest := by
  simp [run_loop, h]

/-- One turn of the accession loop for an accession that has sources, by the
way its source loop ended. -/
theorem run_loop_cons (i : Int) (pos : Nat) (s : σ) (acc : String) (rest : List String)
    (h : all_sources acc ≠ []) :
    (∃ e, (try_sources os pos toolpath toolname acc
          (argv_for populate theirpath accessions i acc) s (all_sources acc)).1 = Except.error e ∧
      (run_loop os populate all_sources toolname toolpath theirpath accessions i pos s
          (acc :: rest)).ending = e ∧
      (run_loop os populate all_sources toolname toolpath theirpath accessions i pos s
          (acc :: rest)).trace
        = [Event.populate_argv_builder i accessions,
            Event.generate_argv (argv_for populate theirpath accessions i acc)]
          ++ (try_sources os pos toolpath toolname acc
              (argv_for populate theirpath accessions i acc) s (all_sources acc)).2.1) ∨
    ((try_sources os pos toolpath toolname acc
          (argv_for populate theirpath accessions i acc) s (all_sources acc)).1 = Except.ok true ∧
      (run_loop os populate all_sources toolname toolpath theirpath accessions i pos s
          (acc :: rest)).ending
        = (run_loop os populate all_sources toolname toolpath theirpath accessions (i + 1)
            (pos + 1) (try_sources os pos toolpath toolname acc
              (argv_for populate theirpath accessions i acc) s (all_sources acc)).2.2
            rest).ending ∧
      (run_loop os populate all_sources toolname toolpath theirpath accessions i pos s
          (acc :: rest)).trace
        = [Event.populate_argv_builder i accessions,
            Event.generate_argv (argv_for populate theirpath accessions i acc)]
          ++ (try_sources os pos toolpath toolname acc
              (argv_for populate theirpath accessions i acc) s (all_sources acc)).2.1
          ++ [Event.free_argv (argv_for populate theirpath accessions i acc)]
          ++ (run_loop os populate all_sources toolname toolpath theirpath accessions (i + 1)
            (pos + 1) (try_sources os pos toolpath toolname acc
              (argv_for populate theirpath accessions i acc) s (all_sources acc)).2.2
            rest).trace) ∨
    ((try_sources os pos toolpath toolname acc
          (argv_for populate theirpath accessions i acc) s (all_sources acc)).1 = Except.ok false ∧
      (run_loop os populate all_sources toolname toolpath theirpath accessions i pos s
          (acc :: rest)).ending = Ending.returned EX_TEMPFAIL ∧
      (run_loop os populate all_sources toolname toolpath theirpath accessions i pos s
          (acc :: rest)).trace
        = [Event.populate_argv_builder i accessions,
            Event.generate_argv (argv_for populate theirpath accessions i acc)]
          ++ (try_sources os pos toolpath toolname acc
              (argv_for populate theirpath accessions i acc) s (all_sources acc)).2.1
          ++ [Event.free_argv (argv_for populate theirpath accessions i acc)]
          ++ tried_report acc (all_sources acc)) := by
  have hne : (all_sources acc).isEmpty = false := by
    cases hl : all_sources acc with
    | nil => exact absurd hl h
    | cons x xs => rfl
  rcases hx : try_sources os pos toolpath toolname acc
      (argv_for populate theirpath accessions i acc) s (all_sources acc) with ⟨v, ev, s1⟩
  unfold argv_for at hx
  cases v with
  | error e =>
    left
    exact ⟨e, rfl, by simp [run_loop, hne, hx], by simp [run_loop, hne, hx, argv_for]⟩
  | ok b =>
    cases b with
    | true =>
      right; left
      exact ⟨rfl, by simp [run_loop, hne, hx], by simp [run_loop, hne, hx, argv_for]⟩
    | false =>
      right; right
      exact ⟨rfl, by simp [run_loop, hne, hx], by simp [run_loop, hne, hx, argv_for]⟩

/-- A call of the accession loop whose result ends the process is the last
call of the run, and the run ends the way `exec_wait` decided. -/
theorem run_loop_fatal (l : List String) :
    ∀ (i : Int) (pos : Nat) (s : σ) (pre : List Spawn) (c : Spawn) (post : List Spawn)
      (e : Ending),
      spawns (run_loop os populate all_sources toolname toolpath theirpath accessions i pos s
        l).trace = pre ++ c :: post →
      verdict c.result = Except.error e →
      (run_loop os populate all_sources toolname toolpath theirpath accessions i pos s
        l).ending = e ∧ post = [] := by
  induction l with
  | nil =>
    intro i pos s pre c post e h _
    simp [run_loop, spawns] at h
  | cons acc rest ih =>
    intro i pos s pre c post e h hv
    by_cases hs : all_sources acc = []
    · rw [run_loop_skip os populate all_sources toolname toolpath theirpath accessions i pos s
        acc rest hs] at h ⊢
      exact ih _ _ _ pre c post e h hv
    · rcases run_loop_cons os populate all_sources toolname toolpath theirpath accessions i pos s
        acc rest hs with ⟨e1, hr, he, ht⟩ | ⟨hr, he, ht⟩ | ⟨hr, he, ht⟩
      · rw [ht] at h
        simp only [spawns_append, spawns_built, List.nil_append] at h
        have := try_sources_fatal os pos toolpath toolname acc _ _ s pre c post e h hv
        rw [hr] at this
        rw [he]
        exact ⟨by simpa using this.1, this.2⟩
      · rw [ht] at h
        simp only [spawns_append, spawns_built, spawns_free, List.nil_append,
          List.append_nil] at h
        rw [he]
        rcases List.append_eq_append_iff.mp h with ⟨a1, h1, h2⟩ | ⟨c1, h1, h2⟩
        · exact ih _ _ _ a1 c post e h2 hv
        · cases c1 with
          | nil =>
            simp only [List.nil_append] at h2
            exact ih _ _ _ [] c post e (by simpa using h2.symm) hv
          | cons x c2 =>
            simp only [List.cons_append, List.cons.injEq] at h2
            rw [← h2.1] at h1
            have := try_sources_fatal os pos toolpath toolname acc _ _ s pre c c2 e h1 hv
            rw [hr] at this
            simp at this
      · rw [ht] at h
        simp only [spawns_append, spawns_built, spawns_free, List.nil_append,
          List.append_nil, spawns_tried_report] at h
        have := try_sources_fatal os pos toolpath toolname acc _ _ s pre c post e h hv
        rw [hr] at this
        simp at this

end run_loop_facts

section no_exec

variable {σ : Type} (os : OS σ)

theorem exec_wait_no_exec (s : σ) (pos : Nat) (toolpath toolname : String) (argv : Argv)
    (src : data_source) :
    ∀ e ∈ (exec_wait os s pos toolpath toolname argv src).2.1, is_exec e = false := by
  simp only [exec_wait]
  rcases os.run_child_and_wait s toolpath toolname argv src.get_environment with ⟨r, s1⟩
  cases r with
  | exited c =>
    by_cases h0 : c = 0 <;> by_cases h1 : c = EX_TEMPFAIL <;>
      simp [h0, h1, is_exec, EX_TEMPFAIL_ne_zero]
  | signaled n name => simp [is_exec]
  | other => simp [is_exec]

theorem try_sources_no_exec (pos : Nat) (toolpath toolname acc : String) (argv : Argv)
    (srcs : List data_source) :
    ∀ (s : σ), ∀ e ∈ (try_sources os pos toolpath toolname acc argv s srcs).2.1,
      is_exec e = false := by
  induction srcs with
  | nil => intro s e he; simp [try_sources] at he
  | cons src rest ih =>
    intro s e he
    have hw := exec_wait_no_exec os s pos toolpath toolname argv src
    rcases hx : exec_wait os s pos toolpath toolname argv src with ⟨v, ev, s1⟩
    rw [hx] at hw
    simp only at hw
    cases v with
    | error e1 =>
      simp only [try_sources, hx] at he
      exact hw e he
    | ok b =>
      cases b with
      | true =>
        simp only [try_sources, hx, List.mem_append, List.mem_singleton] at he
        rcases he with he | he
        · exact hw e he
        · subst he; rfl
      | false =>
        simp only [try_sources, hx, List.mem_append, List.mem_singleton] at he
        rcases he with (he | he) | he
        · exact hw e he
        · subst he; rfl
        · exact ih s1 e he

theorem tried_report_no_exec (acc : String) (sources : List data_source) :
    ∀ e ∈ tried_report acc sources, is_exec e = false := by
  intro e he
  simp only [tried_report, List.mem_append, List.mem_singleton, List.mem_map] at he
  rcases he with (he | ⟨x, _, he⟩) | he <;> subst he <;> rfl

theorem run_loop_no_exec (populate : Populate) (all_sources : SourceSet)
    (toolname toolpath theirpath : String) (accessions : List String) (l : List String) :
    ∀ (i : Int) (pos : Nat) (s : σ),
      ∀ e ∈ (run_loop os populate all_sources toolname toolpath theirpath accessions i pos s
        l).trace, is_exec e = false := by
  induction l with
  | nil => intro i pos s e he; simp [run_loop] at he
  | cons acc rest ih =>
    intro i pos s e he
    by_cases hs : all_sources acc = []
    · rw [run_loop_skip os populate all_sources toolname toolpath theirpath accessions i pos s
        acc rest hs] at he
      exact ih _ _ _ e he
    · have hts := try_sources_no_exec os pos toolpath toolname acc
        (argv_for populate theirpath accessions i acc) (all_sources acc) s
      rcases run_loop_cons os populate all_sources toolname toolpath theirpath accessions i pos s
        acc rest hs with ⟨e1, _, _, ht⟩ | ⟨_, _, ht⟩ | ⟨_, _, ht⟩
      · rw [ht] at he
        simp only [List.mem_append, List.mem_cons, List.mem_singleton, List.not_mem_nil,
          or_false] at he
        rcases he with (he | he) | he
        · subst he; rfl
        · subst he; rfl
        · exact hts e he
      · rw [ht] at he
        simp only [List.mem_append, List.mem_cons, List.mem_singleton, List.not_mem_nil,
          or_false] at he
        rcases he with (((he | he) | he) | he) | he
        · subst he; rfl
        · subst he; rfl
        · exact hts e he
        · subst he; rfl
        · exact ih _ _ _ e he
      · rw [ht] at he
        simp only [List.mem_append, List.mem_cons, List.mem_singleton, List.not_mem_nil,
          or_false] at he
        rcases he with (((he | he) | he) | he) | he
        · subst he; rfl
        · subst he; rfl
        · exact hts e he
        · subst he; rfl
        · exact tried_report_no_exec acc (all_sources acc) e he

end no_exec

/-- An event list without calls of `run_child_and_wait` and of `run_child`
starts no child. -/
theorem no_spawn_of_spawns_nil (l : List Event) (h1 : spawns l = [])
    (h2 : ∀ e ∈ l, is_exec e = false) : ∀ e ∈ l, is_spawn e = false := by
  induction l with
  | nil => intro e he; simp at he
  | cons x rest ih =>
    intro e he
    have hx := h2 x (List.mem_cons_self _ _)
    have hrest : ∀ e ∈ rest, is_exec e = false := fun e he => h2 e (List.mem_cons_of_mem _ he)
    cases x with
    | run_child_and_wait c => simp [spawns] at h1
    | run_child a b c => simp [is_exec] at hx
    | _ =>
      simp only [spawns] at h1
      rcases List.mem_cons.mp he with he | he
      · subst he; rfl
      · exact ih h1 hrest e he

section run_facts

variable {σ : Type} (os : OS σ) (populate : Populate) (s : σ)
  (toolname toolpath theirpath location perm_file ngc_file : String) (accessions : List String)

/-- The trace of `ToolExec::run` on a non-empty list: the gateway call between
the two settings of the ambient pointers, then the accession loop. -/
theorem run_nonempty (h : accessions ≠ []) :
    ToolExec.run os populate s toolname toolpath theirpath location perm_file ngc_file accessions
      = { ending := (run_loop os populate
            (os.preload s accessions (ambient location perm_file ngc_file)).1
            toolname toolpath theirpath accessions 0 0
            (os.preload s accessions (ambient location perm_file ngc_file)).2 accessions).ending,
          trace :=
            [Event.set_ambient (ambient location perm_file ngc_file),
              Event.preload accessions (ambient location perm_file ngc_file),
              Event.set_ambient no_ambient, Event.set_ce_token_env_var]
            ++ (run_loop os populate
              (os.preload s accessions (ambient location perm_file ngc_file)).1
              toolname toolpath theirpath accessions 0 0
              (os.preload s accessions (ambient location perm_file ngc_file)).2 accessions).trace,
          state := (run_loop os populate
            (os.preload s accessions (ambient location perm_file ngc_file)).1
            toolname toolpath theirpath accessions 0 0
            (os.preload s accessions (ambient location perm_file ngc_file)).2 accessions).state
        } := by
  cases accessions with
  | nil => exact absurd rfl h
  | cons a l => simp [ToolExec.run]

/-- A call of `ToolExec::run` whose result makes `exec_wait` end the process is
followed by no event that starts a child, and the run ends as `exec_wait`
decided. -/
theorem run_fatal (h : accessions ≠ []) (tpre : List Event) (c : Spawn) (tpost : List Event)
    (e : Ending)
    (ht : (ToolExec.run os populate s toolname toolpath theirpath location perm_file ngc_file
      accessions).trace = tpre ++ Event.run_child_and_wait c :: tpost)
    (hv : verdict c.result = Except.error e) :
    (ToolExec.run os populate s toolname toolpath theirpath location perm_file ngc_file
      accessions).ending = e ∧ ∀ x ∈ tpost, is_spawn x = false := by
  rw [run_nonempty os populate s toolname toolpath theirpath location perm_file ngc_file
    accessions h] at ht ⊢
  simp only at ht ⊢
  have hsp := congrArg spawns ht
  simp only [spawns_append] at hsp
  have hhead : ∀ g1 a g2 g3, spawns [Event.set_ambient g1, Event.preload a g2,
      Event.set_ambient g3, Event.set_ce_token_env_var] = [] := fun _ _ _ _ => rfl
  have hcons : spawns (Event.run_child_and_wait c :: tpost) = c :: spawns tpost := rfl
  rw [hhead, hcons, List.nil_append] at hsp
  have hf := run_loop_fatal os populate _ toolname toolpath theirpath accessions accessions
    0 0 _ (spawns tpre) c (spawns tpost) e hsp hv
  refine ⟨hf.1, ?_⟩
  apply no_spawn_of_spawns_nil tpost hf.2
  intro x hx
  have hall : ∀ y ∈ tpre ++ Event.run_child_and_wait c :: tpost, is_exec y = false := by
    rw [← ht]
    intro y hy
    simp only [List.mem_append, List.mem_cons, List.mem_singleton, List.not_mem_nil,
      or_false] at hy
    rcases hy with (hy | hy | hy | hy) | hy
    · subst hy; rfl
    · subst hy; rfl
    · subst hy; rfl
    · subst hy; rfl
    · exact run_loop_no_exec os populate _ toolname toolpath theirpath accessions accessions
        0 0 _ y hy
  exact hall x (List.mem_append_right _ (List.mem_cons_of_mem _ hx))

end run_facts

theorem spawns_noSDL {σ : Type} (os : OS σ) (populate : Populate) (s : σ)
    (toolname toolpath theirpath : String) (accessions : List String) :
    spawns (ToolExecNoSDL.run os populate s toolname toolpath theirpath accessions).trace
      = [] := by
  simp only [ToolExecNoSDL.run]
  split <;> simp [spawns]

section retry_facts

variable {σ : Type} (os : OS σ) (pos : Nat) (toolpath toolname acc : String) (argv : Argv)

theorem exec_wait_tempfail (s : σ) (src : data_source)
    (h : (call_of os s pos toolpath toolname argv src).result = ProcResult.exited EX_TEMPFAIL) :
    exec_wait os s pos toolpath toolname argv src
      = (Except.ok false, [Event.run_child_and_wait (call_of os s pos toolpath toolname argv src)],
          (os.run_child_and_wait s toolpath toolname argv src.get_environment).2) := by
  simp only [call_of] at h
  simp [exec_wait, call_of, h, EX_TEMPFAIL_ne_zero]

theorem exec_wait_success (s : σ) (src : data_source)
    (h : (call_of os s pos toolpath toolname argv src).result = ProcResult.exited 0) :
    exec_wait os s pos toolpath toolname argv src
      = (Except.ok true, [Event.run_child_and_wait (call_of os s pos toolpath toolname argv src)],
          (os.run_child_and_wait s toolpath toolname argv src.get_environment).2) := by
  simp only [call_of] at h
  simp [exec_wait, call_of, h]

/-- While the calls exit with `EX_TEMPFAIL` the source loop goes on to the next
source, leaving the call and a log line behind each time. -/
theorem try_sources_tempfail (pre : List data_source) :
    ∀ (s : σ) (tl : List data_source),
      (∀ c ∈ calls os pos toolpath toolname argv s pre,
        c.result = ProcResult.exited EX_TEMPFAIL) →
      try_sources os pos toolpath toolname acc argv s (pre ++ tl)
        = ((try_sources os pos toolpath toolname acc argv
              (state_after os toolpath toolname argv s pre) tl).1,
            (calls os pos toolpath toolname argv s pre).flatMap (failed_attempt acc)
              ++ (try_sources os pos toolpath toolname acc argv
                (state_after os toolpath toolname argv s pre) tl).2.1,
            (try_sources os pos toolpath toolname acc argv
              (state_after os toolpath toolname argv s pre) tl).2.2) := by
  induction pre with
  | nil => intro s tl _; simp [calls, state_after]
  | cons src rest ih =>
    intro s tl h
    have h1 := h (call_of os s pos toolpath toolname argv src) (by simp [calls])
    have h2 : ∀ c ∈ calls os pos toolpath toolname argv
        (os.run_child_and_wait s toolpath toolname argv src.get_environment).2 rest,
        c.result = ProcResult.exited EX_TEMPFAIL := fun c hc => h c (by simp [calls, hc])
    have hx := exec_wait_tempfail os pos toolpath toolname argv s src h1
    have hrec := ih _ tl h2
    have hstep : try_sources os pos toolpath toolname acc argv s (src :: (rest ++ tl))
        = ((try_sources os pos toolpath toolname acc argv
              (os.run_child_and_wait s toolpath toolname argv src.get_environment).2
              (rest ++ tl)).1,
            failed_attempt acc (call_of os s pos toolpath toolname argv src)
              ++ (try_sources os pos toolpath toolname acc argv
                (os.run_child_and_wait s toolpath toolname argv src.get_environment).2
                (rest ++ tl)).2.1,
            (try_sources os pos toolpath toolname acc argv
              (os.run_child_and_wait s toolpath toolname argv src.get_environment).2
              (rest ++ tl)).2.2) := by
      rw [try_sources, hx]
      simp [failed_attempt, call_of]
    rw [List.cons_append, hstep, hrec]
    simp [calls, state_after, List.flatMap_cons]

theorem calls_src (srcs : List data_source) :
    ∀ (s : σ), (calls os pos toolpath toolname argv s srcs).map (fun c => c.src) = srcs := by
  induction srcs with
  | nil => intro s; rfl
  | cons src rest ih => intro s; simp [calls, call_of, ih]

theorem calls_env (srcs : List data_source) :
    ∀ (s : σ), (calls os pos toolpath toolname argv s srcs).map (fun c => c.env)
      = srcs.map data_source.get_environment := by
  induction srcs with
  | nil => intro s; rfl
  | cons src rest ih => intro s; simp [calls, call_of, ih]

theorem calls_argv (srcs : List data_source) :
    ∀ (s : σ), ∀ c ∈ calls os pos toolpath toolname argv s srcs,
      c.argv = argv ∧ c.pos = pos ∧ c.toolpath = toolpath ∧ c.toolname = toolname := by
  induction srcs with
  | nil => intro s c hc; simp [calls] at hc
  | cons src rest ih =>
    intro s c hc
    simp only [calls, List.mem_cons] at hc
    rcases hc with hc | hc
    · subst hc; simp [call_of]
    · exact ih _ c hc

end retry_facts

section retry_traces

variable {σ : Type} (os : OS σ) (pos : Nat) (toolpath toolname : String) (argv : Argv)

theorem calls_append (a : List data_source) :
    ∀ (s : σ) (b : List data_source),
      calls os pos toolpath toolname argv s (a ++ b)
        = calls os pos toolpath toolname argv s a
          ++ calls os pos toolpath toolname argv (state_after os toolpath toolname argv s a) b := by
  induction a with
  | nil => intro s b; rfl
  | cons src rest ih => intro s b; simp [calls, state_after, ih]

theorem state_after_append (a : List data_source) :
    ∀ (s : σ) (b : List data_source),
      state_after os toolpath toolname argv s (a ++ b)
        = state_after os toolpath toolname argv (state_after os toolpath toolname argv s a) b := by
  induction a with
  | nil => intro s b; rfl
  | cons src rest ih => intro s b; simp [state_after, ih]

theorem spawns_failed_attempts (acc : String) (l : List Spawn) :
    spawns (l.flatMap (failed_attempt acc)) = l := by
  induction l with
  | nil => rfl
  | cons c rest ih =>
    rw [List.flatMap_cons, spawns_append, ih]
    rfl

theorem cerrs_append (a b : List Event) : cerrs (a ++ b) = cerrs a ++ cerrs b := by
  induction a with
  | nil => rfl
  | cons e rest ih => cases e <;> simp [cerrs, ih]

theorem cerrs_failed_attempts (acc : String) (l : List Spawn) :
    cerrs (l.flatMap (failed_attempt acc)) = [] := by
  induction l with
  | nil => rfl
  | cons c rest ih =>
    rw [List.flatMap_cons, cerrs_append, ih]
    rfl

theorem cerrs_map_cerr (l : List String) : cerrs (l.map Event.cerr) = l := by
  induction l with
  | nil => rfl
  | cons e rest ih => simpa [cerrs] using ih

theorem cerrs_tried_report (acc : String) (sources : List data_source) :
    cerrs (tried_report acc sources)
      = ["Could not get any data for " ++ acc ++ ", tried to get data from:\n"]
        ++ sources.map (fun i => "\t" ++ i.service ++ "\n")
        ++ ["This may be temporary, you should retry later.\n"] := by
  have h : sources.map (fun i => Event.cerr ("\t" ++ i.service ++ "\n"))
      = (sources.map (fun i => "\t" ++ i.service ++ "\n")).map Event.cerr := by
    simp [List.map_map, Function.comp_def]
  simp only [tried_report, cerrs_append, h, cerrs_map_cerr]
  rfl

end retry_traces

section order_facts

variable {σ : Type} (os : OS σ)

/-- The calls of the source loop are the calls on a leading part of the source
list. -/
theorem try_sources_spawns_take (pos : Nat) (toolpath toolname acc : String) (argv : Argv)
    (srcs : List data_source) :
    ∀ (s : σ), ∃ n, spawns (try_sources os pos toolpath toolname acc argv s srcs).2.1
      = calls os pos toolpath toolname argv s (srcs.take n) := by
  induction srcs with
  | nil => intro s; exact ⟨0, rfl⟩
  | cons src rest ih =>
    intro s
    rcases try_sources_cons os pos toolpath toolname acc argv s src rest with
      ⟨_, _, hs, _⟩ | ⟨_, _, hs, _⟩ | ⟨e1, _, _, hs, _⟩
    · exact ⟨1, by rw [hs]; simp [calls]⟩
    · rcases ih (os.run_child_and_wait s toolpath toolname argv src.get_environment).2 with
        ⟨n, hn⟩
      exact ⟨n + 1, by rw [hs, hn]; simp [calls]⟩
    · exact ⟨1, by rw [hs]; simp [calls]⟩

/-- The calls of one turn of the accession loop: calls on a leading part of
the accession's sources, then the calls of the turns that follow, if any. -/
theorem run_loop_spawns_cons (populate : Populate) (all_sources : SourceSet)
    (toolname toolpath theirpath : String) (accessions : List String) (i : Int) (pos : Nat)
    (s : σ) (acc : String) (rest : List String) (h : all_sources acc ≠ []) :
    ∃ n tail, spawns (run_loop os populate all_sources toolname toolpath theirpath accessions i
        pos s (acc :: rest)).trace
        = calls os pos toolpath toolname (argv_for populate theirpath accessions i acc) s
            ((all_sources acc).take n) ++ tail ∧
      (tail = [] ∨ ∃ s1, tail = spawns (run_loop os populate all_sources toolname toolpath
        theirpath accessions (i + 1) (pos + 1) s1 rest).trace) := by
  rcases try_sources_spawns_take os pos toolpath toolname acc
    (argv_for populate theirpath accessions i acc) (all_sources acc) s with ⟨n, hn⟩
  rcases run_loop_cons os populate all_sources toolname toolpath theirpath accessions i pos s
    acc rest h with ⟨e1, _, _, ht⟩ | ⟨_, _, ht⟩ | ⟨_, _, ht⟩
  · refine ⟨n, [], ?_, Or.inl rfl⟩
    rw [ht]
    simp only [spawns_append, spawns_built, List.nil_append, List.append_nil, hn]
  · refine ⟨n, spawns (run_loop os populate all_sources toolname toolpath theirpath accessions
      (i + 1) (pos + 1) (try_sources os pos toolpath toolname acc
        (argv_for populate theirpath accessions i acc) s (all_sources acc)).2.2 rest).trace,
      ?_, Or.inr ⟨_, rfl⟩⟩
    rw [ht]
    simp only [spawns_append, spawns_built, spawns_free, List.nil_append, List.append_nil, hn]
  · refine ⟨n, [], ?_, Or.inl rfl⟩
    rw [ht]
    simp only [spawns_append, spawns_built, spawns_free, spawns_tried_report, List.nil_append,
      List.append_nil, hn]

/-- The order of the calls of the accession loop from the accession at input
position `pos` on: no call is for an earlier position, the positions never
decrease, the sources called for the position `pos + k` are a leading part of
the sources of the accession `k` places further, and there are no more calls
than sources. -/
theorem run_loop_order (populate : Populate) (all_sources : SourceSet)
    (toolname toolpath theirpath : String) (accessions : List String) (l : List String) :
    ∀ (i : Int) (pos : Nat) (s : σ),
      (∀ c ∈ spawns (run_loop os populate all_sources toolname toolpath theirpath accessions i
          pos s l).trace, pos ≤ c.pos) ∧
      List.Pairwise (fun a b : Spawn => a.pos ≤ b.pos)
        (spawns (run_loop os populate all_sources toolname toolpath theirpath accessions i
          pos s l).trace) ∧
      (∀ k, ((spawns (run_loop os populate all_sources toolname toolpath theirpath accessions i
          pos s l).trace).filter (fun c => decide (c.pos = pos + k))).map (fun c => c.src)
            <+: (l.map all_sources).getD k []) ∧
      (spawns (run_loop os populate all_sources toolname toolpath theirpath accessions i
          pos s l).trace).length ≤ (l.map (fun a => (all_sources a).length)).sum := by
  induction l with
  | nil =>
    intro i pos s
    simp [run_loop, spawns]
  | cons acc rest ih =>
    intro i pos s
    by_cases hs : all_sources acc = []
    · rw [run_loop_skip os populate all_sources toolname toolpath theirpath accessions i pos s
        acc rest hs]
      rcases ih i (pos + 1) s with ⟨h1, h2, h3, h4⟩
      refine ⟨fun c hc => Nat.le_of_succ_le (h1 c hc), h2, ?_, ?_⟩
      · intro k
        cases k with
        | zero =>
          have : (spawns (run_loop os populate all_sources toolname toolpath theirpath
              accessions i (pos + 1) s rest).trace).filter (fun c => decide (c.pos = pos + 0))
              = [] := by
            rw [List.filter_eq_nil_iff]
            intro c hc
            have := h1 c hc
            simp only [Nat.add_zero, decide_eq_true_eq]
            omega
          rw [this]
          exact List.nil_prefix
        | succ k =>
          have := h3 k
          rw [show pos + 1 + k = pos + (k + 1) by omega] at this
          simpa using this
      · simpa [hs] using h4
    · rcases run_loop_spawns_cons os populate all_sources toolname toolpath theirpath accessions
        i pos s acc rest hs with ⟨n, tail, hsp, htail⟩
      have hcalls := calls_argv os pos toolpath toolname
        (argv_for populate theirpath accessions i acc) ((all_sources acc).take n) s
      have htl : (∀ c ∈ tail, pos + 1 ≤ c.pos) ∧
          List.Pairwise (fun a b : Spawn => a.pos ≤ b.pos) tail ∧
          (∀ k, (tail.filter (fun c => decide (c.pos = pos + 1 + k))).map (fun c => c.src)
            <+: (rest.map all_sources).getD k []) ∧
          tail.length ≤ (rest.map (fun a => (all_sources a).length)).sum := by
        rcases htail with ht | ⟨s1, ht⟩
        · subst ht
          simp
        · subst ht
          exact ih (i + 1) (pos + 1) s1
      rcases htl with ⟨h1, h2, h3, h4⟩
      rw [hsp]
      refine ⟨?_, ?_, ?_, ?_⟩
      · intro c hc
        rcases List.mem_append.mp hc with hc | hc
        · exact Nat.le_of_eq (hcalls c hc).2.1.symm
        · exact Nat.le_of_succ_le (h1 c hc)
      · rw [List.pairwise_append]
        refine ⟨?_, h2, ?_⟩
        · apply List.Pairwise.imp_of_mem _ (List.pairwise_of_forall (fun _ _ => trivial))
          intro a b ha hb _
          rw [(hcalls a ha).2.1, (hcalls b hb).2.1]
        · intro a ha b hb
          rw [(hcalls a ha).2.1]
          exact Nat.le_of_succ_le (h1 b hb)
      · intro k
        rw [List.filter_append]
        cases k with
        | zero =>
          have ha : (calls os pos toolpath toolname
              (argv_for populate theirpath accessions i acc) s
              ((all_sources acc).take n)).filter (fun c => decide (c.pos = pos + 0))
              = calls os pos toolpath toolname
                (argv_for populate theirpath accessions i acc) s
                ((all_sources acc).take n) := by
            rw [List.filter_eq_self]
            intro c hc
            simp [(hcalls c hc).2.1]
          have hb : tail.filter (fun c => decide (c.pos = pos + 0)) = [] := by
            rw [List.filter_eq_nil_iff]
            intro c hc
            have := h1 c hc
            simp only [Nat.add_zero, decide_eq_true_eq]
            omega
          rw [ha, hb, List.append_nil, calls_src]
          simpa using List.take_prefix n (all_sources acc)
        | succ k =>
          have ha : (calls os pos toolpath toolname
              (argv_for populate theirpath accessions i acc) s
              ((all_sources acc).take n)).filter (fun c => decide (c.pos = pos + (k + 1)))
              = [] := by
            rw [List.filter_eq_nil_iff]
            intro c hc
            simp [(hcalls c hc).2.1]
          rw [ha, List.nil_append]
          have := h3 k
          rw [show pos + 1 + k = pos + (k + 1) by omega] at this
          simpa using this
      · have hlen : (calls os pos toolpath toolname
            (argv_for populate theirpath accessions i acc) s
            ((all_sources acc).take n)).length ≤ (all_sources acc).length := by
          have := congrArg List.length (calls_src os pos toolpath toolname
            (argv_for populate theirpath accessions i acc) ((all_sources acc).take n) s)
          simp only [List.length_map, List.length_take] at this
          omega
        simp only [List.length_append, List.map_cons, List.sum_cons]
        omega

/-- Every call of the accession loop is for the accession at the input
position it is annotated with: its argument vector is the one built for that
accession and its source is one of the sources of that accession. -/
theorem run_loop_spawn_accession (populate : Populate) (all_sources : SourceSet)
    (toolname toolpath theirpath : String) (accessions : List String) (l : List String) :
    ∀ (i : Int) (pos : Nat) (s : σ),
      ∀ c ∈ spawns (run_loop os populate all_sources toolname toolpath theirpath accessions i
          pos s l).trace,
        ∃ j acc, pos ≤ c.pos ∧ l[c.pos - pos]? = some acc ∧
          c.argv = argv_for populate theirpath accessions j acc ∧ c.src ∈ all_sources acc := by
  induction l with
  | nil =>
    intro i pos s c hc
    simp [run_loop, spawns] at hc
  | cons acc rest ih =>
    intro i pos s c hc
    by_cases hs : all_sources acc = []
    · rw [run_loop_skip os populate all_sources toolname toolpath theirpath accessions i pos s
        acc rest hs] at hc
      rcases ih i (pos + 1) s c hc with ⟨j, a, h1, h2, h3, h4⟩
      refine ⟨j, a, by omega, ?_, h3, h4⟩
      rw [show c.pos - pos = (c.pos - (pos + 1)) + 1 by omega, List.getElem?_cons_succ]
      exact h2
    · rcases run_loop_spawns_cons os populate all_sources toolname toolpath theirpath accessions
        i pos s acc rest hs with ⟨n, tail, hsp, htail⟩
      rw [hsp] at hc
      rcases List.mem_append.mp hc with hc | hc
      · have hcalls := calls_argv os pos toolpath toolname
          (argv_for populate theirpath accessions i acc) ((all_sources acc).take n) s c hc
        have hsrc : c.src ∈ (all_sources acc).take n := by
          rw [← calls_src os pos toolpath toolname
            (argv_for populate theirpath accessions i acc) ((all_sources acc).take n) s]
          exact List.mem_map_of_mem (fun c => c.src) hc
        refine ⟨i, acc, Nat.le_of_eq hcalls.2.1.symm, ?_, hcalls.1, List.mem_of_mem_take hsrc⟩
        rw [hcalls.2.1, Nat.sub_self]
        simp
      · rcases htail with ht | ⟨s1, ht⟩
        · subst ht
          simp at hc
        · subst ht
          rcases ih (i + 1) (pos + 1) s1 c hc with ⟨j, a, h1, h2, h3, h4⟩
          refine ⟨j, a, by omega, ?_, h3, h4⟩
          rw [show c.pos - pos = (c.pos - (pos + 1)) + 1 by omega, List.getElem?_cons_succ]
          exact h2

end order_facts

/-! ## The failure policy of the dispatch -/

/-- C1: on a non-empty accession list, whatever the gateway answered, when a
child started by `ToolExec::run` exits with a code that is neither 0 nor
`EX_TEMPFAIL`, the run ends in `exit` with exactly that code and no event after
that call starts a child. -/
theorem run_exits_with_fatal_code {σ : Type} (os : OS σ) (populate : Populate) (s : σ)
    (toolname toolpath theirpath location perm_file ngc_file : String)
    (accessions : List String) (hne : accessions ≠ [])
    (tpre : List Event) (c : Spawn) (tpost : List Event) (code : Int)
    (ht : (ToolExec.run os populate s toolname toolpath theirpath location perm_file ngc_file
      accessions).trace = tpre ++ Event.run_child_and_wait c :: tpost)
    (hres : c.result = ProcResult.exited code) (h0 : code ≠ 0) (h75 : code ≠ EX_TEMPFAIL) :
    (ToolExec.run os populate s toolname toolpath theirpath location perm_file ngc_file
      accessions).ending = Ending.exited code ∧ ∀ x ∈ tpost, is_spawn x = false := by
  apply run_fatal os populate s toolname toolpath theirpath location perm_file ngc_file
    accessions hne tpre c tpost (Ending.exited code) ht
  rw [hres]
  simp [verdict, h0, h75]

/-- Witness of C1: the second source of the first accession exits with 1; the
run exits with 1 and the accession after it is never started. -/
theorem run_exits_with_fatal_code_witness :
    (["SRR000001", "SRR000002"] : List String) ≠ [] ∧
    (demo_run [ProcResult.exited 75, ProcResult.exited 1] ["SRR000001", "SRR000002"]).trace
      = (demo_head ["SRR000001", "SRR000002"] ++
          [Event.populate_argv_builder 0 ["SRR000001", "SRR000002"],
            Event.generate_argv (demo_argv "SRR000001"),
            Event.run_child_and_wait (demo_call 0 "SRR000001" src_s3 (ProcResult.exited 75)),
            Event.log 1 "Failed to get data for SRR000001 from s3\n"])
        ++ Event.run_child_and_wait (demo_call 0 "SRR000001" src_gs (ProcResult.exited 1))
          :: [Event.cerr "fastq-dump quit with error code 1\n"] ∧
    (demo_run [ProcResult.exited 75, ProcResult.exited 1] ["SRR000001", "SRR000002"]).ending
      = Ending.exited 1 ∧
    ∀ x ∈ [Event.cerr "fastq-dump quit with error code 1\n"], is_spawn x = false := by
  refine ⟨by decide, ?h, run_exits_with_fatal_code (scripted demo_sources) no_options
    [ProcResult.exited 75, ProcResult.exited 1] "fastq-dump"
    "/opt/sratoolkit/bin/fastq-dump-orig" "fastq-dump-orig" "" "" ""
    ["SRR000001", "SRR000002"] (by decide) _ _ _ 1 ?h rfl (by decide) (by decide)⟩
  decide

/-- C4: when a child started by `ToolExec::run` is terminated by a signal,
whatever the signal number is and whether or not its name resolves, the run
ends in `exit(3)` and no event after that call starts a child. -/
theorem run_exits_3_when_child_signaled {σ : Type} (os : OS σ) (populate : Populate) (s : σ)
    (toolname toolpath theirpath location perm_file ngc_file : String)
    (accessions : List String)
    (tpre : List Event) (c : Spawn) (tpost : List Event) (termsig : Int)
    (termsigname : Option String)
    (ht : (ToolExec.run os populate s toolname toolpath theirpath location perm_file ngc_file
      accessions).trace = tpre ++ Event.run_child_and_wait c :: tpost)
    (hres : c.result = ProcResult.signaled termsig termsigname) :
    (ToolExec.run os populate s toolname toolpath theirpath location perm_file ngc_file
      accessions).ending = Ending.exited 3 ∧ ∀ x ∈ tpost, is_spawn x = false := by
  by_cases hne : accessions = []
  · have hsp := congrArg spawns ht
    have hcons : spawns (Event.run_child_and_wait c :: tpost) = c :: spawns tpost := rfl
    subst hne
    have hrun : ToolExec.run os populate s toolname toolpath theirpath location perm_file
        ngc_file [] = ToolExecNoSDL.run os populate s toolname toolpath theirpath [] := rfl
    rw [hrun, spawns_noSDL, spawns_append, hcons] at hsp
    simp at hsp
  · apply run_fatal os populate s toolname toolpath theirpath location perm_file ngc_file
      accessions hne tpre c tpost (Ending.exited 3) ht
    rw [hres]
    rfl

/-- Witness of C4: the only source of the first accession is killed by signal
9; the run exits with 3 and the two accessions after it are never started. -/
theorem run_exits_3_when_child_signaled_witness :
    (demo_run [ProcResult.signaled 9 (some "SIGKILL")]
        ["SRR000002", "SRR000001", "SRR000002"]).trace
      = (demo_head ["SRR000002", "SRR000001", "SRR000002"] ++
          [Event.populate_argv_builder 0 ["SRR000002", "SRR000001", "SRR000002"],
            Event.generate_argv (demo_argv "SRR000002")])
        ++ Event.run_child_and_wait
            (demo_call 0 "SRR000002" src_ncbi (ProcResult.signaled 9 (some "SIGKILL")))
          :: [Event.cerr "fastq-dump was killed (signal 9 SIGKILL)\n"] ∧
    (demo_run [ProcResult.signaled 9 (some "SIGKILL")]
        ["SRR000002", "SRR000001", "SRR000002"]).ending = Ending.exited 3 ∧
    ∀ x ∈ [Event.cerr "fastq-dump was killed (signal 9 SIGKILL)\n"], is_spawn x = false := by
  refine ⟨?h, run_exits_3_when_child_signaled (scripted demo_sources) no_options
    [ProcResult.signaled 9 (some "SIGKILL")] "fastq-dump"
    "/opt/sratoolkit/bin/fastq-dump-orig" "fastq-dump-orig" "" "" ""
    ["SRR000002", "SRR000001", "SRR000002"] _ _ _ 9 (some "SIGKILL") ?h rfl⟩
  decide

/-- C3: when the accession loop reaches an accession that has sources and
every one of its sources, attempted in order, exits with `EX_TEMPFAIL`, the
loop attempts each source exactly once in the order of the source list, frees
the vector, reports the whole source list in order on `std::cerr` and returns
`EX_TEMPFAIL`; nothing is done for the accessions after it. -/
theorem run_returns_tempfail_when_sources_exhausted {σ : Type} (os : OS σ)
    (populate : Populate) (all_sources : SourceSet) (toolname toolpath theirpath : String)
    (accessions : List String) (i : Int) (pos : Nat) (s : σ) (acc : String)
    (rest : List String) (hne : all_sources acc ≠ [])
    (hall : ∀ c ∈ calls os pos toolpath toolname (argv_for populate theirpath accessions i acc)
      s (all_sources acc), c.result = ProcResult.exited EX_TEMPFAIL) :
    (run_loop os populate all_sources toolname toolpath theirpath accessions i pos s
        (acc :: rest)).ending = Ending.returned 75 ∧
    (run_loop os populate all_sources toolname toolpath theirpath accessions i pos s
        (acc :: rest)).trace
      = [Event.populate_argv_builder i accessions,
          Event.generate_argv (argv_for populate theirpath accessions i acc)]
        ++ (calls os pos toolpath toolname (argv_for populate theirpath accessions i acc) s
            (all_sources acc)).flatMap (failed_attempt acc)
        ++ [Event.free_argv (argv_for populate theirpath accessions i acc)]
        ++ tried_report acc (all_sources acc) ∧
    (spawns (run_loop os populate all_sources toolname toolpath theirpath accessions i pos s
        (acc :: rest)).trace).map (fun c => c.src) = all_sources acc ∧
    (spawns (run_loop os populate all_sources toolname toolpath theirpath accessions i pos s
        (acc :: rest)).trace).map (fun c => c.env)
      = (all_sources acc).map data_source.get_environment ∧
    (∀ c ∈ spawns (run_loop os populate all_sources toolname toolpath theirpath accessions i pos
        s (acc :: rest)).trace, c.pos = pos) ∧
    cerrs (run_loop os populate all_sources toolname toolpath theirpath accessions i pos s
        (acc :: rest)).trace
      = ["Could not get any data for " ++ acc ++ ", tried to get data from:\n"]
        ++ (all_sources acc).map (fun src => "\t" ++ src.service ++ "\n")
        ++ ["This may be temporary, you should retry later.\n"] := by
  have hts := try_sources_tempfail os pos toolpath toolname acc
    (argv_for populate theirpath accessions i acc) (all_sources acc) s [] hall
  rw [List.append_nil] at hts
  simp only [try_sources, List.append_nil] at hts
  have htr : (run_loop os populate all_sources toolname toolpath theirpath accessions i pos s
        (acc :: rest)).trace
      = [Event.populate_argv_builder i accessions,
          Event.generate_argv (argv_for populate theirpath accessions i acc)]
        ++ (calls os pos toolpath toolname (argv_for populate theirpath accessions i acc) s
            (all_sources acc)).flatMap (failed_attempt acc)
        ++ [Event.free_argv (argv_for populate theirpath accessions i acc)]
        ++ tried_report acc (all_sources acc) := by
    rcases run_loop_cons os populate all_sources toolname toolpath theirpath accessions i pos s
      acc rest hne with ⟨e1, hr, _, _⟩ | ⟨hr, _, _⟩ | ⟨_, _, ht⟩
    · rw [hts] at hr; cases hr
    · rw [hts] at hr; cases hr
    · rw [ht, hts]
  have hend : (run_loop os populate all_sources toolname toolpath theirpath accessions i pos s
        (acc :: rest)).ending = Ending.returned 75 := by
    rcases run_loop_cons os populate all_sources toolname toolpath theirpath accessions i pos s
      acc rest hne with ⟨e1, hr, _, _⟩ | ⟨hr, _, _⟩ | ⟨_, he, _⟩
    · rw [hts] at hr; cases hr
    · rw [hts] at hr; cases hr
    · exact he
  have hsp : spawns (run_loop os populate all_sources toolname toolpath theirpath accessions i
      pos s (acc :: rest)).trace
      = calls os pos toolpath toolname (argv_for populate theirpath accessions i acc) s
          (all_sources acc) := by
    rw [htr]
    simp only [spawns_append, spawns_built, spawns_free, spawns_tried_report,
      spawns_failed_attempts, List.nil_append, List.append_nil]
  refine ⟨hend, htr, ?_, ?_, ?_, ?_⟩
  · rw [hsp, calls_src]
  · rw [hsp, calls_env]
  · intro c hc
    rw [hsp] at hc
    exact (calls_argv os pos toolpath toolname _ _ s c hc).2.1
  · rw [htr]
    simp only [cerrs_append, cerrs_failed_attempts, cerrs_tried_report, List.nil_append,
      List.append_nil]
    rfl

/-- Witness of C3: both sources of the first accession exit with 75; the loop
returns 75 after trying the two in order, names both in its report and never
starts the second accession. -/
theorem run_returns_tempfail_when_sources_exhausted_witness :
    demo_sources "SRR000001" ≠ [] ∧
    (∀ c ∈ calls (scripted demo_sources) 0 "/opt/sratoolkit/bin/fastq-dump-orig" "fastq-dump"
        (argv_for no_options "fastq-dump-orig" ["SRR000001", "SRR000002"] 0 "SRR000001")
        [ProcResult.exited 75, ProcResult.exited 75] (demo_sources "SRR000001"),
      c.result = ProcResult.exited EX_TEMPFAIL) ∧
    (run_loop (scripted demo_sources) no_options demo_sources "fastq-dump"
        "/opt/sratoolkit/bin/fastq-dump-orig" "fastq-dump-orig" ["SRR000001", "SRR000002"] 0 0
        [ProcResult.exited 75, ProcResult.exited 75] ["SRR000001", "SRR000002"]).ending
      = Ending.returned 75 ∧
    (spawns (run_loop (scripted demo_sources) no_options demo_sources "fastq-dump"
        "/opt/sratoolkit/bin/fastq-dump-orig" "fastq-dump-orig" ["SRR000001", "SRR000002"] 0 0
        [ProcResult.exited 75, ProcResult.exited 75] ["SRR000001", "SRR000002"]).trace).map
        (fun c => c.src) = demo_sources "SRR000001" := by
  have h := run_returns_tempfail_when_sources_exhausted (scripted demo_sources) no_options
    demo_sources "fastq-dump" "/opt/sratoolkit/bin/fastq-dump-orig" "fastq-dump-orig"
    ["SRR000001", "SRR000002"] 0 0 [ProcResult.exited 75, ProcResult.exited 75] "SRR000001"
    ["SRR000002"] (by decide) (by decide)
  exact ⟨by decide, by decide, h.1, h.2.2.1⟩

/-- C2: when the accession loop reaches an accession whose source list is
`pre ++ good :: post`, where the attempts on the sources of `pre`, made in
order, all exit with `EX_TEMPFAIL` and the attempt on `good` that follows exits
with 0, the loop starts exactly the sources of `pre` and then `good`, each with
the environment overlay of that very source, starts none of `post`, frees the
vector and goes on with the next accession; when there is no next accession it
returns 0. -/
theorem run_retries_until_first_success {σ : Type} (os : OS σ)
    (populate : Populate) (all_sources : SourceSet) (toolname toolpath theirpath : String)
    (accessions : List String) (i : Int) (pos : Nat) (s : σ) (acc : String)
    (rest : List String) (pre : List data_source) (good : data_source)
    (post : List data_source) (hsrc : all_sources acc = pre ++ good :: post)
    (hfail : ∀ c ∈ calls os pos toolpath toolname (argv_for populate theirpath accessions i acc)
      s pre, c.result = ProcResult.exited EX_TEMPFAIL)
    (hgood : (call_of os (state_after os toolpath toolname
        (argv_for populate theirpath accessions i acc) s pre) pos toolpath toolname
        (argv_for populate theirpath accessions i acc) good).result = ProcResult.exited 0) :
    (run_loop os populate all_sources toolname toolpath theirpath accessions i pos s
        (acc :: rest)).trace
      = [Event.populate_argv_builder i accessions,
          Event.generate_argv (argv_for populate theirpath accessions i acc)]
        ++ (calls os pos toolpath toolname (argv_for populate theirpath accessions i acc) s
            pre).flatMap (failed_attempt acc)
        ++ successful_attempt acc (call_of os (state_after os toolpath toolname
            (argv_for populate theirpath accessions i acc) s pre) pos toolpath toolname
            (argv_for populate theirpath accessions i acc) good)
        ++ [Event.free_argv (argv_for populate theirpath accessions i acc)]
        ++ (run_loop os populate all_sources toolname toolpath theirpath accessions (i + 1)
            (pos + 1) (state_after os toolpath toolname
              (argv_for populate theirpath accessions i acc) s (pre ++ [good])) rest).trace ∧
    (run_loop os populate all_sources toolname toolpath theirpath accessions i pos s
        (acc :: rest)).ending
      = (run_loop os populate all_sources toolname toolpath theirpath accessions (i + 1)
            (pos + 1) (state_after os toolpath toolname
              (argv_for populate theirpath accessions i acc) s (pre ++ [good])) rest).ending ∧
    spawns (run_loop os populate all_sources toolname toolpath theirpath accessions i pos s
        (acc :: rest)).trace
      = calls os pos toolpath toolname (argv_for populate theirpath accessions i acc) s
          (pre ++ [good])
        ++ spawns (run_loop os populate all_sources toolname toolpath theirpath accessions
            (i + 1) (pos + 1) (state_after os toolpath toolname
              (argv_for populate theirpath accessions i acc) s (pre ++ [good])) rest).trace ∧
    (calls os pos toolpath toolname (argv_for populate theirpath accessions i acc) s
        (pre ++ [good])).map (fun c => c.src) = pre ++ [good] ∧
    (calls os pos toolpath toolname (argv_for populate theirpath accessions i acc) s
        (pre ++ [good])).map (fun c => c.env)
      = (pre ++ [good]).map data_source.get_environment ∧
    (∀ c ∈ spawns (run_loop os populate all_sources toolname toolpath theirpath accessions
        (i + 1) (pos + 1) (state_after os toolpath toolname
          (argv_for populate theirpath accessions i acc) s (pre ++ [good])) rest).trace,
      pos + 1 ≤ c.pos) ∧
    (rest = [] →
      (run_loop os populate all_sources toolname toolpath theirpath accessions i pos s
        (acc :: rest)).ending = Ending.returned 0 ∧
      spawns (run_loop os populate all_sources toolname toolpath theirpath accessions i pos s
        (acc :: rest)).trace
        = calls os pos toolpath toolname (argv_for populate theirpath accessions i acc) s
            (pre ++ [good])) := by
  have hne : all_sources acc ≠ [] := by rw [hsrc]; simp
  have hx := exec_wait_success os pos toolpath toolname
    (argv_for populate theirpath accessions i acc)
    (state_after os toolpath toolname (argv_for populate theirpath accessions i acc) s pre)
    good hgood
  have hts := try_sources_tempfail os pos toolpath toolname acc
    (argv_for populate theirpath accessions i acc) pre s (good :: post) hfail
  have hstate : state_after os toolpath toolname (argv_for populate theirpath accessions i acc)
      s (pre ++ [good])
      = (os.run_child_and_wait (state_after os toolpath toolname
          (argv_for populate theirpath accessions i acc) s pre) toolpath toolname
          (argv_for populate theirpath accessions i acc) good.get_environment).2 := by
    rw [state_after_append]
    rfl
  have hcalls : calls os pos toolpath toolname (argv_for populate theirpath accessions i acc) s
      (pre ++ [good])
      = calls os pos toolpath toolname (argv_for populate theirpath accessions i acc) s pre
        ++ [call_of os (state_after os toolpath toolname
            (argv_for populate theirpath accessions i acc) s pre) pos toolpath toolname
            (argv_for populate theirpath accessions i acc) good] := by
    rw [calls_append]
    rfl
  have hlast : try_sources os pos toolpath toolname acc
      (argv_for populate theirpath accessions i acc)
      (state_after os toolpath toolname (argv_for populate theirpath accessions i acc) s pre)
      (good :: post)
      = (Except.ok true,
          successful_attempt acc (call_of os (state_after os toolpath toolname
            (argv_for populate theirpath accessions i acc) s pre) pos toolpath toolname
            (argv_for populate theirpath accessions i acc) good),
          state_after os toolpath toolname (argv_for populate theirpath accessions i acc) s
            (pre ++ [good])) := by
    rw [try_sources, hx, hstate]
    simp [successful_attempt, call_of]
  rw [hlast, ← hsrc] at hts
  simp only at hts
  have htr : (run_loop os populate all_sources toolname toolpath theirpath accessions i pos s
        (acc :: rest)).trace
      = [Event.populate_argv_builder i accessions,
          Event.generate_argv (argv_for populate theirpath accessions i acc)]
        ++ (calls os pos toolpath toolname (argv_for populate theirpath accessions i acc) s
            pre).flatMap (failed_attempt acc)
        ++ successful_attempt acc (call_of os (state_after os toolpath toolname
            (argv_for populate theirpath accessions i acc) s pre) pos toolpath toolname
            (argv_for populate theirpath accessions i acc) good)
        ++ [Event.free_argv (argv_for populate theirpath accessions i acc)]
        ++ (run_loop os populate all_sources toolname toolpath theirpath accessions (i + 1)
            (pos + 1) (state_after os toolpath toolname
              (argv_for populate theirpath accessions i acc) s (pre ++ [good])) rest).trace := by
    rcases run_loop_cons os populate all_sources toolname toolpath theirpath accessions i pos s
      acc rest hne with ⟨e1, hr, _, _⟩ | ⟨_, _, ht⟩ | ⟨hr, _, _⟩
    · rw [hts] at hr; cases hr
    · rw [ht, hts]
      simp only [List.append_assoc]
    · rw [hts] at hr; cases hr
  have hend : (run_loop os populate all_sources toolname toolpath theirpath accessions i pos s
        (acc :: rest)).ending
      = (run_loop os populate all_sources toolname toolpath theirpath accessions (i + 1)
            (pos + 1) (state_after os toolpath toolname
              (argv_for populate theirpath accessions i acc) s (pre ++ [good])) rest).ending := by
    rcases run_loop_cons os populate all_sources toolname toolpath theirpath accessions i pos s
      acc rest hne with ⟨e1, hr, _, _⟩ | ⟨_, he, _⟩ | ⟨hr, _, _⟩
    · rw [hts] at hr; cases hr
    · rw [he, hts]
    · rw [hts] at hr; cases hr
  have hsucc : ∀ c, spawns (successful_attempt acc c) = [c] := fun _ => rfl
  have hsp : spawns (run_loop os populate all_sources toolname toolpath theirpath accessions i
      pos s (acc :: rest)).trace
      = calls os pos toolpath toolname (argv_for populate theirpath accessions i acc) s
          (pre ++ [good])
        ++ spawns (run_loop os populate all_sources toolname toolpath theirpath accessions
            (i + 1) (pos + 1) (state_after os toolpath toolname
              (argv_for populate theirpath accessions i acc) s (pre ++ [good])) rest).trace := by
    rw [htr, hcalls]
    simp only [spawns_append, spawns_built, spawns_free, spawns_failed_attempts, hsucc,
      List.nil_append, List.append_nil]
  refine ⟨htr, hend, hsp, calls_src os pos toolpath toolname _ _ s,
    calls_env os pos toolpath toolname _ _ s,
    (run_loop_order os populate all_sources toolname toolpath theirpath accessions rest
      (i + 1) (pos + 1) _).1, ?_⟩
  intro hrest
  subst hrest
  rw [hsp, hend]
  simp [run_loop, spawns]

/-- Witness of C2: the first source of `SRR000001` exits with 75 and the
second with 0; both are started in order, each with its own overlay, and as
the accession is the last one the loop returns 0. -/
theorem run_retries_until_first_success_witness :
    demo_sources "SRR000001" = [src_s3] ++ src_gs :: [] ∧
    (∀ c ∈ calls (scripted demo_sources) 1 "/opt/sratoolkit/bin/fastq-dump-orig" "fastq-dump"
        (argv_for no_options "fastq-dump-orig" ["SRR000002", "SRR000001"] 1 "SRR000001")
        [ProcResult.exited 75, ProcResult.exited 0] [src_s3],
      c.result = ProcResult.exited EX_TEMPFAIL) ∧
    (run_loop (scripted demo_sources) no_options demo_sources "fastq-dump"
        "/opt/sratoolkit/bin/fastq-dump-orig" "fastq-dump-orig" ["SRR000002", "SRR000001"] 1 1
        [ProcResult.exited 75, ProcResult.exited 0] ["SRR000001"]).ending
      = Ending.returned 0 ∧
    (spawns (run_loop (scripted demo_sources) no_options demo_sources "fastq-dump"
        "/opt/sratoolkit/bin/fastq-dump-orig" "fastq-dump-orig" ["SRR000002", "SRR000001"] 1 1
        [ProcResult.exited 75, ProcResult.exited 0] ["SRR000001"]).trace).map (fun c => c.env)
      = [[("CE_TOKEN", "aws")], [("CE_TOKEN", "gcp")]] := by
  have h := run_retries_until_first_success (scripted demo_sources) no_options
    demo_sources "fastq-dump" "/opt/sratoolkit/bin/fastq-dump-orig" "fastq-dump-orig"
    ["SRR000002", "SRR000001"] 1 1 [ProcResult.exited 75, ProcResult.exited 0] "SRR000001"
    [] [src_s3] src_gs [] (by decide) (by decide) (by decide)
  have h7 := h.2.2.2.2.2.2 rfl
  refine ⟨by decide, by decide, h7.1, ?_⟩
  rw [h7.2, h.2.2.2.2.1]
  decide

/-! ## The order of the calls -/

/-- C5: in every run of `ToolExec::run` each call is made for the accession at
the input position it is annotated with, the input positions of the
accessions of successive calls never decrease, the sources called for the
accession at input position `k` are, in order, a leading part of the source
list the gateway gave for it (so each source of an accession is attempted at
most once), and the number of calls is at most the total number of sources. -/
theorem run_spawns_in_order {σ : Type} (os : OS σ) (populate : Populate) (s : σ)
    (toolname toolpath theirpath location perm_file ngc_file : String)
    (accessions : List String) :
    (∀ c ∈ spawns (ToolExec.run os populate s toolname toolpath theirpath location perm_file
        ngc_file accessions).trace,
      ∃ j acc, accessions[c.pos]? = some acc ∧
        c.argv = argv_for populate theirpath accessions j acc ∧
        c.src ∈ (os.preload s accessions (ambient location perm_file ngc_file)).1 acc) ∧
    List.Sorted (fun a b : Nat => a ≤ b)
      ((spawns (ToolExec.run os populate s toolname toolpath theirpath location perm_file
        ngc_file accessions).trace).map (fun c => c.pos)) ∧
    (∀ k, ((spawns (ToolExec.run os populate s toolname toolpath theirpath location perm_file
        ngc_file accessions).trace).filter (fun c => decide (c.pos = k))).map (fun c => c.src)
      <+: (accessions.map
        (os.preload s accessions (ambient location perm_file ngc_file)).1).getD k []) ∧
    (spawns (ToolExec.run os populate s toolname toolpath theirpath location perm_file
        ngc_file accessions).trace).length
      ≤ (accessions.map (fun a =>
          ((os.preload s accessions (ambient location perm_file ngc_file)).1 a).length)).sum := by
  by_cases hne : accessions = []
  · subst hne
    have hrun : ToolExec.run os populate s toolname toolpath theirpath location perm_file
        ngc_file [] = ToolExecNoSDL.run os populate s toolname toolpath theirpath [] := rfl
    rw [hrun, spawns_noSDL]
    simp [List.Sorted]
  · rw [run_nonempty os populate s toolname toolpath theirpath location perm_file ngc_file
      accessions hne]
    have hhead : ∀ g1 a g2 g3 rest, spawns ([Event.set_ambient g1, Event.preload a g2,
        Event.set_ambient g3, Event.set_ce_token_env_var] ++ rest) = spawns rest :=
      fun _ _ _ _ _ => rfl
    simp only [hhead]
    rcases run_loop_order os populate
      (os.preload s accessions (ambient location perm_file ngc_file)).1 toolname toolpath
      theirpath accessions accessions 0 0
      (os.preload s accessions (ambient location perm_file ngc_file)).2 with ⟨_, h2, h3, h4⟩
    refine ⟨?_, ?_, ?_, h4⟩
    · intro c hc
      rcases run_loop_spawn_accession os populate
        (os.preload s accessions (ambient location perm_file ngc_file)).1 toolname toolpath
        theirpath accessions accessions 0 0
        (os.preload s accessions (ambient location perm_file ngc_file)).2 c hc with
        ⟨j, acc, _, h6, h7, h8⟩
      exact ⟨j, acc, by simpa using h6, h7, h8⟩
    · unfold List.Sorted
      rw [List.pairwise_map]
      exact h2
    · intro k
      simpa using h3 k

/-! ## Accessions without sources -/

section skip_facts

variable {σ : Type} (os : OS σ)

theorem exec_wait_pos (s : σ) (pos pos1 : Nat) (toolpath toolname : String) (argv : Argv)
    (src : data_source) :
    (exec_wait os s pos toolpath toolname argv src).1
        = (exec_wait os s pos1 toolpath toolname argv src).1 ∧
      (exec_wait os s pos toolpath toolname argv src).2.1.map forget_pos
        = (exec_wait os s pos1 toolpath toolname argv src).2.1.map forget_pos ∧
      (exec_wait os s pos toolpath toolname argv src).2.2
        = (exec_wait os s pos1 toolpath toolname argv src).2.2 := by
  simp only [exec_wait]
  rcases os.run_child_and_wait s toolpath toolname argv src.get_environment with ⟨r, s1⟩
  cases r with
  | exited c =>
    by_cases h0 : c = 0 <;> by_cases h1 : c = EX_TEMPFAIL <;>
      simp [h0, h1, forget_pos, EX_TEMPFAIL_ne_zero]
  | signaled n name => simp [forget_pos]
  | other => simp [forget_pos]

theorem try_sources_pos (pos pos1 : Nat) (toolpath toolname acc : String) (argv : Argv)
    (srcs : List data_source) :
    ∀ (s : σ),
      (try_sources os pos toolpath toolname acc argv s srcs).1
          = (try_sources os pos1 toolpath toolname acc argv s srcs).1 ∧
        (try_sources os pos toolpath toolname acc argv s srcs).2.1.map forget_pos
          = (try_sources os pos1 toolpath toolname acc argv s srcs).2.1.map forget_pos ∧
        (try_sources os pos toolpath toolname acc argv s srcs).2.2
          = (try_sources os pos1 toolpath toolname acc argv s srcs).2.2 := by
  induction srcs with
  | nil => intro s; simp [try_sources]
  | cons src rest ih =>
    intro s
    have hw := exec_wait_pos os s pos pos1 toolpath toolname argv src
    rcases hx : exec_wait os s pos toolpath toolname argv src with ⟨v, ev, s1⟩
    rcases hy : exec_wait os s pos1 toolpath toolname argv src with ⟨v1, ev1, s2⟩
    rw [hx, hy] at hw
    simp only at hw
    rcases hw with ⟨hv, hev, hs⟩
    subst hv hs
    have hrec := ih s1
    cases v with
    | error e => simp [try_sources, hx, hy, hev]
    | ok b =>
      cases b with
      | true => simp [try_sources, hx, hy, hev, forget_pos]
      | false => simp [try_sources, hx, hy, hev, forget_pos, hrec]

theorem tried_report_forget (acc : String) (sources : List data_source) :
    (tried_report acc sources).map forget_pos = tried_report acc sources := by
  simp [tried_report, forget_pos, Function.comp_def]

/-- The accession loop does the same whatever the input position it is told to
start from, the position annotations apart. -/
theorem run_loop_pos (populate : Populate) (all_sources : SourceSet)
    (toolname toolpath theirpath : String) (accessions : List String) (l : List String) :
    ∀ (i : Int) (pos pos1 : Nat) (s : σ),
      (run_loop os populate all_sources toolname toolpath theirpath accessions i pos s l).forget
        = (run_loop os populate all_sources toolname toolpath theirpath accessions i pos1 s
            l).forget := by
  induction l with
  | nil => intro i pos pos1 s; simp [run_loop, Outcome.forget]
  | cons acc rest ih =>
    intro i pos pos1 s
    by_cases hs : all_sources acc = []
    · rw [run_loop_skip os populate all_sources toolname toolpath theirpath accessions i pos s
        acc rest hs, run_loop_skip os populate all_sources toolname toolpath theirpath
        accessions i pos1 s acc rest hs]
      exact ih i (pos + 1) (pos1 + 1) s
    · have hne : (all_sources acc).isEmpty = false := by
        cases hl : all_sources acc with
        | nil => exact absurd hl hs
        | cons x xs => rfl
      have hw := try_sources_pos os pos pos1 toolpath toolname acc
        ((populate (ArgvBuilder.add_option {} theirpath) i accessions).generate_argv [acc])
        (all_sources acc) s
      rcases hx : try_sources os pos toolpath toolname acc
        ((populate (ArgvBuilder.add_option {} theirpath) i accessions).generate_argv [acc])
        s (all_sources acc) with ⟨v, ev, s1⟩
      rcases hy : try_sources os pos1 toolpath toolname acc
        ((populate (ArgvBuilder.add_option {} theirpath) i accessions).generate_argv [acc])
        s (all_sources acc) with ⟨v1, ev1, s2⟩
      rw [hx, hy] at hw
      simp only at hw
      rcases hw with ⟨hv, hev, hst⟩
      subst hv hst
      have hrec := ih (i + 1) (pos + 1) (pos1 + 1) s1
      simp only [Outcome.forget, Outcome.mk.injEq] at hrec
      cases v with
      | error e => simp [run_loop, hne, hx, hy, Outcome.forget, hev, forget_pos]
      | ok b =>
        cases b with
        | true => simp [run_loop, hne, hx, hy, Outcome.forget, hev, forget_pos, hrec]
        | false =>
          simp [run_loop, hne, hx, hy, Outcome.forget, hev, forget_pos, tried_report_forget]

/-- The accession loop over a list with an accession that has no sources does
what it does over the list without that accession, the position annotations
apart; the list passed to `populate_argv_builder` is `accessions` in both. -/
theorem run_loop_remove (populate : Populate) (all_sources : SourceSet)
    (toolname toolpath theirpath : String) (accessions : List String) (acc : String)
    (post : List String) (h : all_sources acc = []) (pre : List String) :
    ∀ (i : Int) (pos : Nat) (s : σ),
      (run_loop os populate all_sources toolname toolpath theirpath accessions i pos s
          (pre ++ acc :: post)).forget
        = (run_loop os populate all_sources toolname toolpath theirpath accessions i pos s
            (pre ++ post)).forget := by
  induction pre with
  | nil =>
    intro i pos s
    rw [List.nil_append, List.nil_append,
      run_loop_skip os populate all_sources toolname toolpath theirpath accessions i pos s acc
        post h]
    exact run_loop_pos os populate all_sources toolname toolpath theirpath accessions post i
      (pos + 1) pos s
  | cons a rest ih =>
    intro i pos s
    rw [List.cons_append, List.cons_append]
    by_cases hs : all_sources a = []
    · rw [run_loop_skip os populate all_sources toolname toolpath theirpath accessions i pos s
        a _ hs, run_loop_skip os populate all_sources toolname toolpath theirpath
        accessions i pos s a _ hs]
      exact ih i (pos + 1) s
    · have hne : (all_sources a).isEmpty = false := by
        cases hl : all_sources a with
        | nil => exact absurd hl hs
        | cons x xs => rfl
      rcases hx : try_sources os pos toolpath toolname a
        ((populate (ArgvBuilder.add_option {} theirpath) i accessions).generate_argv [a])
        s (all_sources a) with ⟨v, ev, s1⟩
      have hrec := ih (i + 1) (pos + 1) s1
      simp only [Outcome.forget, Outcome.mk.injEq] at hrec
      cases v with
      | error e => simp [run_loop, hne, hx, Outcome.forget]
      | ok b =>
        cases b with
        | true => simp [run_loop, hne, hx, Outcome.forget, hrec]
        | false => simp [run_loop, hne, hx, Outcome.forget]

end skip_facts

theorem run_loop_all_skipped {σ : Type} (os : OS σ) (populate : Populate)
    (all_sources : SourceSet) (toolname toolpath theirpath : String) (accessions : List String)
    (l : List String) (h : ∀ a ∈ l, all_sources a = []) :
    ∀ (i : Int) (pos : Nat) (s : σ),
      run_loop os populate all_sources toolname toolpath theirpath accessions i pos s l
        = { ending := Ending.returned 0, trace := [], state := s } := by
  induction l with
  | nil => intro i pos s; rfl
  | cons acc rest ih =>
    intro i pos s
    rw [run_loop_skip os populate all_sources toolname toolpath theirpath accessions i pos s acc
      rest (h acc (List.mem_cons_self _ _))]
    exact ih (fun a ha => h a (List.mem_cons_of_mem _ ha)) i (pos + 1) s

/-- C6, as stated, fails: with a tool whose options mention the number of
accessions, the child for `SRR000002` gets other arguments when the list also
holds `ERP000001`, which has no sources, than when it does not. -/
theorem skipped_accession_is_not_absent :
    demo_sources "ERP000001" = [] ∧
    (spawns (ToolExec.run (scripted demo_sources) counting_options [ProcResult.exited 0]
        "sam-dump" "/opt/sratoolkit/bin/sam-dump-orig" "sam-dump-orig" "" "" ""
        ["ERP000001", "SRR000002"]).trace).map (fun c => c.argv)
      = [[some "sam-dump-orig", some "--total", some "2", some "SRR000002", none]] ∧
    (spawns (ToolExec.run (scripted demo_sources) counting_options [ProcResult.exited 0]
        "sam-dump" "/opt/sratoolkit/bin/sam-dump-orig" "sam-dump-orig" "" "" ""
        ["SRR000002"]).trace).map (fun c => c.argv)
      = [[some "sam-dump-orig", some "--total", some "1", some "SRR000002", none]] ∧
    (spawns (ToolExec.run (scripted demo_sources) counting_options [ProcResult.exited 0]
        "sam-dump" "/opt/sratoolkit/bin/sam-dump-orig" "sam-dump-orig" "" "" ""
        ["ERP000001", "SRR000002"]).trace).map (fun c => c.argv)
      ≠ (spawns (ToolExec.run (scripted demo_sources) counting_options [ProcResult.exited 0]
        "sam-dump" "/opt/sratoolkit/bin/sam-dump-orig" "sam-dump-orig" "" "" ""
        ["SRR000002"]).trace).map (fun c => c.argv) := by
  decide

/-- C6, amended: an accession for which the gateway gave no sources adds
nothing to the dispatch, neither an argument vector nor a call nor a
diagnostic: when the loop reaches it, it goes on with the next accession with
the same counter and state, and the whole run is the gateway call followed by
the accession loop over the list without that accession, the full list still
being the one passed to `populate_argv_builder`. When no accession of the list
has sources, the run consists of the gateway call alone and returns 0. -/
theorem run_skips_accession_without_sources {σ : Type} (os : OS σ) (populate : Populate)
    (s : σ) (toolname toolpath theirpath location perm_file ngc_file : String)
    (pre : List String) (acc : String) (post : List String)
    (h : (os.preload s (pre ++ acc :: post) (ambient location perm_file ngc_file)).1 acc = []) :
    (∀ (i : Int) (pos : Nat) (s1 : σ),
      run_loop os populate
          (os.preload s (pre ++ acc :: post) (ambient location perm_file ngc_file)).1
          toolname toolpath theirpath (pre ++ acc :: post) i pos s1 (acc :: post)
        = run_loop os populate
          (os.preload s (pre ++ acc :: post) (ambient location perm_file ngc_file)).1
          toolname toolpath theirpath (pre ++ acc :: post) i (pos + 1) s1 post) ∧
    (ToolExec.run os populate s toolname toolpath theirpath location perm_file ngc_file
        (pre ++ acc :: post)).forget
      = { ending := (run_loop os populate
            (os.preload s (pre ++ acc :: post) (ambient location perm_file ngc_file)).1
            toolname toolpath theirpath (pre ++ acc :: post) 0 0
            (os.preload s (pre ++ acc :: post) (ambient location perm_file ngc_file)).2
            (pre ++ post)).ending,
          trace :=
            [Event.set_ambient (ambient location perm_file ngc_file),
              Event.preload (pre ++ acc :: post) (ambient location perm_file ngc_file),
              Event.set_ambient no_ambient, Event.set_ce_token_env_var]
            ++ (run_loop os populate
              (os.preload s (pre ++ acc :: post) (ambient location perm_file ngc_file)).1
              toolname toolpath theirpath (pre ++ acc :: post) 0 0
              (os.preload s (pre ++ acc :: post) (ambient location perm_file ngc_file)).2
              (pre ++ post)).trace.map forget_pos,
          state := (run_loop os populate
            (os.preload s (pre ++ acc :: post) (ambient location perm_file ngc_file)).1
            toolname toolpath theirpath (pre ++ acc :: post) 0 0
            (os.preload s (pre ++ acc :: post) (ambient location perm_file ngc_file)).2
            (pre ++ post)).state } ∧
    ((∀ a ∈ pre ++ acc :: post,
        (os.preload s (pre ++ acc :: post) (ambient location perm_file ngc_file)).1 a = []) →
      (ToolExec.run os populate s toolname toolpath theirpath location perm_file ngc_file
          (pre ++ acc :: post)).ending = Ending.returned 0 ∧
      (ToolExec.run os populate s toolname toolpath theirpath location perm_file ngc_file
          (pre ++ acc :: post)).trace
        = [Event.set_ambient (ambient location perm_file ngc_file),
            Event.preload (pre ++ acc :: post) (ambient location perm_file ngc_file),
            Event.set_ambient no_ambient, Event.set_ce_token_env_var]) := by
  have hne : pre ++ acc :: post ≠ [] := by simp
  refine ⟨fun i pos s1 => run_loop_skip os populate _ toolname toolpath theirpath _ i pos s1
    acc post h, ?_, ?_⟩
  · have hrem := run_loop_remove os populate
      (os.preload s (pre ++ acc :: post) (ambient location perm_file ngc_file)).1
      toolname toolpath theirpath (pre ++ acc :: post) acc post h pre 0 0
      (os.preload s (pre ++ acc :: post) (ambient location perm_file ngc_file)).2
    simp only [Outcome.forget, Outcome.mk.injEq] at hrem
    rw [run_nonempty os populate s toolname toolpath theirpath location perm_file ngc_file
      (pre ++ acc :: post) hne]
    simp only [Outcome.forget, Outcome.mk.injEq, List.map_append]
    refine ⟨hrem.1, ?_, hrem.2.2⟩
    rw [hrem.2.1]
    rfl
  · intro hall
    rw [run_nonempty os populate s toolname toolpath theirpath location perm_file ngc_file
      (pre ++ acc :: post) hne]
    rw [run_loop_all_skipped os populate _ toolname toolpath theirpath
      (pre ++ acc :: post) (pre ++ acc :: post) hall]
    exact ⟨rfl, rfl⟩

/-- Witness of C6, amended: `ERP000001` has no sources; the run over the three
accessions ends as the loop over the two others does. -/
theorem run_skips_accession_without_sources_witness :
    ((scripted demo_sources).preload [ProcResult.exited 0, ProcResult.exited 75]
        (["SRR000001"] ++ "ERP000001" :: ["SRR000002"]) (ambient "" "" "")).1 "ERP000001" = [] ∧
    (ToolExec.run (scripted demo_sources) counting_options
        [ProcResult.exited 0, ProcResult.exited 75] "sam-dump"
        "/opt/sratoolkit/bin/sam-dump-orig" "sam-dump-orig" "" "" ""
        (["SRR000001"] ++ "ERP000001" :: ["SRR000002"])).forget.ending
      = Ending.returned 75 := by
  have h := run_skips_accession_without_sources (scripted demo_sources) counting_options
    [ProcResult.exited 0, ProcResult.exited 75] "sam-dump"
    "/opt/sratoolkit/bin/sam-dump-orig" "sam-dump-orig" "" "" ""
    ["SRR000001"] "ERP000001" ["SRR000002"] (by decide)
  refine ⟨by decide, ?_⟩
  rw [h.2.1]
  decide

/-! ## Identity resolution -/

theorem detect_imposter_ne_invalid_iff (source : String) :
    detect_imposter false source ≠ Imposter.INVALID ↔ source ∈ identity_table := by
  by_cases h1 : source = "srapath"
  · subst h1; decide
  by_cases h2 : source = "prefetch"
  · subst h2; decide
  by_cases h3 : source = "fastq-dump"
  · subst h3; decide
  by_cases h4 : source = "fasterq-dump"
  · subst h4; decide
  by_cases h5 : source = "sra-pileup"
  · subst h5; decide
  by_cases h6 : source = "sam-dump"
  · subst h6; decide
  by_cases h7 : source = "vdb-dump"
  · subst h7; decide
  simp [detect_imposter, identity_table, h1, h2, h3, h4, h5, h6, h7]

theorem construct_ok_iff (windows : Bool) (toolpath : ToolPath) :
    (∃ w, WhatImposter.construct windows toolpath = Except.ok w)
      ↔ detect_imposter windows toolpath.basename ≠ Imposter.INVALID ∧
        toolpath.version = toolpath.toolkit_version := by
  simp only [WhatImposter.construct, is_version_ok]
  by_cases hv : toolpath.version = toolpath.toolkit_version <;>
    by_cases hi : detect_imposter windows toolpath.basename = Imposter.INVALID <;>
    simp [hv, hi]

/-- C7: on the non-Windows build `detect_imposter` gives a valid identity
exactly for the seven basenames of the table, each its own, and `INVALID` for
everything else, such as `Prefetch`, `prefetch.exe` and the empty name; the
construction of `WhatImposter` succeeds exactly when the basename is in the
table and the two versions are equal, so a basename outside the table makes
it fail whatever the versions are. -/
theorem detect_imposter_exact_table :
    (∀ source, detect_imposter false source ≠ Imposter.INVALID ↔ source ∈ identity_table) ∧
    identity_table.map (detect_imposter false)
      = [Imposter.SRAPATH, Imposter.PREFETCH, Imposter.FASTQ_DUMP, Imposter.FASTERQ_DUMP,
          Imposter.SRA_PILEUP, Imposter.SAM_DUMP, Imposter.VDB_DUMP] ∧
    (identity_table.map (detect_imposter false)).Nodup ∧
    detect_imposter false "Prefetch" = Imposter.INVALID ∧
    detect_imposter false "prefetch.exe" = Imposter.INVALID ∧
    detect_imposter false " prefetch" = Imposter.INVALID ∧
    detect_imposter false "" = Imposter.INVALID ∧
    (∀ toolpath, (∃ w, WhatImposter.construct false toolpath = Except.ok w)
      ↔ toolpath.basename ∈ identity_table ∧ toolpath.version = toolpath.toolkit_version) ∧
    (∀ toolpath w, WhatImposter.construct false toolpath = Except.ok w →
      w._imposter = detect_imposter false toolpath.basename ∧ w.toolpath = toolpath) ∧
    (∀ toolpath, toolpath.basename ∉ identity_table →
      ∃ e, WhatImposter.construct false toolpath = Except.error e) := by
  refine ⟨detect_imposter_ne_invalid_iff, by decide, by decide, by decide, by decide, by decide,
    by decide, ?_, ?_, ?_⟩
  · intro toolpath
    rw [construct_ok_iff, detect_imposter_ne_invalid_iff]
  · intro toolpath w h
    simp only [WhatImposter.construct] at h
    split_ifs at h
    cases h
    exact ⟨rfl, rfl⟩
  · intro toolpath h
    cases hc : WhatImposter.construct false toolpath with
    | error e => exact ⟨e, rfl⟩
    | ok w =>
      have := (construct_ok_iff false toolpath).mp ⟨w, hc⟩
      rw [detect_imposter_ne_invalid_iff] at this
      exact absurd this.1 h

/-- C8, as stated, fails: for a basename outside the table whose version also
differs from the toolkit version the constructor throws
`InvalidVersionException`, not `InvalidToolException`. -/
theorem invalid_tool_with_wrong_version :
    detect_imposter false wrong_toolpath.basename = Imposter.INVALID ∧
    wrong_toolpath.version ≠ wrong_toolpath.toolkit_version ∧
    WhatImposter.construct false wrong_toolpath
      = Except.error ConstructionError.InvalidVersionException ∧
    WhatImposter.construct false wrong_toolpath
      ≠ Except.error ConstructionError.InvalidToolException := by
  have h2 : WhatImposter.construct false wrong_toolpath
      = Except.error ConstructionError.InvalidVersionException := by
    simp [WhatImposter.construct, is_version_ok, wrong_toolpath]
  refine ⟨by decide, by decide, h2, ?_⟩
  rw [h2]
  intro h
  cases h

/-- C8, amended: the constructor of `WhatImposter` throws
`InvalidVersionException` exactly when the tool's version is not equal to the
toolkit version, whether or not the identity is `INVALID`, and throws
`InvalidToolException` exactly when the versions are equal and the identity is
`INVALID`. -/
theorem construct_error_iff (windows : Bool) (toolpath : ToolPath) :
    (WhatImposter.construct windows toolpath
        = Except.error ConstructionError.InvalidVersionException
      ↔ toolpath.version ≠ toolpath.toolkit_version) ∧
    (WhatImposter.construct windows toolpath
        = Except.error ConstructionError.InvalidToolException
      ↔ toolpath.version = toolpath.toolkit_version ∧
        detect_imposter windows toolpath.basename = Imposter.INVALID) := by
  simp only [WhatImposter.construct, is_version_ok]
  by_cases hv : toolpath.version = toolpath.toolkit_version <;>
    by_cases hi : detect_imposter windows toolpath.basename = Imposter.INVALID <;>
    simp [hv, hi]

/-! ## Validation of the common options -/

section check_facts

variable (o : CmnOptAndAccessions) (env : CheckEnv)

theorem check_problems_eq : (o.check env).problems = (check_count o env).problems := by
  simp only [CmnOptAndAccessions.check]
  split_ifs <;> rfl

theorem check_result_eq :
    (o.check env).result = (decide ((check_count o env).problems = 0) || env.is_dry_run) := by
  simp only [CmnOptAndAccessions.check]
  split_ifs <;> simp_all

theorem check_cerr_mem (m : String) (h : m ∈ (check_count o env).cerr) :
    m ∈ (o.check env).cerr := by
  simp only [CmnOptAndAccessions.check]
  split_ifs <;> simp [h]

theorem problem_mono (c : Counted) (message : String) :
    c.problems ≤ (c.problem message).problems ∧ ∀ m ∈ c.cerr, m ∈ (c.problem message).cerr := by
  simp only [Counted.problem]
  exact ⟨Nat.le_succ _, fun m hm => List.mem_append_left _ hm⟩

theorem check_ngc_mono (c : Counted) :
    c.problems ≤ (check_ngc o env c).problems ∧ ∀ m ∈ c.cerr, m ∈ (check_ngc o env c).cerr := by
  simp only [check_ngc]
  split_ifs
  · exact problem_mono c _
  · exact ⟨le_refl _, fun _ h => h⟩
  · exact ⟨le_refl _, fun _ h => h⟩

theorem check_cart_mono (c : Counted) :
    c.problems ≤ (check_cart o env c).problems ∧
      ∀ m ∈ c.cerr, m ∈ (check_cart o env c).cerr := by
  simp only [check_cart]
  split_ifs
  · exact problem_mono c _
  · exact ⟨le_refl _, fun _ h => h⟩
  · exact ⟨le_refl _, fun _ h => h⟩

theorem check_accessions_mono (l : List String) :
    ∀ (st : Counted × Nat),
      st.1.problems ≤ (check_accessions env st l).1.problems ∧
        ∀ m ∈ st.1.cerr, m ∈ (check_accessions env st l).1.cerr := by
  induction l with
  | nil => intro st; exact ⟨le_refl _, fun _ h => h⟩
  | cons acc rest ih =>
    intro st
    simp only [check_accessions]
    split_ifs
    · exact ih st
    · split
      · exact ih st
      · exact ih st
      · have h1 := ih (st.1.problem (acc ++ " is not a run accession. For more information, see https://www.ncbi.nlm.nih.gov/sra/?term=" ++ acc ++ "\n"), st.2 + 1)
        have h2 := problem_mono st.1 (acc ++ " is not a run accession. For more information, see https://www.ncbi.nlm.nih.gov/sra/?term=" ++ acc ++ "\n")
        exact ⟨le_trans h2.1 h1.1, fun m hm => h1.2 m (h2.2 m hm)⟩

theorem check_containers_mono (st : Counted × Nat) :
    (check_containers st).problems = st.1.problems ∧
      ∀ m ∈ st.1.cerr, m ∈ (check_containers st).cerr := by
  simp only [check_containers]
  split_ifs
  · exact ⟨rfl, fun m hm => List.mem_append_left _ hm⟩
  · exact ⟨rfl, fun _ h => h⟩

/-- With both `perm_file` and `ngc_file` set, the block on `perm_file` counts
the mutual-exclusion problem and writes its line. -/
theorem check_perm_both (c : Counted) (hp : o.perm_file.isEmpty = false)
    (hn : o.ngc_file.isEmpty = false) :
    c.problems + 1 ≤ (check_perm o env c).problems ∧
      "--perm and --ngc are mutually exclusive. Please use only one.\n"
        ∈ (check_perm o env c).cerr := by
  simp only [check_perm, hp, hn, Bool.not_false, if_true]
  split_ifs <;> simp [Counted.problem]

end check_facts

/-- C9: for every option state and every answer of the outside, `check`
returns true exactly when the number of problems it counted is zero or the
dry-run flag is set; with the flag set it returns true whatever it counted,
and without it a count that is not zero makes it return false. -/
theorem check_true_iff_no_problem_or_dry_run (o : CmnOptAndAccessions) (env : CheckEnv) :
    ((o.check env).result = true ↔ (o.check env).problems = 0 ∨ env.is_dry_run = true) ∧
    (env.is_dry_run = true → (o.check env).result = true) ∧
    (env.is_dry_run = false → 0 < (o.check env).problems → (o.check env).result = false) := by
  rw [check_problems_eq, check_result_eq]
  refine ⟨by simp, fun h => by simp [h], fun h hp => ?_⟩
  have : (check_count o env).problems ≠ 0 := Nat.pos_iff_ne_zero.mp hp
  simp [h, this]

/-- C10, as stated, fails: with both `--perm` and `--ngc` given and the dry-run
flag set, `check` counts the problem and still returns true. -/
theorem perm_and_ngc_pass_in_dry_run :
    (CmnOptAndAccessions.check
      { what := demo_what, perm_file := "access.jwt", ngc_file := "prj_1234.ngc" }
      (friendly_env true)).result = true ∧
    (CmnOptAndAccessions.check
      { what := demo_what, perm_file := "access.jwt", ngc_file := "prj_1234.ngc" }
      (friendly_env true)).problems = 1 := by
  decide

/-- C10, amended: when both `perm_file` and `ngc_file` are set, `check` counts
at least one problem and writes the mutual-exclusion line, whatever the other
options are, whether or not the files exist and whatever the cloud and the
configuration answer; it then returns false unless the dry-run flag is set,
in which case it returns true. -/
theorem check_perm_and_ngc_exclusive (o : CmnOptAndAccessions) (env : CheckEnv)
    (hp : o.perm_file.isEmpty = false) (hn : o.ngc_file.isEmpty = false) :
    1 ≤ (o.check env).problems ∧
    "--perm and --ngc are mutually exclusive. Please use only one.\n" ∈ (o.check env).cerr ∧
    (o.check env).result = env.is_dry_run := by
  have h1 := check_perm_both o env (check_log_level o { problems := 0, cerr := [] }) hp hn
  have h2 := check_ngc_mono o env (check_perm o env
    (check_log_level o { problems := 0, cerr := [] }))
  have h3 := check_cart_mono o env (check_ngc o env (check_perm o env
    (check_log_level o { problems := 0, cerr := [] })))
  have h4 := check_accessions_mono env o.accessions
    (check_cart o env (check_ngc o env (check_perm o env
      (check_log_level o { problems := 0, cerr := [] }))), 0)
  have h5 := check_containers_mono (check_accessions env
    (check_cart o env (check_ngc o env (check_perm o env
      (check_log_level o { problems := 0, cerr := [] }))), 0) o.accessions)
  have hcount : 1 ≤ (check_count o env).problems := by
    simp only [check_count]
    rw [h5.1]
    simp only at h4
    omega
  have hmem : "--perm and --ngc are mutually exclusive. Please use only one.\n"
      ∈ (check_count o env).cerr := by
    simp only [check_count]
    exact h5.2 _ (h4.2 _ (h3.2 _ (h2.2 _ h1.2)))
  refine ⟨by rw [check_problems_eq]; exact hcount, check_cerr_mem o env _ hmem, ?_⟩
  rw [check_result_eq]
  have : (check_count o env).problems ≠ 0 := by omega
  simp [this]

/-- Witness of C10, amended: both files given, everything else in order and no
dry run; `check` returns false. -/
theorem check_perm_and_ngc_exclusive_witness :
    ("access.jwt" : String).isEmpty = false ∧ ("prj_1234.ngc" : String).isEmpty = false ∧
    (CmnOptAndAccessions.check
      { what := demo_what, perm_file := "access.jwt", ngc_file := "prj_1234.ngc" }
      (friendly_env false)).result = false :=
  ⟨by decide, by decide,
    (check_perm_and_ngc_exclusive
      { what := demo_what, perm_file := "access.jwt", ngc_file := "prj_1234.ngc" }
      (friendly_env false) (by decide) (by decide)).2.2⟩

/-! ## The blocks of the validation -/

section check_blocks

variable (o : CmnOptAndAccessions) (env : CheckEnv)

theorem is_one_of_loop_eq (value : String) (count : Int) (items : List String) :
    ∀ (res : Bool) (i : Int), (items.length : Int) ≤ count - i →
      is_one_of_loop value count res i items = (res || decide (value ∈ items)) := by
  induction items with
  | nil => intro res i _; simp [is_one_of_loop]
  | cons item rest ih =>
    intro res i h
    simp only [List.length_cons, Nat.cast_add, Nat.cast_one] at h
    have hi : i < count := by omega
    cases res with
    | true => simp [is_one_of_loop]
    | false =>
      have hrec := ih (value == item) (i + 1) (by omega)
      simp only [is_one_of_loop, hi, Bool.not_false, Bool.true_and, decide_True, if_true, hrec,
        Bool.false_or, List.mem_cons]
      by_cases hv : value = item
      · simp [hv]
      · simp [hv]

theorem is_one_of_tokens (value : String) :
    is_one_of value 14 log_level_tokens = decide (value ∈ log_level_tokens) := by
  rw [is_one_of, is_one_of_loop_eq value 14 log_level_tokens false 0 (by decide)]
  simp

theorem check_log_level_eq (c : Counted) :
    check_log_level o c
      = if o.log_level.isEmpty = false ∧ o.log_level ∉ log_level_tokens then
          { problems := c.problems + 1, cerr := c.cerr ++ [log_level_line o] }
        else c := by
  have h := is_one_of_tokens o.log_level
  simp only [log_level_tokens] at h
  simp only [check_log_level, h, log_level_tokens, log_level_line, Counted.problem]
  by_cases h1 : o.log_level.isEmpty = true <;>
    by_cases h2 : o.log_level ∈ ["fatal", "sys", "int", "err", "warn", "info", "debug",
      "0", "1", "2", "3", "4", "5", "6"] <;> simp [h1, h2]

theorem check_perm_eq (c : Counted) :
    check_perm o env c
      = if o.perm_file.isEmpty = false then
          { problems := c.problems
              + (if o.ngc_file.isEmpty = false then 1 else 0)
              + (if env.pathExists o.perm_file then 0 else 1)
              + (if env.haveCloudProvider then (if env.canSendCEToken then 0 else 1) else 1),
            cerr := c.cerr
              ++ (if o.ngc_file.isEmpty = false then [exclusive_line] else [])
              ++ (if env.pathExists o.perm_file then [] else [perm_not_found_line o])
              ++ (if env.haveCloudProvider then
                    (if env.canSendCEToken then [] else [no_token_line])
                  else [no_cloud_line]) }
        else c := by
  simp only [check_perm, exclusive_line, perm_not_found_line, no_cloud_line, no_token_line,
    Counted.problem]
  by_cases h1 : o.perm_file.isEmpty = true <;> by_cases h2 : o.ngc_file.isEmpty = true <;>
    by_cases h3 : env.pathExists o.perm_file = true <;>
    by_cases h4 : env.haveCloudProvider = true <;>
    by_cases h5 : env.canSendCEToken = true <;> simp [h1, h2, h3, h4, h5]

theorem check_ngc_eq (c : Counted) :
    check_ngc o env c
      = if o.ngc_file.isEmpty = false ∧ env.pathExists o.ngc_file = false then
          { problems := c.problems + 1, cerr := c.cerr ++ [ngc_not_found_line o] }
        else c := by
  simp only [check_ngc, ngc_not_found_line, Counted.problem]
  by_cases h1 : o.ngc_file.isEmpty = true <;> by_cases h2 : env.pathExists o.ngc_file = true <;>
    simp [h1, h2]

theorem check_cart_eq (c : Counted) :
    check_cart o env c
      = if o.cart_file.isEmpty = false ∧ env.pathExists o.cart_file = false then
          { problems := c.problems + 1, cerr := c.cerr ++ [cart_not_found_line o] }
        else c := by
  simp only [check_cart, cart_not_found_line, Counted.problem]
  by_cases h1 : o.cart_file.isEmpty = true <;>
    by_cases h2 : env.pathExists o.cart_file = true <;> simp [h1, h2]

theorem check_accessions_eq (l : List String) :
    ∀ (st : Counted × Nat),
      check_accessions env st l
        = ({ problems := st.1.problems + (l.filter (is_counted env)).length,
             cerr := st.1.cerr ++ (l.filter (is_counted env)).map container_line },
           st.2 + (l.filter (is_counted env)).length) := by
  induction l with
  | nil => intro st; simp [check_accessions]
  | cons acc rest ih =>
    intro st
    by_cases hp : env.pathExists acc = true
    · simp [check_accessions, hp, ih, is_counted]
    · cases ht : env.accessionType acc with
      | unknown => simp [check_accessions, hp, ht, ih, is_counted]
      | run => simp [check_accessions, hp, ht, ih, is_counted]
      | container =>
        have hc : is_counted env acc = true := by simp [is_counted, hp, ht]
        simp only [check_accessions, hp, ht, ih, Counted.problem, container_line,
          List.filter_cons, hc, if_true, List.length_cons, List.map_cons]
        simp
        omega

end check_blocks

section check_sum

variable (o : CmnOptAndAccessions) (env : CheckEnv)

theorem check_log_level_add (c : Counted) :
    check_log_level o c
      = { problems := c.problems + (check_log_level o zero_count).problems,
          cerr := c.cerr ++ (check_log_level o zero_count).cerr } := by
  rw [check_log_level_eq, check_log_level_eq]
  split_ifs <;> simp [zero_count]

theorem check_perm_add (c : Counted) :
    check_perm o env c
      = { problems := c.problems + (check_perm o env zero_count).problems,
          cerr := c.cerr ++ (check_perm o env zero_count).cerr } := by
  rw [check_perm_eq, check_perm_eq]
  split_ifs <;> simp [zero_count, Nat.add_assoc]

theorem check_ngc_add (c : Counted) :
    check_ngc o env c
      = { problems := c.problems + (check_ngc o env zero_count).problems,
          cerr := c.cerr ++ (check_ngc o env zero_count).cerr } := by
  rw [check_ngc_eq, check_ngc_eq]
  split_ifs <;> simp [zero_count]

theorem check_cart_add (c : Counted) :
    check_cart o env c
      = { problems := c.problems + (check_cart o env zero_count).problems,
          cerr := c.cerr ++ (check_cart o env zero_count).cerr } := by
  rw [check_cart_eq, check_cart_eq]
  split_ifs <;> simp [zero_count]

/-- The count and the lines of `check` when it reaches the accession loop are
the sums of what its four blocks count and write on their own. -/
theorem check_options_eq :
    check_options o env
      = { problems := (check_log_level o zero_count).problems
            + (check_perm o env zero_count).problems + (check_ngc o env zero_count).problems
            + (check_cart o env zero_count).problems,
          cerr := (check_log_level o zero_count).cerr ++ (check_perm o env zero_count).cerr
            ++ (check_ngc o env zero_count).cerr ++ (check_cart o env zero_count).cerr } := by
  unfold check_options
  rw [check_cart_add, check_ngc_add, check_perm_add]

/-- The count and the lines of the counting part of `check`. -/
theorem check_count_eq :
    check_count o env
      = { problems := (check_options o env).problems
            + (o.accessions.filter (is_counted env)).length,
          cerr := (check_options o env).cerr
            ++ (o.accessions.filter (is_counted env)).map container_line
            ++ (if 0 < (o.accessions.filter (is_counted env)).length then [containers_note]
                else []) } := by
  have h : check_count o env
      = check_containers (check_accessions env (check_options o env, 0) o.accessions) := rfl
  rw [h, check_accessions_eq]
  simp only [check_containers, containers_note, Nat.zero_add, gt_iff_lt]
  split_ifs <;> simp

/-- The lines of `check`: those of the counting part, then the dry-run line when
problems were counted and the dry-run flag is set. -/
theorem check_cerr_eq :
    (o.check env).cerr
      = (check_count o env).cerr
        ++ (if (check_count o env).problems ≠ 0 ∧ env.is_dry_run = true then [dry_run_line]
            else []) := by
  simp only [CmnOptAndAccessions.check, dry_run_line]
  split_ifs <;> simp_all

end check_sum

/-! ## What the validation counts -/

section check_log_level_facts

variable (o : CmnOptAndAccessions) (env : CheckEnv)

theorem check_log_level_problems :
    (check_log_level o zero_count).problems
      = if o.log_level.isEmpty = false ∧ o.log_level ∉ log_level_tokens then 1 else 0 := by
  rw [check_log_level_eq]
  split_ifs <;> simp [zero_count]

/-- What `check` counts is what it counts for `log_level` plus what it counts
for the same options without a `log_level`. -/
theorem check_count_without_log_level :
    (check_count o env).problems
      = (check_log_level o zero_count).problems
        + (check_count (without_log_level o) env).problems := by
  have h0 : check_log_level (without_log_level o) zero_count = zero_count := by
    have e1 : ("" : String).isEmpty = true := by decide
    simp [check_log_level, without_log_level, e1]
  have h1 : check_perm (without_log_level o) env zero_count = check_perm o env zero_count := rfl
  have h2 : check_ngc (without_log_level o) env zero_count = check_ngc o env zero_count := rfl
  have h3 : check_cart (without_log_level o) env zero_count = check_cart o env zero_count := rfl
  have h4 : (without_log_level o).accessions = o.accessions := rfl
  rw [check_count_eq, check_count_eq, check_options_eq, check_options_eq, h0, h1, h2, h3, h4]
  simp only [zero_count]
  omega

end check_log_level_facts

/-- C12: with the dry-run flag off and no problem in the rest of the options,
`check` accepts exactly an empty `log_level` and the fourteen tokens, compared
as they are written, so that `WARN`, `7` and `warning` are rejected; whatever
the rest is, a rejected `log_level` adds exactly one problem, with its line,
to what the rest counts, and an empty or accepted one adds none. -/
theorem check_log_level_accepts_tokens (o : CmnOptAndAccessions) (env : CheckEnv) :
    (env.is_dry_run = false → (check_count (without_log_level o) env).problems = 0 →
      ((o.check env).result = true
        ↔ o.log_level.isEmpty = true ∨ o.log_level ∈ log_level_tokens)) ∧
    (o.check env).problems
      = (if o.log_level.isEmpty = false ∧ o.log_level ∉ log_level_tokens then 1 else 0)
        + ((without_log_level o).check env).problems ∧
    check_log_level o zero_count
      = (if o.log_level.isEmpty = false ∧ o.log_level ∉ log_level_tokens then
          { problems := 1, cerr := [log_level_line o] }
        else zero_count) ∧
    log_level_tokens.length = 14 ∧
    "WARN" ∉ log_level_tokens ∧ "7" ∉ log_level_tokens ∧ "warning" ∉ log_level_tokens ∧
    ((log_level_options "WARN").check (friendly_env false)).result = false ∧
    ((log_level_options "7").check (friendly_env false)).result = false ∧
    ((log_level_options "warning").check (friendly_env false)).result = false ∧
    ((log_level_options "WARN").check (friendly_env false)).problems = 1 ∧
    ((log_level_options "warn").check (friendly_env false)).result = true ∧
    ((log_level_options "").check (friendly_env false)).result = true ∧
    log_level_tokens.map (fun t => ((log_level_options t).check (friendly_env false)).result)
      = List.replicate 14 true := by
  refine ⟨?_, ?_, ?_, by decide, by decide, by decide, by decide, by decide, by decide,
    by decide, by decide, by decide, by decide, by decide⟩
  · intro hdry hother
    rw [check_result_eq, check_count_without_log_level, hother, check_log_level_problems, hdry]
    by_cases h1 : o.log_level.isEmpty = true <;>
      by_cases h2 : o.log_level ∈ log_level_tokens <;> simp [h1, h2]
  · rw [check_problems_eq, check_problems_eq, check_count_without_log_level,
      check_log_level_problems]
  · rw [check_log_level_eq]
    split_ifs <;> simp [zero_count]

/-! ## Accessions in the validation -/

/-- C13: the problems `check` counts for the accessions are as many as the
tokens, counted as often as they occur, that are not existing paths and that
the classifier reports as neither unknown nor a run; each has its line, in the
order of the list, and the explanatory line follows them once when there is at
least one and is absent when there is none. A token that is an existing path is
not counted and the classifier's answer for it plays no part. -/
theorem check_counts_container_accessions (o : CmnOptAndAccessions) (env : CheckEnv) :
    (o.check env).problems
      = (check_options o env).problems + (o.accessions.filter (is_counted env)).length ∧
    (check_accessions env (zero_count, 0) o.accessions).1.problems
      = (o.accessions.filter (is_counted env)).length ∧
    (o.check env).cerr
      = (check_options o env).cerr
        ++ (o.accessions.filter (is_counted env)).map container_line
        ++ (if 0 < (o.accessions.filter (is_counted env)).length then [containers_note]
            else [])
        ++ (if (o.check env).problems ≠ 0 ∧ env.is_dry_run = true then [dry_run_line]
            else []) ∧
    (∀ accessions : List String,
      check_options { o with accessions := accessions } env = check_options o env) ∧
    (∀ acc, env.pathExists acc = true → is_counted env acc = false) ∧
    (∀ acc, is_counted env acc = true
      ↔ env.pathExists acc = false ∧ env.accessionType acc ≠ AccessionType.unknown ∧
        env.accessionType acc ≠ AccessionType.run) ∧
    (∀ classifier : String → AccessionType,
      (∀ acc, env.pathExists acc = false → classifier acc = env.accessionType acc) →
      o.check { env with accessionType := classifier } = o.check env) ∧
    (∀ acc, container_line acc ≠ containers_note) ∧
    (accession_options.check (env_of ["SRX000002"] true true ["SRP000001", "SRX000002"]
        false)).problems = 2 ∧
    (accession_options.check (env_of ["SRX000002"] true true ["SRP000001", "SRX000002"]
        false)).cerr
      = [container_line "SRP000001", container_line "SRP000001", containers_note] := by
  refine ⟨?_, ?_, ?_, fun _ => rfl, ?_, ?_, ?_, ?_, by decide, ?_⟩
  · rw [check_problems_eq, check_count_eq]
  · rw [check_accessions_eq]
    simp [zero_count]
  · rw [check_cerr_eq, check_problems_eq, check_count_eq]
  · intro acc h
    simp [is_counted, h]
  · intro acc
    simp [is_counted]
  · intro classifier h
    have hfilter : ∀ l : List String,
        l.filter (is_counted { env with accessionType := classifier })
          = l.filter (is_counted env) := by
      intro l
      apply List.filter_congr
      intro acc _
      by_cases hp : env.pathExists acc = true
      · simp [is_counted, hp]
      · have hp2 : env.pathExists acc = false := by simpa using hp
        simp [is_counted, hp2, h acc hp2]
    have hopt : check_options o { env with accessionType := classifier }
        = check_options o env := rfl
    have hcount : check_count o { env with accessionType := classifier }
        = check_count o env := by
      rw [check_count_eq, check_count_eq, hopt, hfilter]
    simp only [CmnOptAndAccessions.check, hcount]
  · intro acc h
    have h2 := congrArg String.data h
    simp only [container_line, String.data_append] at h2
    have h3 : " is not a run accession. For more information, see https://www.ncbi.nlm.nih.gov/sra/?term=".data
        <:+: containers_note.data := ⟨acc.data, acc.data ++ "\n".data, by simpa using h2⟩
    revert h3
    set_option maxRecDepth 100000 in decide
  · rw [check_cerr_eq, check_count_eq, check_options_eq, check_perm_eq, check_log_level_eq,
      check_ngc_eq, check_cart_eq]
    have e1 : ("" : String).isEmpty = true := by decide
    simp [accession_options, env_of, zero_count, is_counted, e1]

/-! ## Accumulation of problems -/

/-- C14: `check` goes through all its blocks whatever the earlier ones found:
its count is the sum of what the blocks on `log_level`, `perm_file`, `ngc_file`
and `cart_file` and the accession loop count on their own, and its lines are
theirs in that order. From any count reached before, a set `ngc_file` that does
not exist adds exactly one problem and its line, and an unset or existing one
adds nothing; the same holds for `cart_file`. With a `log_level` that is not a
token, a missing ngc file and a missing cart file, one call counts three
problems and writes the three lines. -/
theorem check_accumulates_problems (o : CmnOptAndAccessions) (env : CheckEnv) :
    (o.check env).problems
      = (check_log_level o zero_count).problems + (check_perm o env zero_count).problems
        + (check_ngc o env zero_count).problems + (check_cart o env zero_count).problems
        + (check_accessions env (zero_count, 0) o.accessions).1.problems ∧
    (check_count o env).cerr
      = (check_log_level o zero_count).cerr ++ (check_perm o env zero_count).cerr
        ++ (check_ngc o env zero_count).cerr ++ (check_cart o env zero_count).cerr
        ++ (check_containers (check_accessions env (zero_count, 0) o.accessions)).cerr ∧
    (∀ c : Counted, check_ngc o env c
      = if o.ngc_file.isEmpty = false ∧ env.pathExists o.ngc_file = false then
          { problems := c.problems + 1, cerr := c.cerr ++ [ngc_not_found_line o] }
        else c) ∧
    (∀ c : Counted, check_cart o env c
      = if o.cart_file.isEmpty = false ∧ env.pathExists o.cart_file = false then
          { problems := c.problems + 1, cerr := c.cerr ++ [cart_not_found_line o] }
        else c) ∧
    (check_ngc o env zero_count).problems
      = (if o.ngc_file.isEmpty = false ∧ env.pathExists o.ngc_file = false then 1 else 0) ∧
    (check_cart o env zero_count).problems
      = (if o.cart_file.isEmpty = false ∧ env.pathExists o.cart_file = false then 1 else 0) ∧
    (o.log_level.isEmpty = false → o.log_level ∉ log_level_tokens →
      o.ngc_file.isEmpty = false → env.pathExists o.ngc_file = false →
      o.cart_file.isEmpty = false → env.pathExists o.cart_file = false →
      3 ≤ (o.check env).problems ∧
      (o.perm_file.isEmpty = true → o.accessions.filter (is_counted env) = [] →
        (o.check env).problems = 3 ∧
        (check_count o env).cerr
          = [log_level_line o, ngc_not_found_line o, cart_not_found_line o])) ∧
    three_problem_options.check (env_of [] true true [] false)
      = { result := false, problems := 3,
          cerr := [log_level_line three_problem_options,
            ngc_not_found_line three_problem_options,
            cart_not_found_line three_problem_options] } ∧
    (three_problem_options.check (env_of ["prj_1234.ngc", "cart.krt"] true true []
      false)).problems = 1 := by
  refine ⟨?_, ?_, check_ngc_eq o env, check_cart_eq o env, ?_, ?_, ?_, by decide, by decide⟩
  rotate_left 4
  · intro h1 h2 h3 h4 h5 h6
    have hl : check_log_level o zero_count
        = { problems := 1, cerr := [log_level_line o] } := by
      rw [check_log_level_eq]
      simp [h1, h2, zero_count]
    have hn : check_ngc o env zero_count
        = { problems := 1, cerr := [ngc_not_found_line o] } := by
      rw [check_ngc_eq]
      simp [h3, h4, zero_count]
    have hc : check_cart o env zero_count
        = { problems := 1, cerr := [cart_not_found_line o] } := by
      rw [check_cart_eq]
      simp [h5, h6, zero_count]
    constructor
    · rw [check_problems_eq, check_count_eq, check_options_eq, hl, hn, hc]
      simp only
      omega
    · intro hp hacc
      have hperm : check_perm o env zero_count = zero_count := by
        rw [check_perm_eq]
        simp [hp]
      rw [check_problems_eq, check_count_eq, check_options_eq, hl, hn, hc, hperm, hacc]
      simp [zero_count]
  · rw [check_problems_eq, check_count_eq, check_options_eq, check_accessions_eq]
    simp [zero_count]
  · rw [check_count_eq, check_options_eq, check_accessions_eq]
    simp only [check_containers, containers_note, zero_count, Nat.zero_add, gt_iff_lt,
      List.nil_append]
    split_ifs <;> simp
  · rw [check_ngc_eq]
    split_ifs <;> simp [zero_count]
  · rw [check_cart_eq]
    split_ifs <;> simp [zero_count]

/-! ## Impersonator -/

section impersonator_facts

variable (calls : ImpersonatorCalls) (o : CmnOptAndAccessions)

/-- When the parsing does not come back with a value, the handlers or the end
of the process take over after steps of the parsing only. -/
theorem run_parsing_failed :
    (∀ e, parsing calls o = Called.raised e →
      ∃ trace, (∀ x ∈ trace, x ∈ parsed_steps) ∧
        Impersonator.run calls o = Impersonator.handlers trace e) ∧
    (∀ ending, parsing calls o = Called.no_return ending →
      ∃ trace, (∀ x ∈ trace, x ∈ parsed_steps) ∧
        Impersonator.run calls o
          = { ending := ImpersonatorEnding.ended ending, trace := trace }) := by
  unfold parsing Impersonator.run
  constructor
  · intro e h
    cases h1 : calls.construct with
    | raised e1 =>
      simp only [h1, Called.bind, Called.raised.injEq] at h
      exact ⟨[ImpersonatorStep.construct], by simp [parsed_steps], by simp [Called.on_value, h]⟩
    | no_return en => simp [h1, Called.bind] at h
    | value u =>
      cases h2 : calls.add o with
      | raised e1 =>
        simp only [h1, h2, Called.bind, Called.raised.injEq] at h
        exact ⟨[ImpersonatorStep.construct, ImpersonatorStep.add], by simp [parsed_steps],
          by simp [Called.on_value, h]⟩
      | no_return en => simp [h1, h2, Called.bind] at h
      | value u2 =>
        cases h3 : calls.preparse o with
        | raised e1 =>
          simp only [h1, h2, h3, Called.bind, Called.raised.injEq] at h
          exact ⟨[ImpersonatorStep.construct, ImpersonatorStep.add, ImpersonatorStep.preparse],
            by simp [parsed_steps], by simp [Called.on_value, h]⟩
        | no_return en => simp [h1, h2, h3, Called.bind] at h
        | value o1 =>
          cases h4 : calls.parse o1 with
          | raised e1 =>
            simp only [h1, h2, h3, h4, Called.bind, Called.raised.injEq] at h
            exact ⟨parsed_steps, fun _ hx => hx, by simp [Called.on_value, h4, h, parsed_steps]⟩
          | no_return en => simp [h1, h2, h3, h4, Called.bind] at h
          | value o2 => simp [h1, h2, h3, h4, Called.bind] at h
  · intro en h
    cases h1 : calls.construct with
    | no_return e1 =>
      simp only [h1, Called.bind, Called.no_return.injEq] at h
      exact ⟨[ImpersonatorStep.construct], by simp [parsed_steps], by simp [Called.on_value, h]⟩
    | raised e1 => simp [h1, Called.bind] at h
    | value u =>
      cases h2 : calls.add o with
      | no_return e1 =>
        simp only [h1, h2, Called.bind, Called.no_return.injEq] at h
        exact ⟨[ImpersonatorStep.construct, ImpersonatorStep.add], by simp [parsed_steps],
          by simp [Called.on_value, h]⟩
      | raised e1 => simp [h1, h2, Called.bind] at h
      | value u2 =>
        cases h3 : calls.preparse o with
        | no_return e1 =>
          simp only [h1, h2, h3, Called.bind, Called.no_return.injEq] at h
          exact ⟨[ImpersonatorStep.construct, ImpersonatorStep.add, ImpersonatorStep.preparse],
            by simp [parsed_steps], by simp [Called.on_value, h]⟩
        | raised e1 => simp [h1, h2, h3, Called.bind] at h
        | value o1 =>
          cases h4 : calls.parse o1 with
          | no_return e1 =>
            simp only [h1, h2, h3, h4, Called.bind, Called.no_return.injEq] at h
            exact ⟨parsed_steps, fun _ hx => hx, by simp [Called.on_value, h4, h, parsed_steps]⟩
          | raised e1 => simp [h1, h2, h3, h4, Called.bind] at h
          | value o2 => simp [h1, h2, h3, h4, Called.bind] at h

/-- When the parsing comes back with the option state `o2`, the run goes on
with `check` on that state. -/
theorem run_parsing_done (o2 : CmnOptAndAccessions) (h : parsing calls o = Called.value o2) :
    Impersonator.run calls o
      = (calls.check o2).on_value (parsed_steps ++ [ImpersonatorStep.check]) fun ok =>
          if !ok then
            { ending := ImpersonatorEnding.returned EX_USAGE,
              trace := parsed_steps ++ [ImpersonatorStep.check] }
          else if o2.version then
            calls.version.on_value
              (parsed_steps ++ [ImpersonatorStep.check, ImpersonatorStep.version]) fun _ =>
              { ending := ImpersonatorEnding.returned 0,
                trace := parsed_steps ++ [ImpersonatorStep.check, ImpersonatorStep.version] }
          else
            (calls.run o2).on_value
              (parsed_steps ++ [ImpersonatorStep.check, ImpersonatorStep.run]) fun code =>
              { ending := ImpersonatorEnding.returned code,
                trace := parsed_steps ++ [ImpersonatorStep.check, ImpersonatorStep.run] } := by
  unfold parsing at h
  unfold Impersonator.run
  cases h1 : calls.construct with
  | raised e1 => simp [h1, Called.bind] at h
  | no_return en => simp [h1, Called.bind] at h
  | value u =>
    cases h2 : calls.add o with
    | raised e1 => simp [h1, h2, Called.bind] at h
    | no_return en => simp [h1, h2, Called.bind] at h
    | value u2 =>
      cases h3 : calls.preparse o with
      | raised e1 => simp [h1, h2, h3, Called.bind] at h
      | no_return en => simp [h1, h2, h3, Called.bind] at h
      | value o1 =>
        cases h4 : calls.parse o1 with
        | raised e1 => simp [h1, h2, h3, h4, Called.bind] at h
        | no_return en => simp [h1, h2, h3, h4, Called.bind] at h
        | value o3 =>
          simp only [h1, h2, h3, h4, Called.bind, Called.value.injEq] at h
          subst h
          simp [Called.on_value, h4, parsed_steps]

theorem handlers_ncbi (trace : List ImpersonatorStep) (what : String) :
    Impersonator.handlers trace (Raised.parser what)
      = { ending := ImpersonatorEnding.returned EX_USAGE,
          trace := trace ++ [ImpersonatorStep.cerr (what ++ "\n")] } := rfl

theorem handlers_rethrow (trace : List ImpersonatorStep) (e : Raised)
    (h : e.is_ncbi = false) :
    Impersonator.handlers trace e
      = { ending := ImpersonatorEnding.propagated e e.copied, trace := trace } := by
  cases e with
  | parser what => simp [Raised.is_ncbi] at h
  | standard what => rfl
  | other => rfl

end impersonator_facts

/-- C15: `Impersonator::run` goes through parsing, `check`, the version flag
and the tool's `run` in that order. When the parsing raises an
`ncbi::Exception` it returns `EX_USAGE` and neither `check` nor `version` nor
`run` is called; when `check` returns false it returns `EX_USAGE` without
calling `run`, whatever the version flag is; when `check` returns true and the
version flag is set it returns 0 without calling `run`; otherwise it returns
the very value `run` returns. An exception that is not an `ncbi::Exception`,
raised by the parsing, `check`, `version` or `run`, leaves the function and no
code is returned. -/
theorem impersonator_run_sequence (calls : ImpersonatorCalls) (o : CmnOptAndAccessions) :
    (∀ what, parsing calls o = Called.raised (Raised.parser what) →
      (Impersonator.run calls o).ending = ImpersonatorEnding.returned 64 ∧
      ImpersonatorStep.check ∉ (Impersonator.run calls o).trace ∧
      ImpersonatorStep.version ∉ (Impersonator.run calls o).trace ∧
      ImpersonatorStep.run ∉ (Impersonator.run calls o).trace) ∧
    (∀ o2, parsing calls o = Called.value o2 → calls.check o2 = Called.value false →
      Impersonator.run calls o
        = { ending := ImpersonatorEnding.returned 64,
            trace := parsed_steps ++ [ImpersonatorStep.check] }) ∧
    (∀ o2, parsing calls o = Called.value o2 → calls.check o2 = Called.value true →
      o2.version = true → calls.version = Called.value () →
      Impersonator.run calls o
        = { ending := ImpersonatorEnding.returned 0,
            trace := parsed_steps ++ [ImpersonatorStep.check, ImpersonatorStep.version] }) ∧
    (∀ o2 code, parsing calls o = Called.value o2 → calls.check o2 = Called.value true →
      o2.version = false → calls.run o2 = Called.value code →
      Impersonator.run calls o
        = { ending := ImpersonatorEnding.returned code,
            trace := parsed_steps ++ [ImpersonatorStep.check, ImpersonatorStep.run] }) ∧
    (∀ e, e.is_ncbi = false →
      (parsing calls o = Called.raised e →
        (Impersonator.run calls o).ending = ImpersonatorEnding.propagated e e.copied) ∧
      (∀ o2, parsing calls o = Called.value o2 → calls.check o2 = Called.raised e →
        (Impersonator.run calls o).ending = ImpersonatorEnding.propagated e e.copied) ∧
      (∀ o2, parsing calls o = Called.value o2 → calls.check o2 = Called.value true →
        o2.version = true → calls.version = Called.raised e →
        (Impersonator.run calls o).ending = ImpersonatorEnding.propagated e e.copied) ∧
      (∀ o2, parsing calls o = Called.value o2 → calls.check o2 = Called.value true →
        o2.version = false → calls.run o2 = Called.raised e →
        (Impersonator.run calls o).ending = ImpersonatorEnding.propagated e e.copied)) ∧
    Impersonator.run
        (calls_of (Called.raised (Raised.parser "unknown option")) (friendly_env false)
          (Called.value 0)) version_options
      = { ending := ImpersonatorEnding.returned 64,
          trace := parsed_steps ++ [ImpersonatorStep.cerr "unknown option\n"] } ∧
    Impersonator.run
        (calls_of (Called.value bad_version_options) (friendly_env false) (Called.value 0))
        version_options
      = { ending := ImpersonatorEnding.returned 64,
          trace := parsed_steps ++ [ImpersonatorStep.check] } ∧
    Impersonator.run
        (calls_of (Called.value version_options) (friendly_env false) (Called.value 75))
        version_options
      = { ending := ImpersonatorEnding.returned 0,
          trace := parsed_steps ++ [ImpersonatorStep.check, ImpersonatorStep.version] } ∧
    Impersonator.run
        (calls_of (Called.value perm_options) (friendly_env false) (Called.value 75))
        version_options
      = { ending := ImpersonatorEnding.returned 75,
          trace := parsed_steps ++ [ImpersonatorStep.check, ImpersonatorStep.run] } ∧
    Impersonator.run
        (calls_of (Called.value perm_options) (friendly_env false)
          (Called.raised (Raised.standard "Failed to exec fastq-dump"))) version_options
      = { ending := ImpersonatorEnding.propagated
            (Raised.standard "Failed to exec fastq-dump") true,
          trace := parsed_steps ++ [ImpersonatorStep.check, ImpersonatorStep.run] } := by
  refine ⟨?_, ?_, ?_, ?_, ?_, by decide, by decide, by decide, by decide, by decide⟩
  · intro what h
    rcases (run_parsing_failed calls o).1 _ h with ⟨trace, htr, hrun⟩
    rw [hrun, handlers_ncbi]
    refine ⟨rfl, ?_, ?_, ?_⟩ <;>
    · intro hmem
      simp only [List.mem_append, List.mem_singleton] at hmem
      rcases hmem with hmem | hmem
      · have := htr _ hmem
        simp [parsed_steps] at this
      · cases hmem
  · intro o2 h hc
    rw [run_parsing_done calls o o2 h, hc]
    rfl
  · intro o2 h hc hv hver
    rw [run_parsing_done calls o o2 h, hc]
    simp [Called.on_value, hv, hver]
  · intro o2 code h hc hv hrun
    rw [run_parsing_done calls o o2 h, hc]
    simp [Called.on_value, hv, hrun]
  · intro e he
    refine ⟨?_, ?_, ?_, ?_⟩
    · intro h
      rcases (run_parsing_failed calls o).1 _ h with ⟨trace, _, hrun⟩
      rw [hrun, handlers_rethrow trace e he]
    · intro o2 h hc
      rw [run_parsing_done calls o o2 h, hc]
      simp [Called.on_value, handlers_rethrow _ e he]
    · intro o2 h hc hv hver
      rw [run_parsing_done calls o o2 h, hc]
      simp [Called.on_value, hv, hver, handlers_rethrow _ e he]
    · intro o2 h hc hv hrun
      rw [run_parsing_done calls o o2 h, hc]
      simp [Called.on_value, hv, hrun, handlers_rethrow _ e he]

/-! ## ArgvBuilder -/

section builder_facts

theorem add_option_list_options (o : String) (v : List String) :
    ∀ (b : ArgvBuilder),
      (b.add_option_list o v).options = b.options ++ v.flatMap (fun value => [o, value]) := by
  induction v with
  | nil => intro b; simp [ArgvBuilder.add_option_list]
  | cons value rest ih =>
    intro b
    simp [ArgvBuilder.add_option_list, ih, List.flatMap_cons]

theorem add_repeated_options (o : String) (n : Nat) :
    ∀ (b : ArgvBuilder), (add_repeated b o n).options = b.options ++ List.replicate n o := by
  induction n with
  | zero => intro b; simp [add_repeated]
  | succ n ih =>
    intro b
    simp [add_repeated, ih, ArgvBuilder.add_option, List.replicate_succ]

/-- The copy `strncpy` makes is the source or the part of the source before
its first NUL character. -/
theorem takeWhile_not_nul (l : List Char) :
    l.takeWhile (fun c => c != Char.ofNat 0) = l ∨
      ∃ rest, l = l.takeWhile (fun c => c != Char.ofNat 0) ++ Char.ofNat 0 :: rest := by
  induction l with
  | nil => left; rfl
  | cons c t ih =>
    by_cases hc : c = Char.ofNat 0
    · right
      exact ⟨t, by simp [List.takeWhile, hc]⟩
    · have hp : (c != Char.ofNat 0) = true := by simpa using hc
      rcases ih with h | ⟨rest, h⟩
      · left
        simp only [List.takeWhile_cons, hp, if_true, h]
      · right
        refine ⟨rest, ?_⟩
        simp only [List.takeWhile_cons, hp, if_true, List.cons_append]
        rw [← h]

theorem strncpy_string_eq_self_iff (src : String) :
    strncpy_string src = src ↔ nul_free src = true := by
  rw [String.ext_iff]
  simp only [strncpy_string, nul_free, List.takeWhile_eq_self_iff, List.all_eq_true]

theorem strncpy_string_nul_free (src : String) : nul_free (strncpy_string src) = true := by
  simp only [strncpy_string, nul_free, List.all_eq_true]
  intro c hc
  have hp := List.mem_takeWhile_imp hc
  exact hp

theorem strncpy_string_cut (src : String) :
    strncpy_string src = src ∨
      ∃ rest, src.data = (strncpy_string src).data ++ Char.ofNat 0 :: rest := by
  rcases takeWhile_not_nul src.data with h | ⟨rest, h⟩
  · left
    rw [String.ext_iff]
    exact h
  · right
    exact ⟨rest, h⟩

theorem add_string_nul_free (src : String) (h : nul_free src = true) :
    ArgvBuilder.add_string src = some src := by
  simp only [ArgvBuilder.add_string, (strncpy_string_eq_self_iff src).mpr h]

theorem map_add_string_nul_free (l : List String) (h : ∀ t ∈ l, nul_free t = true) :
    l.map ArgvBuilder.add_string = l.map some :=
  List.map_congr_left (fun t ht => add_string_nul_free t (h t ht))

/-- The loop that stores strings fills the cells from `argc` on, one per
string, and touches no other cell. -/
theorem store_strings_eq (values : List String) :
    ∀ (pre : List Cell) (m : Nat), values.length ≤ m →
      store_strings (pre.length, pre ++ List.replicate m Cell.indeterminate) values
        = (pre.length + values.length,
            pre ++ values.map (fun value => Cell.pointer (ArgvBuilder.add_string value))
              ++ List.replicate (m - values.length) Cell.indeterminate) := by
  induction values with
  | nil => intro pre m _; simp [store_strings]
  | cons value rest ih =>
    intro pre m h
    simp only [List.length_cons] at h
    obtain ⟨k, rfl⟩ : ∃ k, m = k + 1 := ⟨m - 1, by omega⟩
    have hstep : store_string (pre.length, pre ++ List.replicate (k + 1) Cell.indeterminate)
        value
        = ((pre ++ [Cell.pointer (ArgvBuilder.add_string value)]).length,
            (pre ++ [Cell.pointer (ArgvBuilder.add_string value)])
              ++ List.replicate k Cell.indeterminate) := by
      simp [store_string, List.replicate_succ]
    rw [store_strings, hstep, ih (pre ++ [Cell.pointer (ArgvBuilder.add_string value)]) k
      (by omega)]
    simp [Nat.add_assoc, Nat.add_comm 1]

end builder_facts

/-- C18: `add_option_list(f, v)` appends to the options, after what was there
and in this order, the flag and the value for every value of the list, twice as
many elements as there are values, and nothing for an empty list;
`add_option(f)` appends the flag alone and the two-argument `add_option` the
flag followed by the text of the value. -/
theorem add_option_list_interleaves (b : ArgvBuilder) (f : String) (v : List String)
    (x : String) :
    (b.add_option_list f v).options = b.options ++ v.flatMap (fun value => [f, value]) ∧
    (b.add_option_list f v).options.length = b.options.length + 2 * v.length ∧
    (b.add_option_list f v).options.take b.options.length = b.options ∧
    (∀ j, j < v.length →
      (b.add_option_list f v).options[b.options.length + 2 * j]? = some f ∧
      (b.add_option_list f v).options[b.options.length + 2 * j + 1]? = v[j]?) ∧
    b.add_option_list f [] = b ∧
    (b.add_option f).options = b.options ++ [f] ∧
    (b.add_option_value f x).options = b.options ++ [f, x] ∧
    (ArgvBuilder.add_option_list { options := ["fastq-dump-orig"] } "-+"
        ["KFG", "VFS-5"]).options
      = ["fastq-dump-orig", "-+", "KFG", "-+", "VFS-5"] := by
  have hflat : ∀ (l : List String), (l.flatMap (fun value => [f, value])).length
      = 2 * l.length := by
    intro l
    induction l with
    | nil => rfl
    | cons a rest ih => simp [List.flatMap_cons, ih]; omega
  have hget : ∀ (l : List String) (j : Nat), j < l.length →
      (l.flatMap (fun value => [f, value]))[2 * j]? = some f ∧
      (l.flatMap (fun value => [f, value]))[2 * j + 1]? = l[j]? := by
    intro l
    induction l with
    | nil => intro j hj; simp at hj
    | cons a rest ih =>
      intro j hj
      cases j with
      | zero => simp [List.flatMap_cons]
      | succ j =>
        have := ih j (by simpa using hj)
        rw [show 2 * (j + 1) = 2 * j + 1 + 1 by omega,
          show 2 * j + 1 + 1 + 1 = (2 * j + 1) + 1 + 1 by omega]
        simpa [List.flatMap_cons] using this
  have h := add_option_list_options f v b
  refine ⟨h, ?_, ?_, ?_, rfl, rfl, ?_, by decide⟩
  · rw [h, List.length_append, hflat]
  · rw [h, List.take_left]
  · intro j hj
    rw [h, Nat.add_assoc, List.getElem?_append_right (Nat.le_add_right _ _),
      List.getElem?_append_right (Nat.le_add_right _ _), Nat.add_sub_cancel_left,
      Nat.add_sub_cancel_left]
    exact hget v j hj
  · simp [ArgvBuilder.add_option_value]

/-- The cells `generate_argv(argc, argv0)` leaves. -/
theorem generate_argv0_cells_eq (b : ArgvBuilder) (argv0 : String) :
    b.generate_argv0_cells argv0
    = { builder := b, argc := b.options.length + 1,
        cells := [Cell.pointer (ArgvBuilder.add_string argv0)]
          ++ b.options.map (fun value => Cell.pointer (ArgvBuilder.add_string value))
          ++ [Cell.pointer none] } := by
  have hfirst : store_string (0, List.replicate (b.options.length + 2) Cell.indeterminate)
      argv0
      = (([Cell.pointer (ArgvBuilder.add_string argv0)] : List Cell).length,
          [Cell.pointer (ArgvBuilder.add_string argv0)]
            ++ List.replicate (b.options.length + 1) Cell.indeterminate) := by
    simp [store_string, List.replicate_succ]
  have hloop := store_strings_eq b.options [Cell.pointer (ArgvBuilder.add_string argv0)]
    (b.options.length + 1) (Nat.le_succ _)
  simp only [ArgvBuilder.generate_argv0_cells, hfirst, hloop]
  have hlen : ([Cell.pointer (ArgvBuilder.add_string argv0)]
      ++ b.options.map (fun value => Cell.pointer (ArgvBuilder.add_string value))).length
      = ([Cell.pointer (ArgvBuilder.add_string argv0)] : List Cell).length
        + b.options.length := by
    simp [Nat.add_comm]
  rw [show b.options.length + 1 - b.options.length = 1 by omega, ← hlen]
  simp [List.replicate_succ]

/-- The cells `generate_argv(args)` leaves. -/
theorem generate_argv_cells_eq (b : ArgvBuilder) (args : List String) :
    b.generate_argv_cells args
    = { builder := b, argc := b.options.length + args.length,
        cells := b.options.map (fun value => Cell.pointer (ArgvBuilder.add_string value))
          ++ args.map (fun value => Cell.pointer (ArgvBuilder.add_string value))
          ++ [Cell.pointer none] } := by
  have hloop1 := store_strings_eq b.options [] (b.options.length + args.length + 1)
    (by omega)
  simp only [List.nil_append, List.length_nil, Nat.zero_add] at hloop1
  have hlen : (b.options.map (fun value => Cell.pointer (ArgvBuilder.add_string value))).length
      = b.options.length := by simp
  have hloop2 := store_strings_eq args
    (b.options.map (fun value => Cell.pointer (ArgvBuilder.add_string value)))
    (args.length + 1) (by omega)
  rw [hlen] at hloop2
  simp only [ArgvBuilder.generate_argv_cells, hloop1]
  rw [show b.options.length + args.length + 1 - b.options.length = args.length + 1 by omega,
    hloop2]
  have hlen2 : (b.options.map (fun value => Cell.pointer (ArgvBuilder.add_string value))
      ++ args.map (fun value => Cell.pointer (ArgvBuilder.add_string value))).length
      = b.options.length + args.length := by simp
  rw [show args.length + 1 - args.length = 1 by omega, ← hlen2]
  simp [List.replicate_succ]

/-- C17, as stated, fails: `add_string` copies with `strncpy`, which stops at
the first NUL character of the source, so for the string `ab`, NUL, `cd` both
overloads of `generate_argv` leave a cell holding `ab`, which is not equal to
its source string. -/
theorem generate_argv_cuts_at_nul :
    (ArgvBuilder.generate_argv_cells { options := ["ab\x00cd"] } []).cells
      = [Cell.pointer (some "ab"), Cell.pointer none] ∧
    (ArgvBuilder.generate_argv_cells {} ["ab\x00cd"]).cells
      = [Cell.pointer (some "ab"), Cell.pointer none] ∧
    (ArgvBuilder.generate_argv0_cells {} "ab\x00cd").cells
      = [Cell.pointer (some "ab"), Cell.pointer none] ∧
    "ab" ≠ "ab\x00cd" ∧
    ("ab\x00cd" : String).length = 5 := by
  decide

/-- C17, amended: every allocation succeeding, `generate_argv(argc, argv0)` on
a builder with `n` options fills `n + 2` cells with copies of `argv0` and of the
options in their order, each copy being its source up to the first NUL
character of the source, and with the null pointer at index `n + 1`, and sets
`argc` to `n + 1`; `generate_argv(args)` with `m` arguments fills `n + m + 1`
cells with such copies of the options and then of the arguments, without
`argv0`, and with the null pointer at index `n + m`. No cell before the last is
null or left as allocated, and the builder is what it was. A copy has no NUL
character; it is equal to its source exactly when the source has no NUL
character, and otherwise it is what stands before the first NUL character of
the source. When no string has a NUL character the cells hold the strings
themselves. -/
theorem generate_argv_cells_layout (b : ArgvBuilder) (argv0 : String) (args : List String) :
    (b.generate_argv0_cells argv0).cells
      = [Cell.pointer (some (strncpy_string argv0))]
        ++ b.options.map (fun value => Cell.pointer (some (strncpy_string value)))
        ++ [Cell.pointer none] ∧
    (b.generate_argv0_cells argv0).argc = b.options.length + 1 ∧
    (b.generate_argv0_cells argv0).cells.length = b.options.length + 2 ∧
    (b.generate_argv0_cells argv0).cells[b.options.length + 1]? = some (Cell.pointer none) ∧
    (∀ j, j < b.options.length + 1 →
      ∃ value, (b.generate_argv0_cells argv0).cells[j]? = some (Cell.pointer (some value))) ∧
    (b.generate_argv0_cells argv0).builder = b ∧
    (b.generate_argv0_cells argv0).cells = (b.generate_argv0 argv0).2.map Cell.pointer ∧
    ((b.generate_argv0_cells argv0).argc : Int) = (b.generate_argv0 argv0).1 ∧
    (b.generate_argv_cells args).cells
      = b.options.map (fun value => Cell.pointer (some (strncpy_string value)))
        ++ args.map (fun value => Cell.pointer (some (strncpy_string value)))
        ++ [Cell.pointer none] ∧
    (b.generate_argv_cells args).cells.length = b.options.length + args.length + 1 ∧
    (b.generate_argv_cells args).cells[b.options.length + args.length]?
      = some (Cell.pointer none) ∧
    (∀ j, j < b.options.length + args.length →
      ∃ value, (b.generate_argv_cells args).cells[j]? = some (Cell.pointer (some value))) ∧
    (b.generate_argv_cells args).builder = b ∧
    (b.generate_argv_cells args).cells = (b.generate_argv args).map Cell.pointer ∧
    (∀ src : String, nul_free (strncpy_string src) = true ∧
      (strncpy_string src = src ↔ nul_free src = true) ∧
      (strncpy_string src = src ∨
        ∃ rest, src.data = (strncpy_string src).data ++ Char.ofNat 0 :: rest)) ∧
    ((∀ t ∈ argv0 :: b.options, nul_free t = true) →
      (b.generate_argv0_cells argv0).cells
        = [Cell.pointer (some argv0)]
          ++ b.options.map (fun value => Cell.pointer (some value))
          ++ [Cell.pointer none]) ∧
    ((∀ t ∈ b.options ++ args, nul_free t = true) →
      (b.generate_argv_cells args).cells
        = b.options.map (fun value => Cell.pointer (some value))
          ++ args.map (fun value => Cell.pointer (some value)) ++ [Cell.pointer none]) := by
  have h0 := generate_argv0_cells_eq b argv0
  have h1 := generate_argv_cells_eq b args
  have hget : ∀ (l : List String) (pre : List Cell) (j : Nat),
      (∀ i, i < pre.length → ∃ value, pre[i]? = some (Cell.pointer (some value))) →
      j < pre.length + l.length →
      ∃ value, (pre ++ l.map (fun value => Cell.pointer (ArgvBuilder.add_string value))
          ++ [Cell.pointer none])[j]?
        = some (Cell.pointer (some value)) := by
    intro l pre j hpre hj
    by_cases hjp : j < pre.length
    · rcases hpre j hjp with ⟨value, hv⟩
      exact ⟨value, by rw [List.append_assoc, List.getElem?_append_left hjp]; exact hv⟩
    · have hjl : j - pre.length < l.length := by omega
      refine ⟨strncpy_string l[j - pre.length], ?_⟩
      rw [List.append_assoc, List.getElem?_append_right (by omega),
        List.getElem?_append_left (by simpa using hjl)]
      simp [hjl, ArgvBuilder.add_string]
  have hcell : ∀ (l : List String), (∀ t ∈ l, nul_free t = true) →
      l.map (fun value => Cell.pointer (ArgvBuilder.add_string value))
        = l.map (fun value => Cell.pointer (some value)) := by
    intro l hl
    apply List.map_congr_left
    intro t ht
    rw [add_string_nul_free t (hl t ht)]
  rw [h0, h1]
  refine ⟨rfl, rfl, by simp, ?_, ?_, rfl, ?_, ?_, rfl, by simp; omega, ?_, ?_, rfl, ?_,
    fun src => ⟨strncpy_string_nul_free src, strncpy_string_eq_self_iff src,
      strncpy_string_cut src⟩, ?_, ?_⟩
  · simp only
    rw [List.getElem?_append_right (by simp)]
    simp
  · intro j hj
    exact hget b.options [Cell.pointer (ArgvBuilder.add_string argv0)] j
      (fun i hi => ⟨strncpy_string argv0, by
        have : i = 0 := by simpa using hi
        subst this
        rfl⟩) (by simpa [Nat.add_comm] using hj)
  · simp [ArgvBuilder.generate_argv0, Function.comp_def]
  · simp [ArgvBuilder.generate_argv0, Nat.add_comm]
  · simp only
    rw [List.getElem?_append_right (by simp)]
    simp
  · intro j hj
    have hpre : ∀ i,
        i < (b.options.map (fun value => Cell.pointer (ArgvBuilder.add_string value))).length →
        ∃ value, (b.options.map (fun value => Cell.pointer (ArgvBuilder.add_string value)))[i]?
          = some (Cell.pointer (some value)) := by
      intro i hi
      have hi2 : i < b.options.length := by simpa using hi
      exact ⟨strncpy_string b.options[i], by simp [hi2, ArgvBuilder.add_string]⟩
    exact hget args (b.options.map (fun value => Cell.pointer (ArgvBuilder.add_string value)))
      j hpre (by simpa using hj)
  · simp [ArgvBuilder.generate_argv, Function.comp_def]
  · intro h
    simp only
    rw [add_string_nul_free argv0 (h argv0 (List.mem_cons_self _ _)),
      hcell b.options (fun t ht => h t (List.mem_cons_of_mem _ ht))]
  · intro h
    simp only
    rw [hcell b.options (fun t ht => h t (List.mem_append_left _ ht)),
      hcell args (fun t ht => h t (List.mem_append_right _ ht))]

/-! ## The argument vector of one accession -/

section gateway_facts

variable {σ : Type} (os : OS σ)

theorem exec_wait_no_gateway (s : σ) (pos : Nat) (toolpath toolname : String) (argv : Argv)
    (src : data_source) :
    ∀ e ∈ (exec_wait os s pos toolpath toolname argv src).2.1,
      is_preload e = false ∧ is_set_ambient e = false := by
  simp only [exec_wait]
  rcases os.run_child_and_wait s toolpath toolname argv src.get_environment with ⟨r, s1⟩
  cases r with
  | exited c =>
    by_cases h0 : c = 0 <;> by_cases h1 : c = EX_TEMPFAIL <;>
      simp [h0, h1, is_preload, is_set_ambient, EX_TEMPFAIL_ne_zero]
  | signaled n name => simp [is_preload, is_set_ambient]
  | other => simp [is_preload, is_set_ambient]

theorem try_sources_no_gateway (pos : Nat) (toolpath toolname acc : String) (argv : Argv)
    (srcs : List data_source) :
    ∀ (s : σ), ∀ e ∈ (try_sources os pos toolpath toolname acc argv s srcs).2.1,
      is_preload e = false ∧ is_set_ambient e = false := by
  induction srcs with
  | nil => intro s e he; simp [try_sources] at he
  | cons src rest ih =>
    intro s e he
    have hw := exec_wait_no_gateway os s pos toolpath toolname argv src
    rcases hx : exec_wait os s pos toolpath toolname argv src with ⟨v, ev, s1⟩
    rw [hx] at hw
    simp only at hw
    cases v with
    | error e1 =>
      simp only [try_sources, hx] at he
      exact hw e he
    | ok b =>
      cases b with
      | true =>
        simp only [try_sources, hx, List.mem_append, List.mem_singleton] at he
        rcases he with he | he
        · exact hw e he
        · subst he; exact ⟨rfl, rfl⟩
      | false =>
        simp only [try_sources, hx, List.mem_append, List.mem_singleton] at he
        rcases he with (he | he) | he
        · exact hw e he
        · subst he; exact ⟨rfl, rfl⟩
        · exact ih s1 e he

theorem tried_report_no_gateway (acc : String) (sources : List data_source) :
    ∀ e ∈ tried_report acc sources, is_preload e = false ∧ is_set_ambient e = false := by
  intro e he
  simp only [tried_report, List.mem_append, List.mem_singleton, List.mem_map] at he
  rcases he with (he | ⟨x, _, he⟩) | he <;> subst he <;> exact ⟨rfl, rfl⟩

/-- The accession loop neither calls the gateway nor assigns to the ambient
pointers. -/
theorem run_loop_no_gateway (populate : Populate) (all_sources : SourceSet)
    (toolname toolpath theirpath : String) (accessions : List String) (l : List String) :
    ∀ (i : Int) (pos : Nat) (s : σ),
      ∀ e ∈ (run_loop os populate all_sources toolname toolpath theirpath accessions i pos s
        l).trace, is_preload e = false ∧ is_set_ambient e = false := by
  induction l with
  | nil => intro i pos s e he; simp [run_loop] at he
  | cons acc rest ih =>
    intro i pos s e he
    by_cases hs : all_sources acc = []
    · rw [run_loop_skip os populate all_sources toolname toolpath theirpath accessions i pos s
        acc rest hs] at he
      exact ih _ _ _ e he
    · have hts := try_sources_no_gateway os pos toolpath toolname acc
        (argv_for populate theirpath accessions i acc) (all_sources acc) s
      rcases run_loop_cons os populate all_sources toolname toolpath theirpath accessions i pos s
        acc rest hs with ⟨e1, _, _, ht⟩ | ⟨_, _, ht⟩ | ⟨_, _, ht⟩
      · rw [ht] at he
        simp only [List.mem_append, List.mem_cons, List.mem_singleton, List.not_mem_nil,
          or_false] at he
        rcases he with (he | he) | he
        · subst he; exact ⟨rfl, rfl⟩
        · subst he; exact ⟨rfl, rfl⟩
        · exact hts e he
      · rw [ht] at he
        simp only [List.mem_append, List.mem_cons, List.mem_singleton, List.not_mem_nil,
          or_false] at he
        rcases he with (((he | he) | he) | he) | he
        · subst he; exact ⟨rfl, rfl⟩
        · subst he; exact ⟨rfl, rfl⟩
        · exact hts e he
        · subst he; exact ⟨rfl, rfl⟩
        · exact ih _ _ _ e he
      · rw [ht] at he
        simp only [List.mem_append, List.mem_cons, List.mem_singleton, List.not_mem_nil,
          or_false] at he
        rcases he with (((he | he) | he) | he) | he
        · subst he; exact ⟨rfl, rfl⟩
        · subst he; exact ⟨rfl, rfl⟩
        · exact hts e he
        · subst he; exact ⟨rfl, rfl⟩
        · exact tried_report_no_gateway acc (all_sources acc) e he

end gateway_facts

theorem globals_after_append (a : List Event) :
    ∀ (g : Globals) (b : List Event),
      globals_after g (a ++ b) = globals_after (globals_after g a) b := by
  induction a with
  | nil => intro g b; rfl
  | cons e rest ih => intro g b; cases e <;> simp [globals_after, ih]

theorem globals_after_unchanged (l : List Event) :
    ∀ (g : Globals), (∀ e ∈ l, is_set_ambient e = false) → globals_after g l = g := by
  induction l with
  | nil => intro g _; rfl
  | cons e rest ih =>
    intro g h
    have he := h e (List.mem_cons_self _ _)
    have hrest := ih g (fun x hx => h x (List.mem_cons_of_mem _ hx))
    cases e with
    | set_ambient g1 => simp [is_set_ambient] at he
    | _ => simpa [globals_after] using hrest

theorem filter_eq_nil_of_forall (p : Event → Bool) (l : List Event)
    (h : ∀ e ∈ l, p e = false) : l.filter p = [] := by
  rw [List.filter_eq_nil_iff]
  intro e he
  simp [h e he]

/-- C20: on a non-empty accession list `ToolExec::run` starts with the ambient
pointers set from `location`, `perm_file` and `ngc_file`, each to the option
value when it is not empty and to `nullptr` when it is, then calls the gateway
for the whole list in input order, then resets the three pointers; the
accession loop that follows neither calls the gateway again nor assigns to the
pointers. So the gateway is called exactly once, before every child, with the
pointers holding the option values, and at every call of `run_child_and_wait`
and at the end of the run the three pointers are `nullptr`. -/
theorem gateway_called_once_between_ambient_settings {σ : Type} (os : OS σ)
    (populate : Populate) (s : σ)
    (toolname toolpath theirpath location perm_file ngc_file : String)
    (accessions : List String) (hne : accessions ≠ []) :
    (ToolExec.run os populate s toolname toolpath theirpath location perm_file ngc_file
        accessions).trace
      = gateway_events location perm_file ngc_file accessions
        ++ (run_loop os populate
            (os.preload s accessions (ambient location perm_file ngc_file)).1
            toolname toolpath theirpath accessions 0 0
            (os.preload s accessions (ambient location perm_file ngc_file)).2 accessions).trace ∧
    (∀ e ∈ (run_loop os populate
        (os.preload s accessions (ambient location perm_file ngc_file)).1
        toolname toolpath theirpath accessions 0 0
        (os.preload s accessions (ambient location perm_file ngc_file)).2 accessions).trace,
      is_preload e = false ∧ is_set_ambient e = false) ∧
    (ToolExec.run os populate s toolname toolpath theirpath location perm_file ngc_file
        accessions).trace.filter is_preload
      = [Event.preload accessions (ambient location perm_file ngc_file)] ∧
    (ambient location perm_file ngc_file).location
      = (if location.isEmpty then none else some location) ∧
    (ambient location perm_file ngc_file).perm
      = (if perm_file.isEmpty then none else some perm_file) ∧
    (ambient location perm_file ngc_file).ngc
      = (if ngc_file.isEmpty then none else some ngc_file) ∧
    (∀ g0, globals_after g0 ((ToolExec.run os populate s toolname toolpath theirpath location
        perm_file ngc_file accessions).trace.take 1) = ambient location perm_file ngc_file) ∧
    (ToolExec.run os populate s toolname toolpath theirpath location perm_file ngc_file
        accessions).trace[1]?
      = some (Event.preload accessions (ambient location perm_file ngc_file)) ∧
    (∀ g0, globals_after g0 ((ToolExec.run os populate s toolname toolpath theirpath location
        perm_file ngc_file accessions).trace.take 3) = no_ambient) ∧
    (∀ g0 pre c post,
      (ToolExec.run os populate s toolname toolpath theirpath location perm_file ngc_file
        accessions).trace = pre ++ Event.run_child_and_wait c :: post →
      globals_after g0 pre = no_ambient ∧
      Event.preload accessions (ambient location perm_file ngc_file) ∈ pre) ∧
    (∀ g0, globals_after g0 (ToolExec.run os populate s toolname toolpath theirpath location
        perm_file ngc_file accessions).trace = no_ambient) := by
  have hloop := run_loop_no_gateway os populate
    (os.preload s accessions (ambient location perm_file ngc_file)).1 toolname toolpath theirpath
    accessions accessions 0 0 (os.preload s accessions (ambient location perm_file ngc_file)).2
  have hamb : ∀ l : List Event, l ⊆ (run_loop os populate
      (os.preload s accessions (ambient location perm_file ngc_file)).1
      toolname toolpath theirpath accessions 0 0
      (os.preload s accessions (ambient location perm_file ngc_file)).2 accessions).trace →
      ∀ g, globals_after g l = g :=
    fun l hl g => globals_after_unchanged l g (fun e he => (hloop e (hl he)).2)
  have htrace : (ToolExec.run os populate s toolname toolpath theirpath location perm_file
      ngc_file accessions).trace
      = gateway_events location perm_file ngc_file accessions
        ++ (run_loop os populate
            (os.preload s accessions (ambient location perm_file ngc_file)).1
            toolname toolpath theirpath accessions 0 0
            (os.preload s accessions (ambient location perm_file ngc_file)).2
            accessions).trace := by
    rw [run_nonempty os populate s toolname toolpath theirpath location perm_file ngc_file
      accessions hne]
    rfl
  have hhead : ∀ g0 rest, globals_after g0
      (gateway_events location perm_file ngc_file accessions ++ rest)
      = globals_after no_ambient rest := fun _ _ => rfl
  rw [htrace]
  refine ⟨rfl, hloop, ?_, rfl, rfl, rfl, fun _ => rfl, rfl, fun _ => rfl, ?_, ?_⟩
  · rw [List.filter_append, filter_eq_nil_of_forall is_preload _ (fun e he => (hloop e he).1)]
    rfl
  · intro g0 pre c post h
    rcases List.append_eq_append_iff.mp h with ⟨a1, h1, h2⟩ | ⟨c1, h1, h2⟩
    · rw [h1, hhead]
      refine ⟨hamb a1 ?_ no_ambient, ?_⟩
      · intro e he
        rw [h2]
        exact List.mem_append_left _ he
      · apply List.mem_append_left
        simp [gateway_events]
    · cases c1 with
      | nil =>
        simp only [List.append_nil] at h1
        rw [← h1]
        exact ⟨rfl, by simp [gateway_events]⟩
      | cons x c2 =>
        simp only [List.cons_append, List.cons.injEq] at h2
        have hx : Event.run_child_and_wait c ∈ gateway_events location perm_file ngc_file
            accessions := by
          rw [h1, h2.1]
          exact List.mem_append_right _ (List.mem_cons_self _ _)
        simp [gateway_events] at hx
  · intro g0
    rw [hhead]
    exact hamb _ (fun e he => he) no_ambient

/-- Witness of C20: a run for `SRR000002` with a location and an ngc file; the
gateway is called once, with those two set and no permission file, and the
pointers are reset before the child is started. -/
theorem gateway_called_once_between_ambient_settings_witness :
    (["SRR000002"] : List String) ≠ [] ∧
    (ToolExec.run (scripted demo_sources) no_options [ProcResult.exited 0] "fastq-dump"
        "/opt/sratoolkit/bin/fastq-dump-orig" "fastq-dump-orig" "s3.us-east-1" ""
        "prj_1234.ngc" ["SRR000002"]).trace.filter is_preload
      = [Event.preload ["SRR000002"] located_ambient] ∧
    globals_after located_ambient
        (ToolExec.run (scripted demo_sources) no_options [ProcResult.exited 0] "fastq-dump"
          "/opt/sratoolkit/bin/fastq-dump-orig" "fastq-dump-orig" "s3.us-east-1" ""
          "prj_1234.ngc" ["SRR000002"]).trace = no_ambient := by
  have h := gateway_called_once_between_ambient_settings (scripted demo_sources) no_options
    [ProcResult.exited 0] "fastq-dump" "/opt/sratoolkit/bin/fastq-dump-orig" "fastq-dump-orig"
    "s3.us-east-1" "" "prj_1234.ngc" ["SRR000002"] (by decide)
  refine ⟨by decide, ?_, h.2.2.2.2.2.2.2.2.2.2 located_ambient⟩
  rw [h.2.2.1]
  decide

/-! ## The tokens of the common options -/

/-- What `populate_common_argv_builder` appends, in either style: the tokens of
the five option fields, then the tokens of the verbosity. -/
theorem populate_common_eq (o : CmnOptAndAccessions) (b : ArgvBuilder) (i : Int)
    (accessions : List String) (verbosityStyle : VerbosityStyle) :
    (o.populate_common_argv_builder b i accessions verbosityStyle).options
      = b.options
        ++ option_tokens o.debugFlags o.disable_multithreading o.log_level o.option_file
            o.ngc_file
        ++ verbosity_tokens verbosityStyle o.verbosity := by
  simp only [CmnOptAndAccessions.populate_common_argv_builder, option_tokens, verbosity_tokens]
  cases verbosityStyle <;>
    by_cases h1 : o.disable_multithreading = true <;>
    by_cases h2 : o.log_level.isEmpty = true <;>
    by_cases h3 : o.option_file.isEmpty = true <;> by_cases h4 : o.ngc_file.isEmpty = true <;>
    by_cases h5 : o.verbosity = 0 <;>
    simp [h1, h2, h3, h4, h5, add_option_list_options, add_repeated_options,
      ArgvBuilder.add_option, ArgvBuilder.add_option_value]

theorem count_v_replicate (n : Nat) : count_v (List.replicate n "-v") = n := by
  induction n with
  | zero => rfl
  | succ n ih =>
    have h1 : ("-v" : String).data.count 'v' = 1 := by decide
    simp only [count_v, List.replicate_succ, List.map_cons, List.sum_cons, h1] at ih ⊢
    omega

theorem count_v_standard (n : Nat) :
    count_v ["-" ++ String.mk (List.replicate n 'v')] = n := by
  simp [count_v, String.data_append, List.count_replicate_self]

/-- C24: two option states that agree on `debugFlags`, `disable_multithreading`,
`log_level`, `option_file`, `ngc_file` and `verbosity` make
`populate_common_argv_builder` append the same tokens to a builder in the same
verbosity style, whatever their `perm_file`, `location`, `cart_file`, version
flag and accessions and whatever accession index and list are passed. The
tokens are those of the five option fields in the order of the source, the
`-+` pairs, `--disable-multithreading`, `-L`, `--option-file`, `--ngc`, and
then those of the verbosity. -/
theorem common_tokens_depend_on_six_fields (o1 o2 : CmnOptAndAccessions) (b : ArgvBuilder)
    (i1 i2 : Int) (accessions1 accessions2 : List String) (verbosityStyle : VerbosityStyle)
    (hdebug : o1.debugFlags = o2.debugFlags)
    (hmt : o1.disable_multithreading = o2.disable_multithreading)
    (hlog : o1.log_level = o2.log_level) (hfile : o1.option_file = o2.option_file)
    (hngc : o1.ngc_file = o2.ngc_file) (hverb : o1.verbosity = o2.verbosity) :
    (o1.populate_common_argv_builder b i1 accessions1 verbosityStyle).options
      = (o2.populate_common_argv_builder b i2 accessions2 verbosityStyle).options ∧
    (o1.populate_common_argv_builder b i1 accessions1 verbosityStyle).options
      = b.options
        ++ o1.debugFlags.flatMap (fun value => ["-+", value])
        ++ (if o1.disable_multithreading then ["--disable-multithreading"] else [])
        ++ (if o1.log_level.isEmpty then [] else ["-L", o1.log_level])
        ++ (if o1.option_file.isEmpty then [] else ["--option-file", o1.option_file])
        ++ (if o1.ngc_file.isEmpty then [] else ["--ngc", o1.ngc_file])
        ++ verbosity_tokens verbosityStyle o1.verbosity := by
  constructor
  · rw [populate_common_eq, populate_common_eq, hdebug, hmt, hlog, hfile, hngc, hverb]
  · rw [populate_common_eq]
    simp only [option_tokens, List.append_assoc]

/-- Witness of C24: options with a permission file, a location, a cart file,
the version flag and an accession append the tokens of the same options with
all of those unset, at another index and for another accession list. -/
theorem common_tokens_depend_on_six_fields_witness :
    full_options.debugFlags = forwarded_options.debugFlags ∧
    full_options.disable_multithreading = forwarded_options.disable_multithreading ∧
    full_options.log_level = forwarded_options.log_level ∧
    full_options.option_file = forwarded_options.option_file ∧
    full_options.ngc_file = forwarded_options.ngc_file ∧
    full_options.verbosity = forwarded_options.verbosity ∧
    (full_options.populate_common_argv_builder { options := ["fastq-dump-orig"] } 0
        ["SRR000001"] VerbosityStyle.fastq_dump).options
      = (forwarded_options.populate_common_argv_builder { options := ["fastq-dump-orig"] } 7
        [] VerbosityStyle.fastq_dump).options ∧
    (forwarded_options.populate_common_argv_builder { options := ["fastq-dump-orig"] } 7
        [] VerbosityStyle.fastq_dump).options
      = ["fastq-dump-orig", "-+", "KFG", "-+", "VFS-5", "--disable-multithreading", "-L",
          "info", "--option-file", "more.opts", "--ngc", "prj_1234.ngc", "-v", "-v", "-v"] :=
  ⟨rfl, rfl, rfl, rfl, rfl, rfl,
    (common_tokens_depend_on_six_fields full_options forwarded_options
      { options := ["fastq-dump-orig"] } 0 7 ["SRR000001"] [] VerbosityStyle.fastq_dump
      rfl rfl rfl rfl rfl rfl).1,
    by decide⟩

/-- C25: `populate_common_argv_builder` adds, after the tokens of the other
options, nothing for verbosity 0 in either style; for a verbosity `n` that is
not 0 it adds in the standard style the one token made of `-` and `n` letters
`v`, and in the `fastq_dump` style `n` tokens `-v`. In both styles the tokens of
the verbosity hold `n` letters `v` in all. -/
theorem verbosity_rendering (o : CmnOptAndAccessions) (b : ArgvBuilder) (i : Int)
    (accessions : List String) (verbosityStyle : VerbosityStyle) :
    (o.verbosity = 0 →
      (o.populate_common_argv_builder b i accessions verbosityStyle).options
        = b.options ++ option_tokens o.debugFlags o.disable_multithreading o.log_level
            o.option_file o.ngc_file) ∧
    (o.verbosity ≠ 0 →
      (o.populate_common_argv_builder b i accessions VerbosityStyle.standard).options
        = b.options ++ option_tokens o.debugFlags o.disable_multithreading o.log_level
            o.option_file o.ngc_file
          ++ ["-" ++ String.mk (List.replicate o.verbosity 'v')]) ∧
    (o.populate_common_argv_builder b i accessions VerbosityStyle.fastq_dump).options
      = b.options ++ option_tokens o.debugFlags o.disable_multithreading o.log_level
          o.option_file o.ngc_file
        ++ List.replicate o.verbosity "-v" ∧
    (o.populate_common_argv_builder b i accessions verbosityStyle).options
      = b.options ++ option_tokens o.debugFlags o.disable_multithreading o.log_level
          o.option_file o.ngc_file
        ++ verbosity_tokens verbosityStyle o.verbosity ∧
    (verbosity_tokens VerbosityStyle.standard o.verbosity).length
      = (if o.verbosity = 0 then 0 else 1) ∧
    (verbosity_tokens VerbosityStyle.fastq_dump o.verbosity).length = o.verbosity ∧
    count_v (verbosity_tokens verbosityStyle o.verbosity) = o.verbosity ∧
    (warn_vv_options.populate_common_argv_builder {} 0 [] VerbosityStyle.standard).options
      = ["-L", "warn", "-vv"] ∧
    (warn_vv_options.populate_common_argv_builder {} 0 [] VerbosityStyle.fastq_dump).options
      = ["-L", "warn", "-v", "-v"] := by
  have h := populate_common_eq o b i accessions
  refine ⟨?_, ?_, ?_, h verbosityStyle, ?_, ?_, ?_, by decide, by decide⟩
  · intro h0
    rw [h, h0]
    simp [verbosity_tokens]
  · intro h0
    rw [h]
    simp [verbosity_tokens, h0]
  · rw [h]
    by_cases h0 : o.verbosity = 0
    · simp [verbosity_tokens, h0]
    · simp [verbosity_tokens, h0]
  · by_cases h0 : o.verbosity = 0 <;> simp [verbosity_tokens, h0]
  · by_cases h0 : o.verbosity = 0 <;> simp [verbosity_tokens, h0]
  · by_cases h0 : o.verbosity = 0
    · simp [verbosity_tokens, h0, count_v]
    · cases verbosityStyle with
      | standard =>
        simp only [verbosity_tokens, h0, if_false]
        exact count_v_standard o.verbosity
      | fastq_dump =>
        simp only [verbosity_tokens, h0, if_false]
        exact count_v_replicate o.verbosity

/-! ## What the verdicts come from -/

theorem verdict_ok_true (r : ProcResult) :
    verdict r = Except.ok true ↔ r = ProcResult.exited 0 := by
  cases r with
  | exited c =>
    by_cases h0 : c = 0 <;> by_cases h1 : c = EX_TEMPFAIL <;>
      simp [verdict, h0, h1, EX_TEMPFAIL_ne_zero]
  | signaled n name => simp [verdict]
  | other => simp [verdict]

theorem verdict_ok_false (r : ProcResult) :
    verdict r = Except.ok false ↔ r = ProcResult.exited EX_TEMPFAIL := by
  cases r with
  | exited c =>
    by_cases h0 : c = 0
    · have h1 : ¬ (0 : Int) = EX_TEMPFAIL := fun h => EX_TEMPFAIL_ne_zero h.symm
      simp [verdict, h0, h1]
    · by_cases h1 : c = EX_TEMPFAIL <;> simp [verdict, h0, h1, EX_TEMPFAIL_ne_zero]
  | signaled n name => simp [verdict]
  | other => simp [verdict]

theorem verdict_error (r : ProcResult) (e : Ending) (h : verdict r = Except.error e) :
    (∃ code, r = ProcResult.exited code ∧ code ≠ 0 ∧ code ≠ EX_TEMPFAIL ∧
        e = Ending.exited code) ∨
      (∃ termsig termsigname, r = ProcResult.signaled termsig termsigname ∧
        e = Ending.exited 3) ∨
      (r = ProcResult.other ∧ e = Ending.aborted) := by
  cases r with
  | exited c =>
    left
    by_cases h0 : c = 0
    · simp [verdict, h0] at h
    · by_cases h1 : c = EX_TEMPFAIL
      · simp [verdict, h1, EX_TEMPFAIL_ne_zero] at h
      · simp only [verdict, h0, h1, if_false, Except.error.injEq] at h
        exact ⟨c, rfl, h0, h1, h.symm⟩
  | signaled n name =>
    right; left
    simp only [verdict, Except.error.injEq] at h
    exact ⟨n, name, rfl, h.symm⟩
  | other =>
    right; right
    simp only [verdict, Except.error.injEq] at h
    exact ⟨rfl, h.symm⟩

section shape_facts

variable {σ : Type} (os : OS σ) (pos : Nat) (toolpath toolname acc : String) (argv : Argv)

/-- The calls of the source loop by the way it ended: on `true` the last call
exited with 0 and the ones before with `EX_TEMPFAIL`, on `false` all exited
with `EX_TEMPFAIL`, and when it ended the process the last call is the one that
made `exec_wait` do so and the ones before exited with `EX_TEMPFAIL`. -/
theorem try_sources_shape (srcs : List data_source) :
    ∀ (s : σ),
      ((try_sources os pos toolpath toolname acc argv s srcs).1 = Except.ok true →
        ∃ pre last, spawns (try_sources os pos toolpath toolname acc argv s srcs).2.1
            = pre ++ [last] ∧
          last.result = ProcResult.exited 0 ∧
          ∀ c ∈ pre, c.result = ProcResult.exited EX_TEMPFAIL) ∧
      ((try_sources os pos toolpath toolname acc argv s srcs).1 = Except.ok false →
        ∀ c ∈ spawns (try_sources os pos toolpath toolname acc argv s srcs).2.1,
          c.result = ProcResult.exited EX_TEMPFAIL) ∧
      (∀ e, (try_sources os pos toolpath toolname acc argv s srcs).1 = Except.error e →
        ∃ pre last, spawns (try_sources os pos toolpath toolname acc argv s srcs).2.1
            = pre ++ [last] ∧
          verdict last.result = Except.error e ∧
          ∀ c ∈ pre, c.result = ProcResult.exited EX_TEMPFAIL) := by
  induction srcs with
  | nil =>
    intro s
    simp [try_sources, spawns]
  | cons src rest ih =>
    intro s
    rcases try_sources_cons os pos toolpath toolname acc argv s src rest with
      ⟨hc, hr, hs, _⟩ | ⟨hc, hr, hs, _⟩ | ⟨e1, hc, hr, hs, _⟩
    · rw [hr, hs]
      refine ⟨fun _ => ⟨[], _, rfl, (verdict_ok_true _).mp hc, by simp⟩, ?_, ?_⟩
      · intro h; cases h
      · intro e h; cases h
    · rcases ih (os.run_child_and_wait s toolpath toolname argv src.get_environment).2 with
        ⟨h1, h2, h3⟩
      have h75 := (verdict_ok_false _).mp hc
      rw [hr, hs]
      refine ⟨?_, ?_, ?_⟩
      · intro h
        rcases h1 h with ⟨pre, last, hsp, hl, hp⟩
        refine ⟨call_of os s pos toolpath toolname argv src :: pre, last, by rw [hsp]; rfl,
          hl, ?_⟩
        intro c hcm
        rcases List.mem_cons.mp hcm with hcm | hcm
        · rw [hcm]; exact h75
        · exact hp c hcm
      · intro h c hcm
        rcases List.mem_cons.mp hcm with hcm | hcm
        · rw [hcm]; exact h75
        · exact h2 h c hcm
      · intro e h
        rcases h3 e h with ⟨pre, last, hsp, hl, hp⟩
        refine ⟨call_of os s pos toolpath toolname argv src :: pre, last, by rw [hsp]; rfl,
          hl, ?_⟩
        intro c hcm
        rcases List.mem_cons.mp hcm with hcm | hcm
        · rw [hcm]; exact h75
        · exact hp c hcm
    · rw [hr, hs]
      refine ⟨?_, ?_, ?_⟩
      · intro h; cases h
      · intro h; cases h
      · intro e h
        cases h
        exact ⟨[], _, rfl, hc, by simp⟩

end shape_facts

section ending_facts

variable {σ : Type} (os : OS σ) (populate : Populate) (all_sources : SourceSet)
  (toolname toolpath theirpath : String) (accessions : List String)

theorem try_sources_pos_eq (pos : Nat) (acc : String) (argv : Argv) (s : σ)
    (srcs : List data_source) :
    ∀ c ∈ spawns (try_sources os pos toolpath toolname acc argv s srcs).2.1,
      c.pos = pos ∧ c.argv = argv := by
  intro c hc
  rcases try_sources_spawns_take os pos toolpath toolname acc argv srcs s with ⟨n, hn⟩
  rw [hn] at hc
  have := calls_argv os pos toolpath toolname argv (srcs.take n) s c hc
  exact ⟨this.2.1, this.1⟩

/-- The accession loop returns 0, returns `EX_TEMPFAIL`, or ends the process the
way `exec_wait` decided on one of its calls. -/
theorem run_loop_ending (l : List String) :
    ∀ (i : Int) (pos : Nat) (s : σ),
      (run_loop os populate all_sources toolname toolpath theirpath accessions i pos s
          l).ending = Ending.returned 0 ∨
      (run_loop os populate all_sources toolname toolpath theirpath accessions i pos s
          l).ending = Ending.returned EX_TEMPFAIL ∨
      ∃ c ∈ spawns (run_loop os populate all_sources toolname toolpath theirpath accessions i
          pos s l).trace,
        verdict c.result = Except.error (run_loop os populate all_sources toolname toolpath
          theirpath accessions i pos s l).ending := by
  induction l with
  | nil => intro i pos s; left; rfl
  | cons acc rest ih =>
    intro i pos s
    by_cases hs : all_sources acc = []
    · rw [run_loop_skip os populate all_sources toolname toolpath theirpath accessions i pos s
        acc rest hs]
      exact ih _ _ _
    · rcases run_loop_cons os populate all_sources toolname toolpath theirpath accessions i pos s
        acc rest hs with ⟨e1, hr, he, ht⟩ | ⟨hr, he, ht⟩ | ⟨hr, he, ht⟩
      · right; right
        rcases (try_sources_shape os pos toolpath toolname acc _ (all_sources acc) s).2.2 e1 hr
          with ⟨pre, last, hsp, hv, _⟩
        refine ⟨last, ?_, by rw [he]; exact hv⟩
        rw [ht]
        simp only [spawns_append, spawns_built, List.nil_append, hsp]
        simp
      · rw [he, ht]
        rcases ih (i + 1) (pos + 1) _ with h | h | ⟨c, hc, hv⟩
        · left; exact h
        · right; left; exact h
        · right; right
          refine ⟨c, ?_, hv⟩
          simp only [spawns_append]
          exact List.mem_append_right _ hc
      · right; left
        exact he

/-- When the accession loop returns 0, the calls for every accession that has
sources end with one that exited with 0, all the ones before it having exited
with `EX_TEMPFAIL`. -/
theorem run_loop_returned_zero (l : List String) :
    ∀ (i : Int) (pos : Nat) (s : σ),
      (run_loop os populate all_sources toolname toolpath theirpath accessions i pos s
          l).ending = Ending.returned 0 →
      ∀ k acc, l[k]? = some acc → all_sources acc ≠ [] →
        ∃ pre last,
          (spawns (run_loop os populate all_sources toolname toolpath theirpath accessions i
            pos s l).trace).filter (fun c => decide (c.pos = pos + k)) = pre ++ [last] ∧
          last.result = ProcResult.exited 0 ∧
          ∀ c ∈ pre, c.result = ProcResult.exited EX_TEMPFAIL := by
  induction l with
  | nil => intro i pos s _ k acc hk; simp at hk
  | cons acc0 rest ih =>
    intro i pos s hend k acc hk hacc
    by_cases hs : all_sources acc0 = []
    · rw [run_loop_skip os populate all_sources toolname toolpath theirpath accessions i pos s
        acc0 rest hs] at hend ⊢
      cases k with
      | zero =>
        simp only [List.getElem?_cons_zero, Option.some.injEq] at hk
        rw [hk] at hs
        exact absurd hs hacc
      | succ k =>
        rw [List.getElem?_cons_succ] at hk
        have := ih i (pos + 1) s hend k acc hk hacc
        rw [show pos + 1 + k = pos + (k + 1) by omega] at this
        exact this
    · rcases run_loop_cons os populate all_sources toolname toolpath theirpath accessions i pos s
        acc0 rest hs with ⟨e1, hr, he, ht⟩ | ⟨hr, he, ht⟩ | ⟨hr, he, ht⟩
      · rcases (try_sources_shape os pos toolpath toolname acc0 _ (all_sources acc0) s).2.2 e1 hr
          with ⟨pre, last, _, hv, _⟩
        rw [he] at hend
        rw [hend] at hv
        rcases verdict_error _ _ hv with ⟨_, _, _, _, h⟩ | ⟨_, _, _, h⟩ | ⟨_, h⟩ <;> cases h
      · rw [he] at hend
        have hpos := try_sources_pos_eq os toolname toolpath pos acc0
          (argv_for populate theirpath accessions i acc0) s (all_sources acc0)
        have hlater := (run_loop_order os populate all_sources toolname toolpath theirpath
          accessions rest (i + 1) (pos + 1) (try_sources os pos toolpath toolname acc0
            (argv_for populate theirpath accessions i acc0) s (all_sources acc0)).2.2).1
        rw [ht]
        simp only [spawns_append, spawns_built, spawns_free, List.nil_append, List.append_nil,
          List.filter_append]
        cases k with
        | zero =>
          simp only [List.getElem?_cons_zero, Option.some.injEq] at hk
          have h1 : (spawns (try_sources os pos toolpath toolname acc0
              (argv_for populate theirpath accessions i acc0) s (all_sources acc0)).2.1).filter
              (fun c => decide (c.pos = pos + 0))
              = spawns (try_sources os pos toolpath toolname acc0
                (argv_for populate theirpath accessions i acc0) s (all_sources acc0)).2.1 := by
            rw [List.filter_eq_self]
            intro c hc
            simp [(hpos c hc).1]
          have h2 : (spawns (run_loop os populate all_sources toolname toolpath theirpath
              accessions (i + 1) (pos + 1) (try_sources os pos toolpath toolname acc0
                (argv_for populate theirpath accessions i acc0) s (all_sources acc0)).2.2
              rest).trace).filter (fun c => decide (c.pos = pos + 0)) = [] := by
            rw [List.filter_eq_nil_iff]
            intro c hc
            have := hlater c hc
            simp only [Nat.add_zero, decide_eq_true_eq]
            omega
          rw [h1, h2, List.append_nil]
          exact (try_sources_shape os pos toolpath toolname acc0 _ (all_sources acc0) s).1 hr
        | succ k =>
          rw [List.getElem?_cons_succ] at hk
          have h1 : (spawns (try_sources os pos toolpath toolname acc0
              (argv_for populate theirpath accessions i acc0) s (all_sources acc0)).2.1).filter
              (fun c => decide (c.pos = pos + (k + 1))) = [] := by
            rw [List.filter_eq_nil_iff]
            intro c hc
            simp [(hpos c hc).1]
          rw [h1, List.nil_append]
          have := ih (i + 1) (pos + 1) _ hend k acc hk hacc
          rw [show pos + 1 + k = pos + (k + 1) by omega] at this
          exact this
      · rw [he] at hend
        have h75 : EX_TEMPFAIL = 0 := by
          simpa using hend
        exact absurd h75 EX_TEMPFAIL_ne_zero

end ending_facts

/-! ## What a run that returns has done -/

/-- C22: on a non-empty accession list, when `ToolExec::run` returns 0 the
calls for every accession that has sources are some calls that exited with
`EX_TEMPFAIL` followed by one last call that exited with 0, which is the only
call for the accession that exited with 0. The only values `run` returns are 0
and `EX_TEMPFAIL`: a run ends by returning 0, by returning `EX_TEMPFAIL`, in
`exit(3)` after a child that was killed by a signal, in `exit(code)` after a
child that exited with a code other than 0 and `EX_TEMPFAIL`, or in `abort()`
after a child whose status is neither an exit nor a signal; when every status
is an exit or a signal, the last case does not occur. -/
theorem run_returns_zero_or_tempfail {σ : Type} (os : OS σ) (populate : Populate) (s : σ)
    (toolname toolpath theirpath location perm_file ngc_file : String)
    (accessions : List String) (hne : accessions ≠ []) :
    ((ToolExec.run os populate s toolname toolpath theirpath location perm_file ngc_file
        accessions).ending = Ending.returned 0 →
      ∀ k acc, accessions[k]? = some acc →
        (os.preload s accessions (ambient location perm_file ngc_file)).1 acc ≠ [] →
        ∃ pre last,
          (spawns (ToolExec.run os populate s toolname toolpath theirpath location perm_file
            ngc_file accessions).trace).filter (fun c => decide (c.pos = k)) = pre ++ [last] ∧
          last.result = ProcResult.exited 0 ∧
          (∀ c ∈ pre, c.result = ProcResult.exited EX_TEMPFAIL) ∧
          ((spawns (ToolExec.run os populate s toolname toolpath theirpath location perm_file
            ngc_file accessions).trace).filter (fun c => decide (c.pos = k))).filter
              (fun c => decide (c.result = ProcResult.exited 0)) = [last]) ∧
    (∀ code, (ToolExec.run os populate s toolname toolpath theirpath location perm_file ngc_file
        accessions).ending = Ending.returned code → code = 0 ∨ code = EX_TEMPFAIL) ∧
    ((ToolExec.run os populate s toolname toolpath theirpath location perm_file ngc_file
          accessions).ending = Ending.returned 0 ∨
      (ToolExec.run os populate s toolname toolpath theirpath location perm_file ngc_file
          accessions).ending = Ending.returned EX_TEMPFAIL ∨
      (∃ c ∈ spawns (ToolExec.run os populate s toolname toolpath theirpath location perm_file
          ngc_file accessions).trace,
        ∃ termsig termsigname, c.result = ProcResult.signaled termsig termsigname ∧
          (ToolExec.run os populate s toolname toolpath theirpath location perm_file ngc_file
            accessions).ending = Ending.exited 3) ∨
      (∃ c ∈ spawns (ToolExec.run os populate s toolname toolpath theirpath location perm_file
          ngc_file accessions).trace,
        ∃ code, c.result = ProcResult.exited code ∧ code ≠ 0 ∧ code ≠ EX_TEMPFAIL ∧
          (ToolExec.run os populate s toolname toolpath theirpath location perm_file ngc_file
            accessions).ending = Ending.exited code) ∨
      (∃ c ∈ spawns (ToolExec.run os populate s toolname toolpath theirpath location perm_file
          ngc_file accessions).trace,
        c.result = ProcResult.other ∧
          (ToolExec.run os populate s toolname toolpath theirpath location perm_file ngc_file
            accessions).ending = Ending.aborted)) ∧
    ((∀ c ∈ spawns (ToolExec.run os populate s toolname toolpath theirpath location perm_file
          ngc_file accessions).trace, c.result ≠ ProcResult.other) →
      (ToolExec.run os populate s toolname toolpath theirpath location perm_file ngc_file
          accessions).ending = Ending.returned 0 ∨
      (ToolExec.run os populate s toolname toolpath theirpath location perm_file ngc_file
          accessions).ending = Ending.returned EX_TEMPFAIL ∨
      (∃ c ∈ spawns (ToolExec.run os populate s toolname toolpath theirpath location perm_file
          ngc_file accessions).trace,
        ∃ termsig termsigname, c.result = ProcResult.signaled termsig termsigname ∧
          (ToolExec.run os populate s toolname toolpath theirpath location perm_file ngc_file
            accessions).ending = Ending.exited 3) ∨
      (∃ c ∈ spawns (ToolExec.run os populate s toolname toolpath theirpath location perm_file
          ngc_file accessions).trace,
        ∃ code, c.result = ProcResult.exited code ∧ code ≠ 0 ∧ code ≠ EX_TEMPFAIL ∧
          (ToolExec.run os populate s toolname toolpath theirpath location perm_file ngc_file
            accessions).ending = Ending.exited code)) := by
  have hhead : ∀ g1 a g2 g3 rest, spawns ([Event.set_ambient g1, Event.preload a g2,
      Event.set_ambient g3, Event.set_ce_token_env_var] ++ rest) = spawns rest :=
    fun _ _ _ _ _ => rfl
  have hend := run_loop_ending os populate
    (os.preload s accessions (ambient location perm_file ngc_file)).1 toolname toolpath theirpath
    accessions accessions 0 0 (os.preload s accessions (ambient location perm_file ngc_file)).2
  have hzero := run_loop_returned_zero os populate
    (os.preload s accessions (ambient location perm_file ngc_file)).1 toolname toolpath theirpath
    accessions accessions 0 0 (os.preload s accessions (ambient location perm_file ngc_file)).2
  simp only [Nat.zero_add] at hzero
  rw [run_nonempty os populate s toolname toolpath theirpath location perm_file ngc_file
    accessions hne]
  simp only [hhead]
  generalize run_loop os populate
    (os.preload s accessions (ambient location perm_file ngc_file)).1 toolname toolpath theirpath
    accessions 0 0 (os.preload s accessions (ambient location perm_file ngc_file)).2 accessions
    = R at hend hzero ⊢
  have h5 : R.ending = Ending.returned 0 ∨ R.ending = Ending.returned EX_TEMPFAIL ∨
      (∃ c ∈ spawns R.trace, ∃ termsig termsigname,
        c.result = ProcResult.signaled termsig termsigname ∧ R.ending = Ending.exited 3) ∨
      (∃ c ∈ spawns R.trace, ∃ code, c.result = ProcResult.exited code ∧ code ≠ 0 ∧
        code ≠ EX_TEMPFAIL ∧ R.ending = Ending.exited code) ∨
      (∃ c ∈ spawns R.trace, c.result = ProcResult.other ∧ R.ending = Ending.aborted) := by
    rcases hend with h | h | ⟨c, hc, hv⟩
    · exact Or.inl h
    · exact Or.inr (Or.inl h)
    · rcases verdict_error _ _ hv with ⟨code, hr, h0, h75, he⟩ | ⟨sig, name, hr, he⟩ | ⟨hr, he⟩
      · exact Or.inr (Or.inr (Or.inr (Or.inl ⟨c, hc, code, hr, h0, h75, he⟩)))
      · exact Or.inr (Or.inr (Or.inl ⟨c, hc, sig, name, hr, he⟩))
      · exact Or.inr (Or.inr (Or.inr (Or.inr ⟨c, hc, hr, he⟩)))
  refine ⟨?_, ?_, h5, ?_⟩
  · intro h0 k acc hk hacc
    rcases hzero h0 k acc hk hacc with ⟨pre, last, hf, hl, hp⟩
    refine ⟨pre, last, hf, hl, hp, ?_⟩
    rw [hf, List.filter_append]
    have h1 : pre.filter (fun c => decide (c.result = ProcResult.exited 0)) = [] := by
      rw [List.filter_eq_nil_iff]
      intro c hc
      rw [hp c hc]
      simp [EX_TEMPFAIL_ne_zero]
    rw [h1]
    simp [hl]
  · intro code h
    rcases h5 with h1 | h1 | ⟨_, _, _, _, _, h1⟩ | ⟨_, _, _, _, _, _, h1⟩ | ⟨_, _, _, h1⟩ <;>
      rw [h1] at h <;> cases h
    · exact Or.inl rfl
    · exact Or.inr rfl
  · intro hres
    rcases h5 with h1 | h1 | h1 | h1 | ⟨c, hc, hr, _⟩
    · exact Or.inl h1
    · exact Or.inr (Or.inl h1)
    · exact Or.inr (Or.inr (Or.inl h1))
    · exact Or.inr (Or.inr (Or.inr h1))
    · exact absurd hr (hres c hc)

/-- Witness of C22: two accessions, the first source of the first one answered
with `EX_TEMPFAIL`; the run returns 0 and the two calls for the first
accession are the failed one and then the one that exited with 0. -/
theorem run_returns_zero_or_tempfail_witness :
    (["SRR000001", "SRR000002"] : List String) ≠ [] ∧
    (demo_run [ProcResult.exited 75, ProcResult.exited 0, ProcResult.exited 0]
      ["SRR000001", "SRR000002"]).ending = Ending.returned 0 ∧
    ∃ pre last,
      (spawns (demo_run [ProcResult.exited 75, ProcResult.exited 0, ProcResult.exited 0]
        ["SRR000001", "SRR000002"]).trace).filter (fun c => decide (c.pos = 0))
        = pre ++ [last] ∧
      last.result = ProcResult.exited 0 ∧
      (∀ c ∈ pre, c.result = ProcResult.exited EX_TEMPFAIL) ∧
      ((spawns (demo_run [ProcResult.exited 75, ProcResult.exited 0, ProcResult.exited 0]
        ["SRR000001", "SRR000002"]).trace).filter (fun c => decide (c.pos = 0))).filter
          (fun c => decide (c.result = ProcResult.exited 0)) = [last] :=
  ⟨by decide, by decide,
    (run_returns_zero_or_tempfail (scripted demo_sources) no_options
      [ProcResult.exited 75, ProcResult.exited 0, ProcResult.exited 0] "fastq-dump"
      "/opt/sratoolkit/bin/fastq-dump-orig" "fastq-dump-orig" "" "" ""
      ["SRR000001", "SRR000002"] (by decide)).1 (by decide) 0 "SRR000001" (by decide)
      (by decide)⟩

/-! ## The life of the argument vectors -/

section live_facts

theorem live_after_append (a : List Event) :
    ∀ (live : Option Argv) (b : List Event),
      live_after live (a ++ b) = (live_after live a).bind (fun l1 => live_after l1 b) := by
  induction a with
  | nil => intro live b; rfl
  | cons e rest ih =>
    intro live b
    cases e with
    | generate_argv a =>
      by_cases hl : live = none <;> simp [live_after, hl, ih]
    | free_argv a =>
      by_cases hl : live = some a <;> simp [live_after, hl, ih]
    | run_child_and_wait c =>
      by_cases hl : live = some c.argv <;> simp [live_after, hl, ih]
    | run_child tp tn a =>
      by_cases hl : live = some a <;> simp [live_after, hl, ih]
    | set_ambient g => simp [live_after, ih]
    | preload a g => simp [live_after, ih]
    | set_ce_token_env_var => simp [live_after, ih]
    | populate_argv_builder i a => simp [live_after, ih]
    | log n t => simp [live_after, ih]
    | cerr t => simp [live_after, ih]

/-- Events that neither build nor free a vector and start a child only with
the live vector leave the live vector as it is. -/
theorem live_after_quiet (live : Option Argv) (l : List Event)
    (h : ∀ e ∈ l, (∃ c, e = Event.run_child_and_wait c ∧ some c.argv = live) ∨
      (∃ n t, e = Event.log n t) ∨ ∃ t, e = Event.cerr t) :
    live_after live l = some live := by
  induction l with
  | nil => rfl
  | cons e rest ih =>
    have hrest := ih (fun x hx => h x (List.mem_cons_of_mem _ hx))
    rcases h e (List.mem_cons_self _ _) with ⟨c, he, hc⟩ | ⟨n, t, he⟩ | ⟨t, he⟩
    · subst he
      simp [live_after, hc, hrest]
    · subst he
      simp [live_after, hrest]
    · subst he
      simp [live_after, hrest]

/-- Along events that keep the discipline, the vectors built, after the one
live at the start, are the vectors freed followed by the one live at the
end. -/
theorem live_after_freed (l : List Event) :
    ∀ (live final : Option Argv), live_after live l = some final →
      live.toList ++ generated l = freed l ++ final.toList := by
  induction l with
  | nil =>
    intro live final h
    simp only [live_after, Option.some.injEq] at h
    subst h
    simp [generated, freed]
  | cons e rest ih =>
    intro live final h
    cases e with
    | generate_argv a =>
      by_cases hl : live = none
      · simp only [live_after, hl, if_true] at h
        have := ih _ _ h
        subst hl
        simpa [generated, freed] using this
      · simp [live_after, hl] at h
    | free_argv a =>
      by_cases hl : live = some a
      · simp only [live_after, hl, if_true] at h
        have := ih _ _ h
        subst hl
        simpa [generated, freed] using this
      · simp [live_after, hl] at h
    | run_child_and_wait c =>
      by_cases hl : live = some c.argv
      · simp only [live_after, hl, if_true] at h
        have := ih _ _ h
        rw [hl]
        simpa [generated, freed] using this
      · simp [live_after, hl] at h
    | run_child tp tn a =>
      by_cases hl : live = some a
      · simp only [live_after, hl, if_true] at h
        have := ih _ _ h
        rw [hl]
        simpa [generated, freed] using this
      · simp [live_after, hl] at h
    | set_ambient g => simpa [live_after, generated, freed] using ih _ _ h
    | preload a g => simpa [live_after, generated, freed] using ih _ _ h
    | set_ce_token_env_var => simpa [live_after, generated, freed] using ih _ _ h
    | populate_argv_builder i a => simpa [live_after, generated, freed] using ih _ _ h
    | log n t => simpa [live_after, generated, freed] using ih _ _ h
    | cerr t => simpa [live_after, generated, freed] using ih _ _ h

end live_facts

section quiet_facts

variable {σ : Type} (os : OS σ)

/-- The events of `exec_wait` are its call, with the vector it was given, and
lines on `std::cerr`. -/
theorem exec_wait_events (s : σ) (pos : Nat) (toolpath toolname : String) (argv : Argv)
    (src : data_source) :
    ∀ e ∈ (exec_wait os s pos toolpath toolname argv src).2.1,
      (∃ c, e = Event.run_child_and_wait c ∧ some c.argv = some argv) ∨
        (∃ n t, e = Event.log n t) ∨ ∃ t, e = Event.cerr t := by
  simp only [exec_wait]
  rcases os.run_child_and_wait s toolpath toolname argv src.get_environment with ⟨r, s1⟩
  cases r with
  | exited c =>
    by_cases h0 : c = 0 <;> by_cases h1 : c = EX_TEMPFAIL <;>
      simp [h0, h1, EX_TEMPFAIL_ne_zero]
  | signaled n name => simp
  | other => simp

/-- The events of the source loop are calls with the vector of the accession,
log lines and lines on `std::cerr`. -/
theorem try_sources_events (pos : Nat) (toolpath toolname acc : String) (argv : Argv)
    (srcs : List data_source) :
    ∀ (s : σ), ∀ e ∈ (try_sources os pos toolpath toolname acc argv s srcs).2.1,
      (∃ c, e = Event.run_child_and_wait c ∧ some c.argv = some argv) ∨
        (∃ n t, e = Event.log n t) ∨ ∃ t, e = Event.cerr t := by
  induction srcs with
  | nil => intro s e he; simp [try_sources] at he
  | cons src rest ih =>
    intro s e he
    have hw := exec_wait_events os s pos toolpath toolname argv src
    rcases hx : exec_wait os s pos toolpath toolname argv src with ⟨v, ev, s1⟩
    rw [hx] at hw
    simp only at hw
    cases v with
    | error e1 =>
      simp only [try_sources, hx] at he
      exact hw e he
    | ok b =>
      cases b with
      | true =>
        simp only [try_sources, hx, List.mem_append, List.mem_singleton] at he
        rcases he with he | he
        · exact hw e he
        · exact Or.inr (Or.inl ⟨_, _, he⟩)
      | false =>
        simp only [try_sources, hx, List.mem_append, List.mem_singleton] at he
        rcases he with (he | he) | he
        · exact hw e he
        · exact Or.inr (Or.inl ⟨_, _, he⟩)
        · exact ih s1 e he

theorem tried_report_events (acc : String) (sources : List data_source) (live : Option Argv) :
    ∀ e ∈ tried_report acc sources,
      (∃ c, e = Event.run_child_and_wait c ∧ some c.argv = live) ∨
        (∃ n t, e = Event.log n t) ∨ ∃ t, e = Event.cerr t := by
  intro e he
  simp only [tried_report, List.mem_append, List.mem_singleton, List.mem_map] at he
  rcases he with (he | ⟨x, _, he⟩) | he
  · exact Or.inr (Or.inr ⟨_, he⟩)
  · exact Or.inr (Or.inr ⟨_, he.symm⟩)
  · exact Or.inr (Or.inr ⟨_, he⟩)

end quiet_facts

section live_runs

variable {σ : Type} (os : OS σ) (populate : Populate)

/-- The accession loop keeps the discipline of the argument vectors, and no
vector is live after it exactly when it returned. -/
theorem run_loop_live (all_sources : SourceSet) (toolname toolpath theirpath : String)
    (accessions : List String) (l : List String) :
    ∀ (i : Int) (pos : Nat) (s : σ), ∃ final,
      live_after none (run_loop os populate all_sources toolname toolpath theirpath accessions
        i pos s l).trace = some final ∧
      (final = none ↔ (run_loop os populate all_sources toolname toolpath theirpath accessions
        i pos s l).ending.comes_back = true) := by
  induction l with
  | nil => intro i pos s; exact ⟨none, rfl, by simp [run_loop, Ending.comes_back]⟩
  | cons acc rest ih =>
    intro i pos s
    by_cases hs : all_sources acc = []
    · rw [run_loop_skip os populate all_sources toolname toolpath theirpath accessions i pos s
        acc rest hs]
      exact ih _ _ _
    · have hq := live_after_quiet (some (argv_for populate theirpath accessions i acc)) _
        (try_sources_events os pos toolpath toolname acc
          (argv_for populate theirpath accessions i acc) (all_sources acc) s)
      have hbuilt : ∀ (a : Argv) (rest0 : List Event),
          live_after none ([Event.populate_argv_builder i accessions, Event.generate_argv a]
            ++ rest0) = live_after (some a) rest0 := by
        intro a rest0
        simp [live_after]
      have hfree : ∀ (a : Argv) (rest0 : List Event),
          live_after (some a) ([Event.free_argv a] ++ rest0) = live_after none rest0 := by
        intro a rest0
        simp [live_after]
      rcases run_loop_cons os populate all_sources toolname toolpath theirpath accessions i pos s
        acc rest hs with ⟨e1, hr, he, ht⟩ | ⟨hr, he, ht⟩ | ⟨hr, he, ht⟩
      · refine ⟨some (argv_for populate theirpath accessions i acc), ?_, ?_⟩
        · rw [ht, hbuilt, hq]
        · rw [he]
          rcases (try_sources_shape os pos toolpath toolname acc _ (all_sources acc) s).2.2 e1 hr
            with ⟨pre, last, _, hv, _⟩
          rcases verdict_error _ _ hv with ⟨_, _, _, _, h⟩ | ⟨_, _, _, h⟩ | ⟨_, h⟩ <;>
            subst h <;> simp [Ending.comes_back]
      · rcases ih (i + 1) (pos + 1) (try_sources os pos toolpath toolname acc
          (argv_for populate theirpath accessions i acc) s (all_sources acc)).2.2 with
          ⟨final, hf, hiff⟩
        refine ⟨final, ?_, ?_⟩
        · rw [ht, List.append_assoc, List.append_assoc, hbuilt, live_after_append, hq]
          simp only [Option.some_bind]
          rw [hfree, hf]
        · rw [he]
          exact hiff
      · refine ⟨none, ?_, by rw [he]; simp [Ending.comes_back]⟩
        rw [ht, List.append_assoc, List.append_assoc, hbuilt, live_after_append, hq]
        simp only [Option.some_bind]
        rw [hfree]
        exact live_after_quiet none _ (tried_report_events acc (all_sources acc) none)

/-- The function `ToolExecNoSDL::run` keeps the discipline of the argument
vectors, and no vector is live after it exactly when it threw. -/
theorem noSDL_live (s : σ) (toolname toolpath theirpath : String) (accessions : List String) :
    ∃ final,
      live_after none (ToolExecNoSDL.run os populate s toolname toolpath theirpath
        accessions).trace = some final ∧
      (final = none ↔ (ToolExecNoSDL.run os populate s toolname toolpath theirpath
        accessions).ending.comes_back = true) := by
  simp only [ToolExecNoSDL.run]
  split
  · exact ⟨some ((populate (ArgvBuilder.add_option {} theirpath) (accessions.length : Nat)
      accessions).generate_argv accessions), by simp [live_after], by simp [Ending.comes_back]⟩
  · exact ⟨none, by simp [live_after], by simp [Ending.comes_back]⟩

/-- The function `ToolExec::run` keeps the discipline of the argument vectors,
and no vector is live after it exactly when it returned or threw. -/
theorem run_live (s : σ) (toolname toolpath theirpath location perm_file ngc_file : String)
    (accessions : List String) :
    ∃ final,
      live_after none (ToolExec.run os populate s toolname toolpath theirpath location
        perm_file ngc_file accessions).trace = some final ∧
      (final = none ↔ (ToolExec.run os populate s toolname toolpath theirpath location
        perm_file ngc_file accessions).ending.comes_back = true) := by
  by_cases hne : accessions = []
  · subst hne
    have hrun : ToolExec.run os populate s toolname toolpath theirpath location perm_file
        ngc_file [] = ToolExecNoSDL.run os populate s toolname toolpath theirpath [] := rfl
    rw [hrun]
    exact noSDL_live os populate s toolname toolpath theirpath []
  · rw [run_nonempty os populate s toolname toolpath theirpath location perm_file ngc_file
      accessions hne]
    have hhead : ∀ g1 a g2 g3 rest, live_after none ([Event.set_ambient g1,
        Event.preload a g2, Event.set_ambient g3, Event.set_ce_token_env_var] ++ rest)
        = live_after none rest := fun _ _ _ _ _ => rfl
    simp only [hhead]
    exact run_loop_live os populate _ toolname toolpath theirpath accessions accessions 0 0 _

end live_runs

/-- C21, as stated, fails: in the run for `SRR000002` whose only child exits
with code 1, `exec_wait` ends the process in `exit(1)` inside the source loop;
the vector built for the accession is never given to `free_argv`, so one
vector is built and none is freed. -/
theorem argv_not_freed_when_child_exits :
    (demo_run [ProcResult.exited 1] ["SRR000002"]).trace
      = demo_head ["SRR000002"] ++
          [Event.populate_argv_builder 0 ["SRR000002"],
            Event.generate_argv (demo_argv "SRR000002"),
            Event.run_child_and_wait (demo_call 0 "SRR000002" src_ncbi (ProcResult.exited 1)),
            Event.cerr "fastq-dump quit with error code 1\n"] ∧
    (demo_run [ProcResult.exited 1] ["SRR000002"]).ending = Ending.exited 1 ∧
    generated (demo_run [ProcResult.exited 1] ["SRR000002"]).trace = [demo_argv "SRR000002"] ∧
    freed (demo_run [ProcResult.exited 1] ["SRR000002"]).trace = [] ∧
    ((demo_run [ProcResult.exited 1] ["SRR000002"]).trace.filter is_generate).length = 1 ∧
    ((demo_run [ProcResult.exited 1] ["SRR000002"]).trace.filter is_free).length = 0 := by
  decide

/-- C21, amended: every execution of `ToolExec::run` and of
`ToolExecNoSDL::run`, whatever the children do, keeps the discipline of the
argument vectors: a vector is built only when none is live, `free_argv` is
called only on the live vector, so never twice on a vector and never on one
that was not built, and a child is started only with the live vector, so a
vector is freed after all the attempts made with it and before the next one is
built. No vector is live at the end exactly when the function returns or
throws; then the vectors freed are the vectors built, in order. When the
process ends inside the function, in `exit`, in `abort` or by being replaced,
the vectors built are the vectors freed followed by the one built last, which
is never freed. -/
theorem argv_freed_once_when_run_comes_back {σ : Type} (os : OS σ) (populate : Populate)
    (s : σ) (toolname toolpath theirpath location perm_file ngc_file : String)
    (accessions : List String) :
    (∃ final,
      live_after none (ToolExec.run os populate s toolname toolpath theirpath location
        perm_file ngc_file accessions).trace = some final ∧
      (final = none ↔ (ToolExec.run os populate s toolname toolpath theirpath location
        perm_file ngc_file accessions).ending.comes_back = true) ∧
      generated (ToolExec.run os populate s toolname toolpath theirpath location
          perm_file ngc_file accessions).trace
        = freed (ToolExec.run os populate s toolname toolpath theirpath location
          perm_file ngc_file accessions).trace ++ final.toList) ∧
    ((ToolExec.run os populate s toolname toolpath theirpath location
        perm_file ngc_file accessions).ending.comes_back = true →
      freed (ToolExec.run os populate s toolname toolpath theirpath location
          perm_file ngc_file accessions).trace
        = generated (ToolExec.run os populate s toolname toolpath theirpath location
          perm_file ngc_file accessions).trace) ∧
    (∃ final,
      live_after none (ToolExecNoSDL.run os populate s toolname toolpath theirpath
        accessions).trace = some final ∧
      (final = none ↔ (ToolExecNoSDL.run os populate s toolname toolpath theirpath
        accessions).ending.comes_back = true) ∧
      generated (ToolExecNoSDL.run os populate s toolname toolpath theirpath accessions).trace
        = freed (ToolExecNoSDL.run os populate s toolname toolpath theirpath
          accessions).trace ++ final.toList) ∧
    ((ToolExecNoSDL.run os populate s toolname toolpath theirpath
        accessions).ending.comes_back = true →
      freed (ToolExecNoSDL.run os populate s toolname toolpath theirpath accessions).trace
        = generated (ToolExecNoSDL.run os populate s toolname toolpath theirpath
          accessions).trace) := by
  rcases run_live os populate s toolname toolpath theirpath location perm_file ngc_file
    accessions with ⟨f1, h1, i1⟩
  rcases noSDL_live os populate s toolname toolpath theirpath accessions with ⟨f2, h2, i2⟩
  have e1 := live_after_freed _ _ _ h1
  have e2 := live_after_freed _ _ _ h2
  simp only [Option.toList, List.nil_append] at e1 e2
  refine ⟨⟨f1, h1, i1, e1⟩, ?_, ⟨f2, h2, i2, e2⟩, ?_⟩
  · intro hc
    have := i1.mpr hc
    subst this
    simpa using e1.symm
  · intro hc
    have := i2.mpr hc
    subst this
    simpa using e2.symm

/-! ## The index passed to `populate_argv_builder` -/

section index_facts

theorem populated_append (a b : List Event) :
    populated (a ++ b) = populated a ++ populated b := by
  induction a with
  | nil => rfl
  | cons e rest ih => cases e <;> simp [populated, ih]

theorem populated_quiet (live : Option Argv) (l : List Event)
    (h : ∀ e ∈ l, (∃ c, e = Event.run_child_and_wait c ∧ some c.argv = live) ∨
      (∃ n t, e = Event.log n t) ∨ ∃ t, e = Event.cerr t) :
    populated l = [] := by
  induction l with
  | nil => rfl
  | cons e rest ih =>
    have hrest := ih (fun x hx => h x (List.mem_cons_of_mem _ hx))
    rcases h e (List.mem_cons_self _ _) with ⟨c, he, _⟩ | ⟨n, t, he⟩ | ⟨t, he⟩ <;>
      subst he <;> simp [populated, hrest]

theorem index_at_spawns_quiet (live : Option Argv) (l : List Event)
    (h : ∀ e ∈ l, (∃ c, e = Event.run_child_and_wait c ∧ some c.argv = live) ∨
      (∃ n t, e = Event.log n t) ∨ ∃ t, e = Event.cerr t) :
    ∀ (cur : Option Int) (b : List Event),
      index_at_spawns cur (l ++ b)
        = (spawns l).map (fun c => (cur, c.pos)) ++ index_at_spawns cur b := by
  induction l with
  | nil => intro cur b; rfl
  | cons e rest ih =>
    have hrest := ih (fun x hx => h x (List.mem_cons_of_mem _ hx))
    intro cur b
    rcases h e (List.mem_cons_self _ _) with ⟨c, he, _⟩ | ⟨n, t, he⟩ | ⟨t, he⟩ <;>
      subst he <;> simp [index_at_spawns, spawns, hrest]

theorem index_at_spawns_snd (l : List Event) :
    ∀ (cur : Option Int),
      (index_at_spawns cur l).map Prod.snd = (spawns l).map (fun c => c.pos) := by
  induction l with
  | nil => intro cur; rfl
  | cons e rest ih => intro cur; cases e <;> simp [index_at_spawns, spawns, ih]

theorem has_sources_true (all_sources : SourceSet) (acc : String) (h : all_sources acc ≠ []) :
    has_sources all_sources acc = true := by
  cases hl : all_sources acc with
  | nil => exact absurd hl h
  | cons x xs => simp [has_sources, hl]

theorem has_sources_false (all_sources : SourceSet) (acc : String) (h : all_sources acc = []) :
    has_sources all_sources acc = false := by
  simp [has_sources, h]

end index_facts

section index_runs

variable {σ : Type} (os : OS σ) (populate : Populate) (all_sources : SourceSet)
  (toolname toolpath theirpath : String) (accessions : List String)

/-- The calls of `populate_argv_builder` of the accession loop get the
successive values of the counter, one per accession that has sources, for all
of them when the loop returns 0. -/
theorem run_loop_populated (l : List String) :
    ∀ (i : Int) (pos : Nat) (s : σ), ∃ m,
      populated (run_loop os populate all_sources toolname toolpath theirpath accessions i pos s
          l).trace = (List.range m).map (fun (j : Nat) => (i + (j : Int), accessions)) ∧
      m ≤ (l.filter (has_sources all_sources)).length ∧
      ((run_loop os populate all_sources toolname toolpath theirpath accessions i pos s
          l).ending = Ending.returned 0 → m = (l.filter (has_sources all_sources)).length) := by
  induction l with
  | nil => intro i pos s; exact ⟨0, rfl, by simp, by simp⟩
  | cons acc rest ih =>
    intro i pos s
    by_cases hs : all_sources acc = []
    · rw [run_loop_skip os populate all_sources toolname toolpath theirpath accessions i pos s
        acc rest hs]
      have hf : (acc :: rest).filter (has_sources all_sources)
          = rest.filter (has_sources all_sources) := by
        simp [List.filter_cons, has_sources_false all_sources acc hs]
      rw [hf]
      exact ih _ _ _
    · have hq := populated_quiet _ _ (try_sources_events os pos toolpath toolname acc
        (argv_for populate theirpath accessions i acc) (all_sources acc) s)
      have hf : ((acc :: rest).filter (has_sources all_sources)).length
          = (rest.filter (has_sources all_sources)).length + 1 := by
        simp [List.filter_cons, has_sources_true all_sources acc hs]
      have hbuilt : ∀ (a : Argv) (rest0 : List Event),
          populated ([Event.populate_argv_builder i accessions, Event.generate_argv a] ++ rest0)
            = (i, accessions) :: populated rest0 := fun _ _ => rfl
      have hfree : ∀ (a : Argv) (rest0 : List Event),
          populated ([Event.free_argv a] ++ rest0) = populated rest0 := fun _ _ => rfl
      rcases run_loop_cons os populate all_sources toolname toolpath theirpath accessions i pos s
        acc rest hs with ⟨e1, hr, he, ht⟩ | ⟨hr, he, ht⟩ | ⟨hr, he, ht⟩
      · refine ⟨1, ?_, by omega, ?_⟩
        · rw [ht, hbuilt, hq]
          simp [List.range_succ]
        · intro h0
          rcases (try_sources_shape os pos toolpath toolname acc _ (all_sources acc) s).2.2 e1 hr
            with ⟨pre, last, _, hv, _⟩
          rw [he] at h0
          rw [h0] at hv
          rcases verdict_error _ _ hv with ⟨_, _, _, _, h⟩ | ⟨_, _, _, h⟩ | ⟨_, h⟩ <;> cases h
      · rcases ih (i + 1) (pos + 1) (try_sources os pos toolpath toolname acc
          (argv_for populate theirpath accessions i acc) s (all_sources acc)).2.2 with
          ⟨m, hm, hle, hall⟩
        refine ⟨m + 1, ?_, by omega, ?_⟩
        · rw [ht, List.append_assoc, List.append_assoc, hbuilt, populated_append, hq,
            List.nil_append, hfree, hm, List.range_succ_eq_map]
          simp only [List.map_cons, List.map_map, Nat.cast_zero, add_zero, List.cons.injEq,
            true_and]
          apply List.map_congr_left
          intro j _
          simp only [Function.comp, Nat.succ_eq_add_one, Nat.cast_add, Nat.cast_one,
            Prod.mk.injEq, and_true]
          ring
        · intro h0
          rw [he] at h0
          rw [hall h0, hf]
      · refine ⟨1, ?_, by omega, ?_⟩
        · rw [ht, List.append_assoc, List.append_assoc, hbuilt, populated_append, hq,
            List.nil_append, hfree,
            populated_quiet none _ (tried_report_events acc (all_sources acc) none)]
          simp [List.range_succ]
        · intro h0
          rw [he] at h0
          have h75 : EX_TEMPFAIL = 0 := by simpa using h0
          exact absurd h75 EX_TEMPFAIL_ne_zero

/-- At every call of the accession loop, the index last passed to
`populate_argv_builder` is the value of the counter at the start plus the
number of accessions with sources between the start and the position of the
call. -/
theorem run_loop_index (l : List String) :
    ∀ (i : Int) (pos : Nat) (s : σ) (cur : Option Int),
      ∀ x ∈ index_at_spawns cur (run_loop os populate all_sources toolname toolpath theirpath
          accessions i pos s l).trace,
        pos ≤ x.2 ∧
        x.1 = some (i + (((l.take (x.2 - pos)).filter (has_sources all_sources)).length : Nat))
    := by
  induction l with
  | nil => intro i pos s cur x hx; simp [run_loop, index_at_spawns] at hx
  | cons acc rest ih =>
    intro i pos s cur x hx
    by_cases hs : all_sources acc = []
    · rw [run_loop_skip os populate all_sources toolname toolpath theirpath accessions i pos s
        acc rest hs] at hx
      rcases ih i (pos + 1) s cur x hx with ⟨h1, h2⟩
      refine ⟨by omega, ?_⟩
      rw [h2, show x.2 - pos = (x.2 - (pos + 1)) + 1 by omega, List.take_succ_cons]
      simp [List.filter_cons, has_sources_false all_sources acc hs]
    · have hq := index_at_spawns_quiet _ _ (try_sources_events os pos toolpath toolname acc
        (argv_for populate theirpath accessions i acc) (all_sources acc) s)
      have hpos := try_sources_pos_eq os toolname toolpath pos acc
        (argv_for populate theirpath accessions i acc) s (all_sources acc)
      have hbuilt : ∀ (a : Argv) (rest0 : List Event),
          index_at_spawns cur ([Event.populate_argv_builder i accessions,
            Event.generate_argv a] ++ rest0) = index_at_spawns (some i) rest0 :=
        fun _ _ => rfl
      have hfree : ∀ (a : Argv) (rest0 : List Event),
          index_at_spawns (some i) ([Event.free_argv a] ++ rest0)
            = index_at_spawns (some i) rest0 := fun _ _ => rfl
      have hhere : ∀ y ∈ (spawns (try_sources os pos toolpath toolname acc
            (argv_for populate theirpath accessions i acc) s (all_sources acc)).2.1).map
            (fun c => (some i, c.pos)),
          pos ≤ y.2 ∧ y.1 = some (i + ((((acc :: rest).take (y.2 - pos)).filter
            (has_sources all_sources)).length : Nat)) := by
        intro y hy
        rcases List.mem_map.mp hy with ⟨c, hc, hcy⟩
        subst hcy
        simp [(hpos c hc).1]
      rcases run_loop_cons os populate all_sources toolname toolpath theirpath accessions i pos s
        acc rest hs with ⟨e1, hr, he, ht⟩ | ⟨hr, he, ht⟩ | ⟨hr, he, ht⟩
      · rw [ht, hbuilt] at hx
        have := hq (some i) []
        rw [List.append_nil] at this
        rw [this] at hx
        simp only [index_at_spawns, List.append_nil] at hx
        exact hhere x hx
      · rw [ht, List.append_assoc, List.append_assoc, hbuilt, hq, hfree] at hx
        rcases List.mem_append.mp hx with hx | hx
        · exact hhere x hx
        · rcases ih (i + 1) (pos + 1) _ (some i) x hx with ⟨h1, h2⟩
          refine ⟨by omega, ?_⟩
          rw [h2, show x.2 - pos = (x.2 - (pos + 1)) + 1 by omega, List.take_succ_cons]
          simp only [List.filter_cons, has_sources_true all_sources acc hs, if_true,
            List.length_cons, Nat.cast_add, Nat.cast_one, Option.some.injEq]
          ring
      · rw [ht, List.append_assoc, List.append_assoc, hbuilt, hq, hfree] at hx
        have := index_at_spawns_quiet none _
          (tried_report_events acc (all_sources acc) none) (some i) []
        rw [List.append_nil] at this
        rw [this, spawns_tried_report] at hx
        simp only [List.map_nil, index_at_spawns, List.append_nil] at hx
        exact hhere x hx

end index_runs

/-- C23: on a non-empty accession list the calls of `populate_argv_builder`
made by `ToolExec::run` get the indices 0, 1, 2, ... in order, without gaps,
one call per accession with sources that the loop comes to, and one for each
of them when the run returns 0. At every call of `run_child_and_wait` the
index last passed to `populate_argv_builder` is the number of accessions with
sources that stand before the accession of the call in the input list; that
accession has sources. This number is at most the input position, and it is
the input position exactly when every earlier accession has sources. In the
run for `ERP000001`, which has no source, and `SRR000002`, the child for
`SRR000002` at input position 1 is started after the index 0 was passed. -/
theorem populate_index_counts_accessions_with_sources {σ : Type} (os : OS σ)
    (populate : Populate) (s : σ)
    (toolname toolpath theirpath location perm_file ngc_file : String)
    (accessions : List String) (hne : accessions ≠ []) :
    (∃ m,
      populated (ToolExec.run os populate s toolname toolpath theirpath location perm_file
          ngc_file accessions).trace
        = (List.range m).map (fun (j : Nat) => ((j : Int), accessions)) ∧
      m ≤ (accessions.filter (has_sources
        (os.preload s accessions (ambient location perm_file ngc_file)).1)).length ∧
      ((ToolExec.run os populate s toolname toolpath theirpath location perm_file
          ngc_file accessions).ending = Ending.returned 0 →
        m = (accessions.filter (has_sources
          (os.preload s accessions (ambient location perm_file ngc_file)).1)).length)) ∧
    (index_at_spawns none (ToolExec.run os populate s toolname toolpath theirpath location
        perm_file ngc_file accessions).trace).map Prod.snd
      = (spawns (ToolExec.run os populate s toolname toolpath theirpath location
        perm_file ngc_file accessions).trace).map (fun c => c.pos) ∧
    (∀ x ∈ index_at_spawns none (ToolExec.run os populate s toolname toolpath theirpath
        location perm_file ngc_file accessions).trace,
      x.1 = some ((((accessions.take x.2).filter (has_sources
        (os.preload s accessions (ambient location perm_file ngc_file)).1)).length : Nat) :
          Int)) ∧
    (∀ x ∈ index_at_spawns none (ToolExec.run os populate s toolname toolpath theirpath
        location perm_file ngc_file accessions).trace,
      ∃ acc, accessions[x.2]? = some acc ∧
        has_sources (os.preload s accessions (ambient location perm_file ngc_file)).1 acc
          = true) ∧
    (∀ p, ((accessions.take p).filter (has_sources
      (os.preload s accessions (ambient location perm_file ngc_file)).1)).length ≤ p) ∧
    (∀ p, p ≤ accessions.length →
      (((accessions.take p).filter (has_sources
          (os.preload s accessions (ambient location perm_file ngc_file)).1)).length = p ↔
        ∀ a ∈ accessions.take p,
          has_sources (os.preload s accessions (ambient location perm_file ngc_file)).1 a
            = true)) ∧
    populated (demo_run [ProcResult.exited 0] ["ERP000001", "SRR000002"]).trace
      = [(0, ["ERP000001", "SRR000002"])] ∧
    index_at_spawns none (demo_run [ProcResult.exited 0] ["ERP000001", "SRR000002"]).trace
      = [(some 0, 1)] := by
  have hpop := run_loop_populated os populate
    (os.preload s accessions (ambient location perm_file ngc_file)).1 toolname toolpath theirpath
    accessions accessions 0 0 (os.preload s accessions (ambient location perm_file ngc_file)).2
  have hidx := run_loop_index os populate
    (os.preload s accessions (ambient location perm_file ngc_file)).1 toolname toolpath theirpath
    accessions accessions 0 0 (os.preload s accessions (ambient location perm_file ngc_file)).2
    none
  have hacc := run_loop_spawn_accession os populate
    (os.preload s accessions (ambient location perm_file ngc_file)).1 toolname toolpath theirpath
    accessions accessions 0 0 (os.preload s accessions (ambient location perm_file ngc_file)).2
  have hsnd := index_at_spawns_snd (run_loop os populate
    (os.preload s accessions (ambient location perm_file ngc_file)).1 toolname toolpath theirpath
    accessions 0 0 (os.preload s accessions (ambient location perm_file ngc_file)).2
    accessions).trace none
  simp only [zero_add, Nat.sub_zero] at hpop hidx hacc
  have hhead1 : ∀ g1 a g2 g3 rest, populated ([Event.set_ambient g1, Event.preload a g2,
      Event.set_ambient g3, Event.set_ce_token_env_var] ++ rest) = populated rest :=
    fun _ _ _ _ _ => rfl
  have hhead2 : ∀ g1 a g2 g3 rest, index_at_spawns none ([Event.set_ambient g1,
      Event.preload a g2, Event.set_ambient g3, Event.set_ce_token_env_var] ++ rest)
      = index_at_spawns none rest := fun _ _ _ _ _ => rfl
  have hhead3 : ∀ g1 a g2 g3 rest, spawns ([Event.set_ambient g1, Event.preload a g2,
      Event.set_ambient g3, Event.set_ce_token_env_var] ++ rest) = spawns rest :=
    fun _ _ _ _ _ => rfl
  rw [run_nonempty os populate s toolname toolpath theirpath location perm_file ngc_file
    accessions hne]
  simp only [hhead1, hhead2, hhead3]
  refine ⟨hpop, hsnd, fun x hx => (hidx x hx).2, ?_, ?_, ?_, by decide, by decide⟩
  · intro x hx
    have hmem : x.2 ∈ (index_at_spawns none (run_loop os populate
        (os.preload s accessions (ambient location perm_file ngc_file)).1 toolname toolpath
        theirpath accessions 0 0 (os.preload s accessions (ambient location perm_file
          ngc_file)).2 accessions).trace).map Prod.snd := List.mem_map_of_mem Prod.snd hx
    rw [hsnd] at hmem
    rcases List.mem_map.mp hmem with ⟨c, hc, hcx⟩
    rcases hacc c hc with ⟨j, acc, _, hk, _, hsrc⟩
    refine ⟨acc, by rw [← hcx]; exact hk, ?_⟩
    apply has_sources_true
    intro hnil
    rw [hnil] at hsrc
    simp at hsrc
  · intro p
    calc ((accessions.take p).filter _).length ≤ (accessions.take p).length :=
          List.length_filter_le _ _
      _ ≤ p := by rw [List.length_take]; omega
  · intro p hp
    have hlen : (accessions.take p).length = p := by
      rw [List.length_take]
      omega
    constructor
    · intro h
      have h2 : ((accessions.take p).filter (has_sources
          (os.preload s accessions (ambient location perm_file ngc_file)).1)).length
          = (accessions.take p).length := by rw [h, hlen]
      exact List.filter_length_eq_length.mp h2
    · intro h
      rw [List.filter_length_eq_length.mpr h, hlen]

/-- Witness of C23: `ERP000001` has no source, so the child for `SRR000002`,
at input position 1, is started after the index 0 was passed. -/
theorem populate_index_counts_accessions_with_sources_witness :
    (["ERP000001", "SRR000002"] : List String) ≠ [] ∧
    ∀ x ∈ index_at_spawns none
        (demo_run [ProcResult.exited 0] ["ERP000001", "SRR000002"]).trace,
      x.1 = some ((((["ERP000001", "SRR000002"].take x.2).filter
        (has_sources demo_sources)).length : Nat) : Int) :=
  ⟨by decide,
    (populate_index_counts_accessions_with_sources (scripted demo_sources) no_options
      [ProcResult.exited 0] "fastq-dump" "/opt/sratoolkit/bin/fastq-dump-orig"
      "fastq-dump-orig" "" "" "" ["ERP000001", "SRR000002"] (by decide)).2.2.1⟩

end sratools2
